import Mathlib

/-!
# chat-massage: the live messaging engine

A shallow embedding of `backend/src/socket/socketHandler.js`, the `Chat` and
`Message` models and the message routes.  The durable store, the socket
registry and the room table are an explicit `State`; every handler is a total
function from a state and a request to the next state and the events it emits.
Rejections of store calls and the passing of time are inputs (`Faults`).
-/

set_option autoImplicit false

namespace ChatMassage

/-! ## Values -/

/-- A store identifier (`ObjectId`), in canonical form. -/
abbrev ObjectId := Nat

/-- The identifier socket.io gives a connection. -/
abbrev SocketId := Nat

/-- A point in time (milliseconds). -/
abbrev Date := Nat

/-- A JavaScript string: its sequence of UTF-16 code units. -/
abbrev JsString := List Nat

/-- A value received in an event payload. -/
inductive JsValue where
  | undefined
  | null
  | bool (b : Bool)
  | number (n : Int)
  | string (s : JsString)
  deriving DecidableEq, Repr

/-- JavaScript truthiness (`!v` is its negation). -/
def JsValue.truthy : JsValue → Bool
  | .undefined => false
  | .null => false
  | .bool b => b
  | .number n => n != 0
  | .string s => !s.isEmpty

/-- The `chatId` field of a payload: absent or falsy, a truthy value that does
not cast to an `ObjectId`, the canonical string of an `ObjectId` (what
`toString()` gives: 24 lower-case hexadecimal digits), or another text that
casts to an `ObjectId`, such as the same digits in upper case.  The store
queries cast the field; socket.io names a room by the field as it was sent. -/
inductive WireId where
  | missing
  | malformed
  | oid (id : ObjectId)
  | variant (id : ObjectId) (text : JsString)
  deriving DecidableEq, Repr

/-- Truthiness of a `chatId` field. -/
def WireId.truthy : WireId → Bool
  | .missing => false
  | .malformed => true
  | .oid _ => true
  | .variant _ _ => true

/-- The `ObjectId` a `chatId` field casts to in a store query; `none` is a
`CastError`, or a field that is absent. -/
def WireId.cast : WireId → Option ObjectId
  | .oid id => some id
  | .variant id _ => some id
  | _ => none

/-- Code units that `String.prototype.trim` strips: WhiteSpace and
LineTerminator of ECMAScript. -/
def isWhiteSpace (u : Nat) : Bool :=
  u == 9 || u == 10 || u == 11 || u == 12 || u == 13 || u == 32 || u == 160 ||
  u == 5760 || (8192 ≤ u && u ≤ 8202) || u == 8232 || u == 8233 || u == 8239 ||
  u == 8287 || u == 12288 || u == 65279

/-- Strip leading white space. -/
def trimStart (s : JsString) : JsString := s.dropWhile isWhiteSpace

/-- Strip trailing white space. -/
def trimEnd (s : JsString) : JsString := (s.reverse.dropWhile isWhiteSpace).reverse

/-- The `trim()` of a string. -/
def trim (s : JsString) : JsString := trimEnd (trimStart s)

/-! ## Documents -/

/-- A `User` document (the fields the engine reads or writes).  `displayName`
has no schema default, so it is absent until it is set; `avatar` defaults to the
empty text. -/
structure User where
  _id : ObjectId
  email : JsString
  isVerified : Bool
  isOnline : Bool
  lastSeen : Date
  displayName : Option JsString := none
  avatar : JsString := []
  createdAt : Date := 0
  deriving DecidableEq, Repr

/-- The denormalised `lastMessage` of a chat. -/
structure LastMessage where
  content : JsString
  senderId : ObjectId
  createdAt : Date
  deriving DecidableEq, Repr

/-- A `Chat` document. -/
structure Chat where
  _id : ObjectId
  participants : List ObjectId
  lastMessage : Option LastMessage
  updatedAt : Date
  createdAt : Date
  deriving DecidableEq, Repr

/-- A `Message` document. -/
structure Message where
  _id : ObjectId
  chatId : ObjectId
  senderId : ObjectId
  content : JsString
  seen : Bool
  seenAt : Option Date
  createdAt : Date
  deriving DecidableEq, Repr

/-- What `populate('senderId', 'email')` puts in place of a sender id. -/
structure SenderRef where
  _id : ObjectId
  email : JsString
  deriving DecidableEq, Repr

/-- A message document after `populate('senderId', 'email')`; the sender is
`none` (null) when no such user is stored. -/
structure PopulatedMessage where
  _id : ObjectId
  chatId : ObjectId
  senderId : Option SenderRef
  content : JsString
  seen : Bool
  seenAt : Option Date
  createdAt : Date
  deriving DecidableEq, Repr

/-! ## Connections and events -/

/-- A connection that passed the handshake: `socket.id`, `socket.userId` and
`socket.user.email`. -/
structure Socket where
  id : SocketId
  userId : ObjectId
  email : JsString
  deriving DecidableEq, Repr

/-- The `message` texts of the `error` event. -/
inductive ErrorMessage where
  | invalidMessageData
  | chatNotFound
  | failedToSendMessage
  deriving DecidableEq, Repr

/-- The `message` object carried by `receive_message`. -/
structure ReceivedMessage where
  _id : ObjectId
  chatId : ObjectId
  senderId : Option SenderRef
  content : JsString
  seen : Bool
  createdAt : Date
  deriving DecidableEq, Repr

/-- Events the server emits.  `chat_updated` and `messages_seen` carry the
`chatId` of the payload as it was sent: the `_raw` forms are these two events
for a `chatId` that was not the canonical string of an `ObjectId`. -/
inductive ServerEvent where
  | error (message : ErrorMessage)
  | receive_message (message : ReceivedMessage)
  | chat_updated (chatId : ObjectId) (lastMessage : LastMessage)
  | messages_seen (chatId : ObjectId) (userId : ObjectId)
  | chat_updated_raw (chatId : JsString) (lastMessage : LastMessage)
  | messages_seen_raw (chatId : JsString) (userId : ObjectId)
  | user_online (userId : ObjectId) (email : JsString)
  | user_offline (userId : ObjectId) (lastSeen : Date)
  | user_typing (userId : ObjectId) (email : JsString) (isTyping : JsValue)
  deriving DecidableEq, Repr

/-- One delivery of an event to one connection. -/
structure Emit where
  target : SocketId
  event : ServerEvent
  deriving DecidableEq, Repr

/-- The `{ chatId, content }` payload of `send_message`. -/
structure SendMessageData where
  chatId : WireId
  content : JsValue
  deriving DecidableEq, Repr

/-! ## State and environment -/

/-- The durable store (`users`, `chats`, `messages`, in insertion order), the
live connections, the `connectedUsers` map, the room table of socket.io, the
last time read from the clock and the next fresh `ObjectId`.  The room table
is kept in two parts: `rooms` holds the rooms named by the canonical string of
an `ObjectId`, under that `ObjectId`; `otherRooms` holds the rooms of any other
name a session joined, under the name. -/
structure State where
  users : List User
  chats : List Chat
  messages : List Message
  sockets : List Socket
  connectedUsers : List (ObjectId × SocketId)
  rooms : List (ObjectId × SocketId)
  clock : Date
  nextId : ObjectId
  otherRooms : List (JsString × SocketId) := []
  deriving DecidableEq, Repr

/-- What the environment decides during one handler run: which store calls
reject, and how much time passes before each reading of the clock. -/
structure Faults where
  findOneFails : Bool
  createFails : Bool
  updateFails : Bool
  populateFails : Bool
  markSeenFails : Bool
  findFails : Bool
  userUpdateFails : Bool
  userFindFails : Bool
  chatCreateFails : Bool
  tick : Nat
  countFails : Bool := false
  saveFails : Bool := false
  deriving DecidableEq, Repr

/-- An environment in which every store call succeeds. -/
def Faults.none (tick : Nat) : Faults :=
  { findOneFails := false, createFails := false, updateFails := false,
    populateFails := false, markSeenFails := false, findFails := false,
    userUpdateFails := false, userFindFails := false, chatCreateFails := false,
    tick := tick }

/-! ## Store primitives -/

/-- Apply `f` to the first element satisfying `p` (`findOneAndUpdate`). -/
def updateFirst {α : Type} (p : α → Bool) (f : α → α) : List α → List α
  | [] => []
  | a :: as => if p a then f a :: as else a :: updateFirst p f as

/-- The `updateMany` of a collection: every document matching `filter` is
rewritten by `update`; also returns `modifiedCount`. -/
def updateMany {α : Type} (filter : α → Bool) (update : α → α) (docs : List α) :
    List α × Nat :=
  (docs.map fun d => if filter d then update d else d, docs.countP filter)

/-- `Map.prototype.get`. -/
def mapGet (m : List (ObjectId × SocketId)) (k : ObjectId) : Option SocketId :=
  (m.find? fun p => p.1 == k).map Prod.snd

/-- `Map.prototype.set`: replace the value under `k`, or append a new entry. -/
def mapSet (m : List (ObjectId × SocketId)) (k : ObjectId) (v : SocketId) :
    List (ObjectId × SocketId) :=
  if m.any (fun p => p.1 == k) then m.map (fun p => if p.1 == k then (k, v) else p)
  else m ++ [(k, v)]

/-- The connections in the room of a chat: the room named by the canonical
string of its identifier. -/
def roomMembers (s : State) (chatId : ObjectId) : List SocketId :=
  (s.rooms.filter fun r => r.1 == chatId).map Prod.snd

/-- `socket.join(chatId)`: rooms are sets, joining twice changes nothing. -/
def roomJoin (rooms : List (ObjectId × SocketId)) (chatId : ObjectId) (sid : SocketId) :
    List (ObjectId × SocketId) :=
  if rooms.contains (chatId, sid) then rooms else rooms ++ [(chatId, sid)]

/-- The connections in a room whose name is not the canonical string of an
`ObjectId`. -/
def roomMembersNamed (s : State) (name : JsString) : List SocketId :=
  (s.otherRooms.filter fun r => r.1 == name).map Prod.snd

/-- `socket.join(name)` for such a name. -/
def roomJoinNamed (rooms : List (JsString × SocketId)) (name : JsString) (sid : SocketId) :
    List (JsString × SocketId) :=
  if rooms.contains (name, sid) then rooms else rooms ++ [(name, sid)]

/-- `Chat.findOne({ _id: chatId, participants: userId })`. -/
def Chat.findOne (chats : List Chat) (chatId userId : ObjectId) : Option Chat :=
  chats.find? fun c => c._id == chatId && c.participants.contains userId

/-- `Message.create({ chatId, senderId, content })`: the schema trims the
content, requires it to be non-empty and at most 5000 long, and fills in
`seen`, `createdAt` and `_id`.  Returns the created document, or `none` when
validation or the store rejects. -/
def Message.create (env : Faults) (s : State) (chatId senderId : ObjectId)
    (content : JsString) : State × Option Message :=
  let now := s.clock + env.tick
  let doc : Message :=
    { _id := s.nextId, chatId := chatId, senderId := senderId, content := trim content,
      seen := false, seenAt := none, createdAt := now }
  let s1 := { s with clock := now }
  if doc.content.isEmpty || doc.content.length > 5000 then (s1, none)
  else if env.createFails then (s1, none)
  else ({ s1 with messages := s1.messages ++ [doc], nextId := s1.nextId + 1 }, some doc)

/-- `Chat.updateLastMessage(chatId, message)`, a `findByIdAndUpdate`; returns
`false` when the store rejects. -/
def Chat.updateLastMessage (env : Faults) (s : State) (chatId : ObjectId)
    (message : Message) : State × Bool :=
  let now := s.clock + env.tick
  let s1 := { s with clock := now }
  if env.updateFails then (s1, false)
  else
    let lastMessage : LastMessage :=
      { content := message.content, senderId := message.senderId,
        createdAt := message.createdAt }
    let chats := updateFirst (fun c => c._id == chatId)
      (fun c => { c with lastMessage := some lastMessage, updatedAt := now }) s1.chats
    ({ s1 with chats := chats }, true)

/-- `Message.markAsSeen(chatId, userId)`: an `updateMany` over the messages of
the chat not sent by `userId` and not yet seen.  Returns `modifiedCount`, or
`none` when the store rejects. -/
def Message.markAsSeen (env : Faults) (s : State) (chatId userId : ObjectId) :
    State × Option Nat :=
  let now := s.clock + env.tick
  let s1 := { s with clock := now }
  if env.markSeenFails then (s1, none)
  else
    let r := updateMany
      (fun m : Message => m.chatId == chatId && m.senderId != userId && m.seen == false)
      (fun m => { m with seen := true, seenAt := some now }) s1.messages
    ({ s1 with messages := r.1 }, some r.2)

/-- The document `populate('senderId', 'email')` substitutes for a user id. -/
def populateSender (users : List User) (senderId : ObjectId) : Option SenderRef :=
  (users.find? fun u => u._id == senderId).map fun u => { _id := u._id, email := u.email }

/-- A message after `populate('senderId', 'email')`. -/
def populate (users : List User) (m : Message) : PopulatedMessage :=
  { _id := m._id, chatId := m.chatId, senderId := populateSender users m.senderId,
    content := m.content, seen := m.seen, seenAt := m.seenAt, createdAt := m.createdAt }

/-! ## Socket handlers -/

/-- The `connection` handler (up to the registration of the event handlers):
record the socket in `connectedUsers`, mark the user online, and broadcast
`user_online` to every other connection.  When the store rejects the update
the handler stops there, with nothing emitted: what is returned is the
registry and the store at that moment, and `connectionOutcome` tells what
becomes of the process. -/
def connection (env : Faults) (s : State) (socket : Socket) : State × List Emit :=
  let now := s.clock + env.tick
  let s1 := { s with
    sockets := s.sockets ++ [socket],
    connectedUsers := mapSet s.connectedUsers socket.userId socket.id,
    clock := now }
  if env.userUpdateFails then (s1, [])
  else
    let users := updateFirst (fun u => u._id == socket.userId)
      (fun u => { u with isOnline := true, lastSeen := now }) s1.users
    ({ s1 with users := users },
      (s.sockets.filter fun k => k.id != socket.id).map fun k =>
        { target := k.id, event := .user_online socket.userId socket.email })

/-- The `chat.participants.forEach` loop of `send_message`: `chat_updated` goes
to the socket `connectedUsers` holds for each participant.  Building the
payload reads `message.senderId._id`, which throws when the populated sender is
null; the flag tells whether the loop threw. -/
def chatUpdatedLoop (connectedUsers : List (ObjectId × SocketId)) (chatId : ObjectId)
    (message : Message) (sender : Option SenderRef) : List ObjectId → List Emit × Bool
  | [] => ([], false)
  | participantId :: rest =>
    match mapGet connectedUsers participantId with
    | none => chatUpdatedLoop connectedUsers chatId message sender rest
    | some participantSocketId =>
      match sender with
      | none => ([], true)
      | some ref =>
        let r := chatUpdatedLoop connectedUsers chatId message sender rest
        ({ target := participantSocketId,
           event := .chat_updated chatId
             { content := message.content, senderId := ref._id,
               createdAt := message.createdAt } } :: r.1, r.2)

/-- The same loop for a `chatId` that was not sent as a canonical string: the
payload of `chat_updated` carries the text as it was sent. -/
def chatUpdatedLoopRaw (connectedUsers : List (ObjectId × SocketId)) (chatId : JsString)
    (message : Message) (sender : Option SenderRef) : List ObjectId → List Emit × Bool
  | [] => ([], false)
  | participantId :: rest =>
    match mapGet connectedUsers participantId with
    | none => chatUpdatedLoopRaw connectedUsers chatId message sender rest
    | some participantSocketId =>
      match sender with
      | none => ([], true)
      | some ref =>
        let r := chatUpdatedLoopRaw connectedUsers chatId message sender rest
        ({ target := participantSocketId,
           event := .chat_updated_raw chatId
             { content := message.content, senderId := ref._id,
               createdAt := message.createdAt } } :: r.1, r.2)

/-- The `send_message` handler.  Every throw inside the `try` ends in the
`catch`, which emits `error` "Failed to send message" to the caller; writes
made before the throw stay.  The store calls use the `ObjectId` the `chatId`
casts to; `io.to(chatId)` and the payload of `chat_updated` use the `chatId` as
it was sent. -/
def sendMessage (env : Faults) (s : State) (socket : Socket)
    (data : Option SendMessageData) : State × List Emit :=
  let failed : Emit := { target := socket.id, event := .error .failedToSendMessage }
  let invalid : Emit := { target := socket.id, event := .error .invalidMessageData }
  match data with
  | none => (s, [failed])
  | some d =>
    if !d.chatId.truthy || !d.content.truthy then (s, [invalid])
    else
      match d.content with
      | .string content =>
        if (trim content).isEmpty then (s, [invalid])
        else
          match d.chatId with
          | .oid chatId =>
            if env.findOneFails then (s, [failed])
            else
              match Chat.findOne s.chats chatId socket.userId with
              | none => (s, [{ target := socket.id, event := .error .chatNotFound }])
              | some chat =>
                match Message.create env s chatId socket.userId (trim content) with
                | (s1, none) => (s1, [failed])
                | (s1, some message) =>
                  match Chat.updateLastMessage env s1 chatId message with
                  | (s2, false) => (s2, [failed])
                  | (s2, true) =>
                    if env.populateFails then (s2, [failed])
                    else
                      let sender := populateSender s2.users message.senderId
                      let received : ReceivedMessage :=
                        { _id := message._id, chatId := message.chatId, senderId := sender,
                          content := message.content, seen := message.seen,
                          createdAt := message.createdAt }
                      let live : List Emit := (roomMembers s2 chatId).map fun sid =>
                        { target := sid, event := .receive_message received }
                      let updated :=
                        chatUpdatedLoop s2.connectedUsers chatId message sender chat.participants
                      (s2, live ++ updated.1 ++ if updated.2 then [failed] else [])
          | .variant chatId text =>
            if env.findOneFails then (s, [failed])
            else
              match Chat.findOne s.chats chatId socket.userId with
              | none => (s, [{ target := socket.id, event := .error .chatNotFound }])
              | some chat =>
                match Message.create env s chatId socket.userId (trim content) with
                | (s1, none) => (s1, [failed])
                | (s1, some message) =>
                  match Chat.updateLastMessage env s1 chatId message with
                  | (s2, false) => (s2, [failed])
                  | (s2, true) =>
                    if env.populateFails then (s2, [failed])
                    else
                      let sender := populateSender s2.users message.senderId
                      let received : ReceivedMessage :=
                        { _id := message._id, chatId := message.chatId, senderId := sender,
                          content := message.content, seen := message.seen,
                          createdAt := message.createdAt }
                      let live : List Emit := (roomMembersNamed s2 text).map fun sid =>
                        { target := sid, event := .receive_message received }
                      let updated :=
                        chatUpdatedLoopRaw s2.connectedUsers text message sender
                          chat.participants
                      (s2, live ++ updated.1 ++ if updated.2 then [failed] else [])
          | _ => (s, [failed])
      | _ => (s, [failed])

/-- The `join` handler, for a payload that is the canonical string of a chat
identifier.  Its `catch` only logs. -/
def join (env : Faults) (s : State) (socket : Socket) (chatId : ObjectId) :
    State × List Emit :=
  if env.findOneFails then (s, [])
  else
    match Chat.findOne s.chats chatId socket.userId with
    | none => (s, [])
    | some _ =>
      let s1 := { s with rooms := roomJoin s.rooms chatId socket.id }
      match Message.markAsSeen env s1 chatId socket.userId with
      | (s2, none) => (s2, [])
      | (s2, some _) =>
        (s2, ((roomMembers s2 chatId).filter fun sid => sid != socket.id).map fun sid =>
          { target := sid, event := .messages_seen chatId socket.userId })

/-- The `join` handler, for a payload `text` that casts to the chat identifier
`chatId` without being its canonical string: `Chat.findOne` and `markAsSeen`
run on the identifier, `socket.join` and `socket.to` take the text. -/
def joinAs (env : Faults) (s : State) (socket : Socket) (chatId : ObjectId)
    (text : JsString) : State × List Emit :=
  if env.findOneFails then (s, [])
  else
    match Chat.findOne s.chats chatId socket.userId with
    | none => (s, [])
    | some _ =>
      let s1 := { s with otherRooms := roomJoinNamed s.otherRooms text socket.id }
      match Message.markAsSeen env s1 chatId socket.userId with
      | (s2, none) => (s2, [])
      | (s2, some _) =>
        (s2, ((roomMembersNamed s2 text).filter fun sid => sid != socket.id).map fun sid =>
          { target := sid, event := .messages_seen_raw text socket.userId })

/-- The `leave` handler: `socket.leave(chatId)`, for a payload that is the
canonical string of a chat identifier. -/
def leave (s : State) (socket : Socket) (chatId : ObjectId) : State × List Emit :=
  ({ s with rooms := s.rooms.filter fun r => !(r.1 == chatId && r.2 == socket.id) }, [])

/-- The `mark_seen` handler, for a payload `{ chatId }` that is the canonical
string of a chat identifier.  Its `catch` only logs. -/
def markSeen (env : Faults) (s : State) (socket : Socket) (chatId : ObjectId) :
    State × List Emit :=
  match Message.markAsSeen env s chatId socket.userId with
  | (s1, none) => (s1, [])
  | (s1, some _) =>
    (s1, ((roomMembers s1 chatId).filter fun sid => sid != socket.id).map fun sid =>
      { target := sid, event := .messages_seen chatId socket.userId })

/-- The `disconnect` handler.  When it runs socket.io has already taken the
socket out of the namespace and of every room.  The handler deletes the
user's entry of `connectedUsers`, marks the user offline and broadcasts
`user_offline` to every other connection; `new Date()` is read once for the
store and once for the event.  When the store rejects the update the handler
stops there, with nothing emitted: what is returned is the registry and the
store at that moment, and `disconnectOutcome` tells what becomes of the
process. -/
def disconnect (env : Faults) (s : State) (socket : Socket) : State × List Emit :=
  let now := s.clock + env.tick
  let s1 := { s with
    sockets := s.sockets.filter fun k => k.id != socket.id,
    rooms := s.rooms.filter fun r => r.2 != socket.id,
    otherRooms := s.otherRooms.filter fun r => r.2 != socket.id,
    connectedUsers := s.connectedUsers.filter fun p => p.1 != socket.userId,
    clock := now }
  if env.userUpdateFails then (s1, [])
  else
    let users := updateFirst (fun u => u._id == socket.userId)
      (fun u => { u with isOnline := false, lastSeen := now }) s1.users
    let later := now + env.tick
    ({ s1 with users := users, clock := later },
      s1.sockets.map fun k =>
        { target := k.id, event := .user_offline socket.userId later })

/-- The helper `getSocketId`. -/
def getSocketId (s : State) (userId : ObjectId) : Option SocketId :=
  mapGet s.connectedUsers userId

/-- The helper `isUserOnline`: `connectedUsers.has(userId)`. -/
def isUserOnline (s : State) (userId : ObjectId) : Bool :=
  s.connectedUsers.any fun p => p.1 == userId

/-! ## The pull path -/

/-- Responses of `GET /messages/:chatId`. -/
inductive MessagesResponse where
  | ok (messages : List PopulatedMessage) (hasMore : Bool)
  | notFound
  | serverError
  deriving DecidableEq, Repr

/-- `.limit(n)`: `0` means no limit. -/
def applyLimit {α : Type} (n : Nat) (l : List α) : List α :=
  if n = 0 then l else l.take n

/-- `Message.find(query).sort({ createdAt: -1 }).limit(limit)`: the messages of
the chat, created strictly before `before` when it is given, newest first. -/
def Message.find (messages : List Message) (chatId : ObjectId) (before : Option Date)
    (limit : Nat) : List Message :=
  applyLimit limit
    ((messages.filter fun m =>
        m.chatId == chatId &&
          (match before with
           | none => true
           | some b => decide (m.createdAt < b))).insertionSort
      fun a b => b.createdAt ≤ a.createdAt)

/-- `GET /messages/:chatId` for the authenticated `userId`; `limit` is
`parseInt(limit)` with the default 50 already applied. -/
def getMessages (env : Faults) (s : State) (userId chatId : ObjectId) (limit : Nat)
    (before : Option Date) : State × MessagesResponse :=
  if env.findOneFails then (s, .serverError)
  else
    match Chat.findOne s.chats chatId userId with
    | none => (s, .notFound)
    | some _ =>
      if env.findFails || env.populateFails then (s, .serverError)
      else
        let messages := (Message.find s.messages chatId before limit).map (populate s.users)
        match Message.markAsSeen env s chatId userId with
        | (s1, none) => (s1, .serverError)
        | (s1, some _) => (s1, .ok messages.reverse (messages.length == limit))

/-- Responses of `POST /messages/:chatId`. -/
inductive PostMessageResponse where
  | created (message : PopulatedMessage)
  | badRequest
  | notFound
  | serverError
  deriving DecidableEq, Repr

/-- `POST /messages/:chatId` for the authenticated `userId`: the fallback for
sending when the socket fails. -/
def postMessage (env : Faults) (s : State) (userId chatId : ObjectId) (content : JsValue) :
    State × PostMessageResponse :=
  if !content.truthy then (s, .badRequest)
  else
    match content with
    | .string str =>
      if (trim str).isEmpty then (s, .badRequest)
      else if env.findOneFails then (s, .serverError)
      else
        match Chat.findOne s.chats chatId userId with
        | none => (s, .notFound)
        | some _ =>
          match Message.create env s chatId userId (trim str) with
          | (s1, none) => (s1, .serverError)
          | (s1, some message) =>
            match Chat.updateLastMessage env s1 chatId message with
            | (s2, false) => (s2, .serverError)
            | (s2, true) =>
              if env.populateFails then (s2, .serverError)
              else (s2, .created (populate s2.users message))
    | _ => (s, .serverError)

/-- Responses of `PUT /messages/:chatId/seen`. -/
inductive PutSeenResponse where
  | ok (markedCount : Nat)
  | notFound
  | serverError
  deriving DecidableEq, Repr

/-- `PUT /messages/:chatId/seen` for the authenticated `userId`. -/
def putSeen (env : Faults) (s : State) (userId chatId : ObjectId) :
    State × PutSeenResponse :=
  if env.findOneFails then (s, .serverError)
  else
    match Chat.findOne s.chats chatId userId with
    | none => (s, .notFound)
    | some _ =>
      match Message.markAsSeen env s chatId userId with
      | (s1, none) => (s1, .serverError)
      | (s1, some markedCount) => (s1, .ok markedCount)

/-! ## Creating a chat -/

/-- The code unit of a hexadecimal digit, lower case. -/
def hexDigit (d : Nat) : Nat := if d < 10 then 48 + d else 87 + d

/-- The value of a hexadecimal digit, of either case. -/
def hexValue (u : Nat) : Option Nat :=
  if 48 ≤ u ∧ u ≤ 57 then some (u - 48)
  else if 97 ≤ u ∧ u ≤ 102 then some (u - 87)
  else if 65 ≤ u ∧ u ≤ 70 then some (u - 55)
  else none

/-- `ObjectId.prototype.toString`: 24 lower-case hexadecimal digits. -/
def toHexString (id : ObjectId) : JsString :=
  (List.range 24).reverse.map fun i => hexDigit (id / 16 ^ i % 16)

/-- The number a string of hexadecimal digits denotes. -/
def parseHex : JsString → Option Nat
  | [] => some 0
  | u :: rest =>
    match hexValue u, parseHex rest with
    | some d, some n => some (d * 16 ^ rest.length + n)
    | _, _ => none

/-- The cast of a string to an `ObjectId`: 24 hexadecimal digits, of either
case. -/
def castObjectId (text : JsString) : Option ObjectId :=
  if text.length = 24 then parseHex text else none

/-- How the text of a `chatId` field is read: it casts or not, and when it
casts it is the canonical string of the `ObjectId` or another spelling. -/
def WireId.ofText (text : JsString) : WireId :=
  if text.isEmpty then .missing
  else
    match castObjectId text with
    | none => .malformed
    | some id => if text = toHexString id then .oid id else .variant id text

/-- The cast of a payload value to an `ObjectId`; `none` is a `CastError`. -/
def JsValue.castObjectId : JsValue → Option ObjectId
  | .string text => ChatMassage.castObjectId text
  | _ => none

/-- A user as `toObject()` gives it; a field left out of a `select` is
`none`. -/
structure UserObject where
  _id : ObjectId
  email : JsString
  isVerified : Option Bool
  isOnline : Option Bool
  lastSeen : Option Date
  createdAt : Option Date
  displayName : Option JsString := none
  deriving DecidableEq, Repr

/-- A chat whose participants went through
`populate('participants', 'email isOnline lastSeen')`; participants that are
not stored drop out of the array. -/
structure PopulatedChat where
  _id : ObjectId
  participants : List UserObject
  lastMessage : Option LastMessage
  updatedAt : Date
  createdAt : Date
  deriving DecidableEq, Repr

/-- `User.findById`. -/
def User.findById (users : List User) (id : ObjectId) : Option User :=
  users.find? fun u => u._id == id

/-- `chat.populate('participants', 'email isOnline lastSeen')`. -/
def populateChat (users : List User) (chat : Chat) : PopulatedChat :=
  { _id := chat._id,
    participants := chat.participants.filterMap fun id =>
      (User.findById users id).map fun u =>
        { _id := u._id, email := u.email, isVerified := none, isOnline := some u.isOnline,
          lastSeen := some u.lastSeen, createdAt := none },
    lastMessage := chat.lastMessage, updatedAt := chat.updatedAt, createdAt := chat.createdAt }

/-- `Chat.findOrCreateChat(userId1, userId2)`: the first chat whose participants
contain both users, or a new chat of the two.  `none` when the store rejects a
call. -/
def Chat.findOrCreateChat (env : Faults) (s : State) (userId1 userId2 : ObjectId) :
    State × Option PopulatedChat :=
  if env.findOneFails then (s, none)
  else
    match s.chats.find? fun c =>
        c.participants.contains userId1 && c.participants.contains userId2 with
    | some chat =>
      if env.populateFails then (s, none) else (s, some (populateChat s.users chat))
    | none =>
      let updatedAt := s.clock + env.tick
      let createdAt := updatedAt + env.tick
      let s1 := { s with clock := createdAt }
      if env.chatCreateFails then (s1, none)
      else
        let chat : Chat :=
          { _id := s.nextId, participants := [userId1, userId2], lastMessage := none,
            updatedAt := updatedAt, createdAt := createdAt }
        let s2 := { s1 with chats := s1.chats ++ [chat], nextId := s1.nextId + 1 }
        if env.populateFails then (s2, none) else (s2, some (populateChat s2.users chat))

/-- What `sanitizeUser` returns. -/
structure SanitizedUser where
  _id : ObjectId
  email : JsString
  displayName : JsString
  isVerified : Option Bool
  isOnline : Option Bool
  lastSeen : Option Date
  createdAt : Option Date
  deriving DecidableEq, Repr

/-- The helper `sanitizeUser`; `email.split('@')[0]` is the email up to its
first `@` (code unit 64). -/
def sanitizeUser (userObj : UserObject) : SanitizedUser :=
  { _id := userObj._id, email := userObj.email,
    displayName := userObj.email.takeWhile fun u => u != 64,
    isVerified := userObj.isVerified, isOnline := userObj.isOnline,
    lastSeen := userObj.lastSeen, createdAt := userObj.createdAt }

/-- What `formatChat` returns. -/
structure FormattedChat where
  _id : ObjectId
  participant : Option SanitizedUser
  lastMessage : Option LastMessage
  updatedAt : Date
  createdAt : Date
  deriving DecidableEq, Repr

/-- The helper `formatChat`. -/
def formatChat (chatObj : PopulatedChat) (currentUserId : ObjectId) : FormattedChat :=
  { _id := chatObj._id,
    participant := (chatObj.participants.find? fun p => p._id != currentUserId).map
      sanitizeUser,
    lastMessage := chatObj.lastMessage, updatedAt := chatObj.updatedAt,
    createdAt := chatObj.createdAt }

/-- Responses of `POST /chats`. -/
inductive PostChatResponse where
  | ok (chat : FormattedChat)
  | participantRequired
  | userNotFound
  | cannotChatWithSelf
  | serverError
  deriving DecidableEq, Repr

/-- `POST /chats` for the authenticated `userId`, with the `participantId` of
the request body.  The guard against a chat with oneself compares the text of
`participantId` with `req.userId.toString()`. -/
def postChat (env : Faults) (s : State) (userId : ObjectId) (participantId : JsValue) :
    State × PostChatResponse :=
  if !participantId.truthy then (s, .participantRequired)
  else
    match participantId.castObjectId with
    | none => (s, .serverError)
    | some id =>
      if env.userFindFails then (s, .serverError)
      else
        match User.findById s.users id with
        | none => (s, .userNotFound)
        | some _ =>
          if participantId == .string (toHexString userId) then (s, .cannotChatWithSelf)
          else
            match Chat.findOrCreateChat env s userId id with
            | (s1, none) => (s1, .serverError)
            | (s1, some chat) => (s1, .ok (formatChat chat userId))

/-! ## The server as a whole -/

/-- A request the server handles. -/
inductive Request where
  | connection (socket : Socket)
  | disconnect (socket : Socket)
  | join (socket : Socket) (chatId : ObjectId)
  | leave (socket : Socket) (chatId : ObjectId)
  | sendMessage (socket : Socket) (data : Option SendMessageData)
  | markSeen (socket : Socket) (chatId : ObjectId)
  | getMessages (userId chatId : ObjectId) (limit : Nat) (before : Option Date)
  | postMessage (userId chatId : ObjectId) (content : JsValue)
  | putSeen (userId chatId : ObjectId)
  | postChat (userId : ObjectId) (participantId : JsValue)
  deriving DecidableEq, Repr

/-- The state after a request is handled. -/
def handle (env : Faults) (s : State) : Request → State
  | .connection socket => (connection env s socket).1
  | .disconnect socket => (disconnect env s socket).1
  | .join socket chatId => (join env s socket chatId).1
  | .leave socket chatId => (leave s socket chatId).1
  | .sendMessage socket data => (sendMessage env s socket data).1
  | .markSeen socket chatId => (markSeen env s socket chatId).1
  | .getMessages userId chatId limit before => (getMessages env s userId chatId limit before).1
  | .postMessage userId chatId content => (postMessage env s userId chatId content).1
  | .putSeen userId chatId => (putSeen env s userId chatId).1
  | .postChat userId participantId => (postChat env s userId participantId).1

/-- The state after a sequence of requests, each with its environment. -/
def run (s : State) : List (Faults × Request) → State
  | [] => s
  | (env, request) :: rest => run (handle env s request) rest

/-! ## The catch-up protocol -/

/-- The catch-up protocol as the specification words it (section 4.5), run
against `getMessages`: list with no bound and a page size, then page backward
using the oldest returned timestamp as the next bound, until a page smaller than
the page size is returned; the pages are concatenated oldest first.  `fuel`
bounds the number of requests. -/
def catchUpBySpec (env : Faults) (reader chatId : ObjectId) (pageSize : Nat) :
    Nat → State → Option Date → List PopulatedMessage
  | 0, _, _ => []
  | fuel + 1, s, bound =>
    match getMessages env s reader chatId pageSize bound with
    | (s1, .ok page _) =>
      if page.length < pageSize then page
      else
        match page.head? with
        | none => page
        | some oldest =>
          catchUpBySpec env reader chatId pageSize fuel s1 (some oldest.createdAt) ++ page
    | (_, .notFound) => []
    | (_, .serverError) => []

/-! ## The handshake -/

/-- The errors the `io.use` middleware passes to `next`. -/
inductive HandshakeError where
  | authenticationRequired
  | userNotFoundOrNotVerified
  | invalidToken
  deriving DecidableEq, Repr

/-- The `userId` field of the payload of a verified token, as `User.findById`
takes it: absent (`undefined` or `null`), for which `findById` resolves to
`null`; a value that does not cast to an `ObjectId`, the empty text, `0` and
`false` included, for which `findById` throws a `CastError`; or a value that
casts to the `ObjectId` `id`. -/
inductive TokenSubject where
  | absent
  | uncastable
  | oid (id : ObjectId)
  deriving DecidableEq, Repr

/-- The `io.use` middleware up to `next`.  `verify text` stands for
`jwt.verify(token, process.env.JWT_SECRET)` followed by reading `decoded.userId`:
`none` when verification throws (bad signature, expired, not a token), otherwise
the `userId` field of the payload.  A token that is not a text makes `jwt.verify`
throw; every throw ends in the `catch`. -/
def authenticate (verify : JsString → Option TokenSubject) (env : Faults) (s : State)
    (token : JsValue) : Except HandshakeError User :=
  if !token.truthy then .error .authenticationRequired
  else
    match token with
    | .string text =>
      match verify text with
      | none => .error .invalidToken
      | some .uncastable => .error .invalidToken
      | some .absent =>
        if env.userFindFails then .error .invalidToken
        else .error .userNotFoundOrNotVerified
      | some (.oid id) =>
        if env.userFindFails then .error .invalidToken
        else
          match User.findById s.users id with
          | none => .error .userNotFoundOrNotVerified
          | some user =>
            if !user.isVerified then .error .userNotFoundOrNotVerified
            else .ok user
    | _ => .error .invalidToken

/-- What a connection attempt leaves behind. -/
structure Handshake where
  state : State
  emits : List Emit
  error : Option HandshakeError
  deriving DecidableEq, Repr

/-- A connection attempt: the middleware, then, only when it called `next()`
without an error, the `connection` handler for the new socket. -/
def handshake (verify : JsString → Option TokenSubject) (env : Faults) (s : State)
    (socketId : SocketId) (token : JsValue) : Handshake :=
  match authenticate verify env s token with
  | .error e => { state := s, emits := [], error := some e }
  | .ok user =>
    let r := connection env s { id := socketId, userId := user._id, email := user.email }
    { state := r.1, emits := r.2, error := none }

/-! ## The typing indicator -/

/-- The payload of `typing` once destructured; a field the payload lacks is
`missing` or `undefined`. -/
structure TypingData where
  chatId : WireId
  isTyping : JsValue
  deriving DecidableEq, Repr

/-- How the run of an event handler ends: it returns; or it throws outside any
`try`, which reaches the `uncaughtException` handler of the process; or, being
`async`, it awaits outside any `try` a store call that rejects, which reaches
the `unhandledRejection` handler of the process. -/
inductive Outcome where
  | completed (state : State) (emits : List Emit)
  | uncaughtException
  | unhandledRejection
  deriving DecidableEq, Repr

/-- The `typing` handler.  It has no `try`: destructuring a payload that is
`undefined` or `null` (here `none`) throws a `TypeError`.  Otherwise `user_typing`
goes to the other members of the room named by `chatId`. -/
def typing (s : State) (socket : Socket) (data : Option TypingData) : Outcome :=
  match data with
  | none => .uncaughtException
  | some d =>
    let members :=
      match d.chatId with
      | .oid chatId => roomMembers s chatId
      | .variant _ text => roomMembersNamed s text
      | _ => []
    .completed s ((members.filter fun sid => sid != socket.id).map fun sid =>
      { target := sid, event := .user_typing socket.userId socket.email d.isTyping })

/-- The `send_message` handler seen as such a run: its whole body is inside a
`try`, so it always returns. -/
def sendMessageOutcome (env : Faults) (s : State) (socket : Socket)
    (data : Option SendMessageData) : Outcome :=
  .completed (sendMessage env s socket data).1 (sendMessage env s socket data).2

/-- The `process.on('uncaughtException', ...)` and
`process.on('unhandledRejection', ...)` handlers of `app.js`: the exit code the
process ends with, `none` while it keeps running. -/
def exitCode : Outcome → Option Nat
  | .uncaughtException => some 1
  | .unhandledRejection => some 1
  | .completed _ _ => none

/-- How a run of the `connection` handler ends: its
`await User.findByIdAndUpdate` is outside any `try`, so when the store rejects
the update nothing catches the rejection. -/
def connectionOutcome (env : Faults) (s : State) (socket : Socket) : Outcome :=
  if env.userUpdateFails then .unhandledRejection
  else .completed (connection env s socket).1 (connection env s socket).2

/-- How a run of the `disconnect` handler ends: as for `connection`, the
update of the user is awaited outside any `try`. -/
def disconnectOutcome (env : Faults) (s : State) (socket : Socket) : Outcome :=
  if env.userUpdateFails then .unhandledRejection
  else .completed (disconnect env s socket).1 (disconnect env s socket).2

/-! ## Unread messages -/

/-- `Message.getUnreadCount(chatId, userId)`: `countDocuments` over the messages of
the chat not sent by `userId` and not yet seen; `none` when the store rejects. -/
def Message.getUnreadCount (env : Faults) (s : State) (chatId userId : ObjectId) :
    Option Nat :=
  if env.countFails then none
  else
    some (s.messages.countP fun m =>
      m.chatId == chatId && m.senderId != userId && m.seen == false)

/-! ## The profile -/

/-- `user.toObject()` of a full `User` document. -/
def User.toObject (u : User) : UserObject :=
  { _id := u._id, email := u.email, isVerified := some u.isVerified,
    isOnline := some u.isOnline, lastSeen := some u.lastSeen, createdAt := some u.createdAt,
    displayName := u.displayName }

/-- The virtual `name` of the `User` schema: the `displayName` when it is set
and not empty, else the email up to its first `@`. -/
def User.name (u : User) : JsString :=
  match u.displayName with
  | some displayName =>
    if !displayName.isEmpty then displayName else u.email.takeWhile fun c => c != 64
  | none => u.email.takeWhile fun c => c != 64

/-- Responses of `GET /auth/me` and `PUT /auth/me`. -/
inductive ProfileResponse where
  | ok (user : SanitizedUser)
  | serverError
  deriving DecidableEq, Repr

/-- `GET /auth/me`, for the user the `auth` middleware attached. -/
def getMe (user : User) : ProfileResponse :=
  .ok (sanitizeUser user.toObject)

/-- `PUT /auth/me`, for the user the `auth` middleware attached and a body whose
`displayName` and `avatar`, when present, are texts.  The schema trims
`displayName`; `save()` writes the two paths that were set. -/
def putMe (env : Faults) (s : State) (user : User) (displayName avatar : Option JsString) :
    State × ProfileResponse :=
  let user1 : User :=
    match displayName with
    | some text => { user with displayName := some (trim text) }
    | none => user
  let user2 : User :=
    match avatar with
    | some text => { user1 with avatar := text }
    | none => user1
  if env.saveFails then (s, .serverError)
  else
    let users := updateFirst (fun u : User => u._id == user._id)
      (fun u => { u with
        displayName := if displayName.isSome then user2.displayName else u.displayName,
        avatar := if avatar.isSome then user2.avatar else u.avatar }) s.users
    ({ s with users := users }, .ok (sanitizeUser user2.toObject))

/-! ## The client's message list -/

/-- An entry of the `messages` state of `ChatWindow`: an element of a pulled
page, or the `message` of a live `receive_message`. -/
inductive ClientMessage where
  | pulled (message : PopulatedMessage)
  | live (message : ReceivedMessage)
  deriving DecidableEq, Repr

/-- The `_id` of an entry. -/
def ClientMessage._id : ClientMessage → ObjectId
  | .pulled message => message._id
  | .live message => message._id

/-- The state update of `loadMessages` when the request succeeds:
`setMessages(response.data.messages)` replaces the list. -/
def loadMessages (_prev : List ClientMessage) (messages : List PopulatedMessage) :
    List ClientMessage :=
  messages.map .pulled

/-- The state update of `handleNewMessage` for the open chat `chatId`:
`setMessages(prev => [...prev, data.message])` when the message is of that chat. -/
def handleNewMessage (chatId : ObjectId) (prev : List ClientMessage)
    (message : ReceivedMessage) : List ClientMessage :=
  if message.chatId == chatId then prev ++ [.live message] else prev

/-! ## `send_message`, one `await` at a time -/

/-- The connections in the room `io.to(chatId)` names. -/
def roomMembersOf (s : State) : WireId → List SocketId
  | .oid chatId => roomMembers s chatId
  | .variant _ text => roomMembersNamed s text
  | _ => []

/-- The `chat.participants.forEach` loop for a `chatId` as it was sent. -/
def chatUpdatedLoopOf (connectedUsers : List (ObjectId × SocketId)) (wire : WireId)
    (message : Message) (sender : Option SenderRef) (participants : List ObjectId) :
    List Emit × Bool :=
  match wire with
  | .oid chatId => chatUpdatedLoop connectedUsers chatId message sender participants
  | .variant _ text => chatUpdatedLoopRaw connectedUsers text message sender participants
  | _ => ([], false)

/-- The second half of `Message.create`: the document, whose `createdAt` was
read from the clock when `create` was called, is validated and stored. -/
def Message.save (env : Faults) (s : State) (chatId senderId : ObjectId)
    (content : JsString) (createdAt : Date) : State × Option Message :=
  let doc : Message :=
    { _id := s.nextId, chatId := chatId, senderId := senderId, content := trim content,
      seen := false, seenAt := none, createdAt := createdAt }
  if doc.content.isEmpty || doc.content.length > 5000 then (s, none)
  else if env.createFails then (s, none)
  else ({ s with messages := s.messages ++ [doc], nextId := s.nextId + 1 }, some doc)

/-- The second half of `Chat.updateLastMessage`: the update, whose `updatedAt`
was read from the clock when the call was made, reaches the store. -/
def Chat.applyLastMessage (env : Faults) (s : State) (chatId : ObjectId)
    (message : Message) (updatedAt : Date) : State × Bool :=
  if env.updateFails then (s, false)
  else
    let lastMessage : LastMessage :=
      { content := message.content, senderId := message.senderId,
        createdAt := message.createdAt }
    let chats := updateFirst (fun c => c._id == chatId)
      (fun c => { c with lastMessage := some lastMessage, updatedAt := updatedAt }) s.chats
    ({ s with chats := chats }, true)

/-- Where a `send_message` call stands: about to start, or suspended at an
`await` with the values bound so far.  A suspended store call carries the time
it read from the clock when it was made. -/
inductive SendStage where
  | received (data : Option SendMessageData)
  | creating (chat : Chat) (chatId : ObjectId) (wire : WireId) (content : JsString)
      (createdAt : Date)
  | updating (chat : Chat) (chatId : ObjectId) (wire : WireId) (message : Message)
      (updatedAt : Date)
  | populating (chat : Chat) (wire : WireId) (message : Message)
  | finished
  deriving DecidableEq, Repr

/-- One turn of a `send_message` call on the event loop: the store call the
handler is suspended at takes effect and the code up to the next `await` runs,
making the next store call.  The first turn runs the checks and `Chat.findOne`
and calls `Message.create`, which reads the clock for `createdAt`; the second
stores the message and calls `Chat.updateLastMessage`, which reads the clock
for `updatedAt`; the third applies that update; the fourth is `populate` with
the emits that follow it. -/
def sendStep (env : Faults) (s : State) (socket : Socket) :
    SendStage → State × List Emit × SendStage
  | .received data =>
    let failed : Emit := { target := socket.id, event := .error .failedToSendMessage }
    let invalid : Emit := { target := socket.id, event := .error .invalidMessageData }
    match data with
    | none => (s, [failed], .finished)
    | some d =>
      if !d.chatId.truthy || !d.content.truthy then (s, [invalid], .finished)
      else
        match d.content with
        | .string content =>
          if (trim content).isEmpty then (s, [invalid], .finished)
          else
            match d.chatId.cast with
            | some chatId =>
              if env.findOneFails then (s, [failed], .finished)
              else
                match Chat.findOne s.chats chatId socket.userId with
                | none =>
                  (s, [{ target := socket.id, event := .error .chatNotFound }], .finished)
                | some chat =>
                  let now := s.clock + env.tick
                  ({ s with clock := now }, [],
                    .creating chat chatId d.chatId (trim content) now)
            | none => (s, [failed], .finished)
        | _ => (s, [failed], .finished)
  | .creating chat chatId wire content createdAt =>
    match Message.save env s chatId socket.userId content createdAt with
    | (s1, none) =>
      (s1, [{ target := socket.id, event := .error .failedToSendMessage }], .finished)
    | (s1, some message) =>
      let now := s1.clock + env.tick
      ({ s1 with clock := now }, [], .updating chat chatId wire message now)
  | .updating chat chatId wire message updatedAt =>
    match Chat.applyLastMessage env s chatId message updatedAt with
    | (s2, false) =>
      (s2, [{ target := socket.id, event := .error .failedToSendMessage }], .finished)
    | (s2, true) => (s2, [], .populating chat wire message)
  | .populating chat wire message =>
    let failed : Emit := { target := socket.id, event := .error .failedToSendMessage }
    if env.populateFails then (s, [failed], .finished)
    else
      let sender := populateSender s.users message.senderId
      let received : ReceivedMessage :=
        { _id := message._id, chatId := message.chatId, senderId := sender,
          content := message.content, seen := message.seen,
          createdAt := message.createdAt }
      let live : List Emit := (roomMembersOf s wire).map fun sid =>
        { target := sid, event := .receive_message received }
      let updated :=
        chatUpdatedLoopOf s.connectedUsers wire message sender chat.participants
      (s, live ++ updated.1 ++ (if updated.2 then [failed] else []), .finished)
  | .finished => (s, [], .finished)

/-- A `send_message` call run alone for at most `n` turns. -/
def sendRun (env : Faults) (socket : Socket) : Nat → State → SendStage → State × List Emit
  | 0, s, _ => (s, [])
  | n + 1, s, stage =>
    let r := sendStep env s socket stage
    let rest := sendRun env socket n r.1 r.2.2
    (rest.1, r.2.1 ++ rest.2)

/-- A `send_message` call in flight. -/
structure Call where
  env : Faults
  socket : Socket
  stage : SendStage
  deriving DecidableEq, Repr

/-- Two `send_message` calls sharing the event loop: each entry of the schedule
gives the next turn to the first call (`true`) or to the second (`false`). -/
def interleave : State → Call → Call → List Bool → State × List Emit
  | s, _, _, [] => (s, [])
  | s, a, b, true :: rest =>
    let r := sendStep a.env s a.socket a.stage
    let k := interleave r.1 { a with stage := r.2.2 } b rest
    (k.1, r.2.1 ++ k.2)
  | s, a, b, false :: rest =>
    let r := sendStep b.env s b.socket b.stage
    let k := interleave r.1 a { b with stage := r.2.2 } rest
    (k.1, r.2.1 ++ k.2)

/-! ## Vocabulary for the statements -/

/-- The document a successful `Message.create` stores for an already trimmed
`content`, given the state and environment it runs in. -/
def newMessage (env : Faults) (s : State) (chatId senderId : ObjectId)
    (content : JsString) : Message :=
  { _id := s.nextId, chatId := chatId, senderId := senderId, content := content,
    seen := false, seenAt := none, createdAt := s.clock + env.tick }

/-- The last-message snapshot of a message. -/
def snapshotOf (m : Message) : LastMessage :=
  { content := m.content, senderId := m.senderId, createdAt := m.createdAt }

/-- The payload of `receive_message` for a stored message, its sender populated. -/
def receivedOf (users : List User) (m : Message) : ReceivedMessage :=
  { _id := m._id, chatId := m.chatId, senderId := populateSender users m.senderId,
    content := m.content, seen := m.seen, createdAt := m.createdAt }

/-- Whether an event is `receive_message`. -/
def ServerEvent.isReceiveMessage : ServerEvent → Bool
  | .receive_message _ => true
  | _ => false

/-- Whether an event is `chat_updated`. -/
def ServerEvent.isChatUpdated : ServerEvent → Bool
  | .chat_updated _ _ => true
  | .chat_updated_raw _ _ => true
  | _ => false

/-- Whether an event is `messages_seen`. -/
def ServerEvent.isMessagesSeen : ServerEvent → Bool
  | .messages_seen _ _ => true
  | .messages_seen_raw _ _ => true
  | _ => false

/-- The store after a message was created and the chat's snapshot updated. -/
def stateAfterSend (env : Faults) (s : State) (chatId senderId : ObjectId)
    (content : JsString) : State :=
  { s with
    clock := s.clock + env.tick + env.tick,
    messages := s.messages ++ [newMessage env s chatId senderId content],
    nextId := s.nextId + 1,
    chats := updateFirst (fun c => c._id == chatId)
      (fun c => { c with
        lastMessage := some (snapshotOf (newMessage env s chatId senderId content)),
        updatedAt := s.clock + env.tick + env.tick }) s.chats }

/-- The store after a message was created and the snapshot update rejected. -/
def stateAfterCreate (env : Faults) (s : State) (chatId senderId : ObjectId)
    (content : JsString) : State :=
  { s with
    clock := s.clock + env.tick + env.tick,
    messages := s.messages ++ [newMessage env s chatId senderId content],
    nextId := s.nextId + 1 }

/-- What the store and the room table guarantee in every state the handlers
reach: a connection is in a room at most once, chat ids are unique, and no chat
is stamped later than the clock. -/
def State.WellFormed (s : State) : Prop :=
  s.rooms.Nodup ∧ (s.chats.map fun c => c._id).Nodup ∧ ∀ c ∈ s.chats, c.updatedAt ≤ s.clock

/-- Every message of `old` is still stored in `new`, at the same position and
under the same `_id`, and is still seen if it was seen. -/
def SeenKept (old new : List Message) : Prop :=
  ∀ (i : Nat) (m : Message), old[i]? = some m →
    ∃ m2, new[i]? = some m2 ∧ m2._id = m._id ∧ (m.seen = true → m2.seen = true)

/-- What every request guarantees about the state it leaves: the clock did not
go back, and no stored message was lost or turned unseen. -/
def Extends (s s2 : State) : Prop :=
  s.clock ≤ s2.clock ∧ SeenKept s.messages s2.messages

/-- The order of `sort({ createdAt: -1 })` is total. -/
instance newestFirst_total :
    IsTotal Message (fun a b => b.createdAt ≤ a.createdAt) :=
  ⟨fun a b => Nat.le_total b.createdAt a.createdAt⟩

/-- The order of `sort({ createdAt: -1 })` is transitive. -/
instance newestFirst_trans :
    IsTrans Message (fun a b => b.createdAt ≤ a.createdAt) :=
  ⟨fun _ _ _ hab hbc => Nat.le_trans hbc hab⟩

/-- The query of the listing: the message belongs to the chat and, when a
bound is given, was created strictly before it. -/
def matchesQuery (chatId : ObjectId) (before : Option Date) (m : Message) : Bool :=
  m.chatId == chatId &&
    (match before with
     | none => true
     | some b => decide (m.createdAt < b))

/-- A stored message with its seen flag and seenAt blanked. -/
def Message.forgetSeen (m : Message) : Message :=
  { m with seen := false, seenAt := none }

/-- A listed message with its seen flag and seenAt blanked. -/
def PopulatedMessage.forgetSeen (m : PopulatedMessage) : PopulatedMessage :=
  { m with seen := false, seenAt := none }

/-- Two chats are of the same unordered set of participants. -/
def samePair (a b : Chat) : Prop := ∀ u, u ∈ a.participants ↔ u ∈ b.participants

/-- At most one chat for every unordered set of participants. -/
def OnePerPair (chats : List Chat) : Prop := chats.Pairwise fun a b => ¬ samePair a b

/-- The state after a sequence of `findOrCreateChat` calls, each with its
environment. -/
def runFindOrCreate (s : State) : List (Faults × ObjectId × ObjectId) → State
  | [] => s
  | (env, userId1, userId2) :: rest =>
    runFindOrCreate (Chat.findOrCreateChat env s userId1 userId2).1 rest

/-- The chat `findOrCreateChat` creates when it finds none. -/
def newChat (env : Faults) (s : State) (userId1 userId2 : ObjectId) : Chat :=
  { _id := s.nextId, participants := [userId1, userId2], lastMessage := none,
    updatedAt := s.clock + env.tick, createdAt := s.clock + env.tick + env.tick }

/-- The request leaves the users, the live connections and `connectedUsers`
as they were. -/
def SamePresence (s s2 : State) : Prop :=
  s2.users = s.users ∧ s2.sockets = s.sockets ∧ s2.connectedUsers = s.connectedUsers

/-- What socket.io and the handshake guarantee about a request arriving in
state `s`: a new connection has an id no live connection has and belongs to a
stored user; events and disconnects come from live connections. -/
def Request.admissible (s : State) : Request → Prop
  | .connection socket =>
    (∀ k ∈ s.sockets, k.id ≠ socket.id) ∧ ∃ u ∈ s.users, u._id = socket.userId
  | .disconnect socket => socket ∈ s.sockets
  | .join socket _ => socket ∈ s.sockets
  | .leave socket _ => socket ∈ s.sockets
  | .sendMessage socket _ => socket ∈ s.sockets
  | .markSeen socket _ => socket ∈ s.sockets
  | .getMessages _ _ _ _ => True
  | .postMessage _ _ _ => True
  | .putSeen _ _ => True
  | .postChat _ _ => True

/-- The request does not give an identity a second live connection. -/
def Request.keepsSingle (s : State) : Request → Prop
  | .connection socket => ∀ k ∈ s.sockets, k.userId ≠ socket.userId
  | _ => True

/-- A server start: nobody is connected, `connectedUsers` and the rooms are
empty, every stored user is offline, and user ids are unique. -/
def State.isStart (s : State) : Prop :=
  s.sockets = [] ∧ s.connectedUsers = [] ∧ s.rooms = [] ∧
    (∀ u ∈ s.users, u.isOnline = false) ∧ (s.users.map fun u => u._id).Nodup

/-- The states the server reaches from a start by admissible requests whose
updates of the user documents are not rejected.  With `single`, no identity
ever holds two live connections at a time. -/
inductive Reachable (single : Bool) : State → Prop where
  | start (s : State) : s.isStart → Reachable single s
  | step (s : State) (env : Faults) (request : Request) :
      Reachable single s → request.admissible s →
      (single = true → request.keepsSingle s) → env.userUpdateFails = false →
      Reachable single (handle env s request)

/-- The presence invariant of runs in which no identity holds two connections
at a time: user ids are unique, every live connection belongs to a stored user,
live connections differ in id and in user, and both `connectedUsers` and the
online flag tell exactly which identities have a live connection. -/
def PresenceInv (s : State) : Prop :=
  (s.users.map fun u => u._id).Nodup ∧
  (∀ k ∈ s.sockets, ∃ u ∈ s.users, u._id = k.userId) ∧
  s.sockets.Pairwise (fun a b => a.id ≠ b.id) ∧
  s.sockets.Pairwise (fun a b => a.userId ≠ b.userId) ∧
  (∀ userId, isUserOnline s userId = true ↔ ∃ k ∈ s.sockets, k.userId = userId) ∧
  (∀ u ∈ s.users, u.isOnline = true ↔ ∃ k ∈ s.sockets, k.userId = u._id)

/-- The messages the `receive_message` events of a run carry to one connection, in
the order they are emitted. -/
def receivedBy (sid : SocketId) (emits : List Emit) : List ReceivedMessage :=
  emits.filterMap fun e =>
    if e.target == sid then
      match e.event with
      | .receive_message message => some message
      | _ => none
    else none

/-! ## A small scenario

Alice (user 1) and Bob (user 2) share chat 10; Carol (user 3) is in no chat. -/

/-- Alice. -/
def alice : User :=
  { _id := 1, email := [97, 64, 120, 46, 105, 111], isVerified := true, isOnline := false,
    lastSeen := 0 }

/-- Bob. -/
def bob : User :=
  { _id := 2, email := [98, 64, 120, 46, 105, 111], isVerified := true, isOnline := false,
    lastSeen := 0 }

/-- Carol. -/
def carol : User :=
  { _id := 3, email := [99, 64, 120, 46, 105, 111], isVerified := true, isOnline := false,
    lastSeen := 0 }

/-- The chat of Alice and Bob. -/
def chatAB : Chat :=
  { _id := 10, participants := [1, 2], lastMessage := none, updatedAt := 0, createdAt := 0 }

/-- Alice's connection. -/
def socketA : Socket := { id := 100, userId := 1, email := alice.email }

/-- A second connection of Alice (another device). -/
def socketA2 : Socket := { id := 101, userId := 1, email := alice.email }

/-- Bob's connection. -/
def socketB : Socket := { id := 200, userId := 2, email := bob.email }

/-- Carol's connection. -/
def socketC : Socket := { id := 300, userId := 3, email := carol.email }

/-- The store before anybody connects. -/
def initialState : State :=
  { users := [alice, bob, carol], chats := [chatAB], messages := [], sockets := [],
    connectedUsers := [], rooms := [], clock := 0, nextId := 11 }

/-- One millisecond passes before each clock reading; no store call rejects. -/
def calm : Faults := Faults.none 1

/-- Alice and Bob are connected and Bob has joined the room of their chat. -/
def bobJoined : State :=
  (join calm (connection calm (connection calm initialState socketA).1 socketB).1 socketB 10).1

/-- Alice is connected from two devices, first `socketA`, then `socketA2`, and Bob
from one. -/
def twoDevices : State :=
  (connection calm (connection calm (connection calm initialState socketA).1 socketA2).1
    socketB).1

/-- Alice and Bob are connected, Alice has joined the room of their chat and has sent
"hi", which Bob has not seen yet. -/
def aliceWaiting : State :=
  (sendMessage calm
    (join calm (connection calm (connection calm initialState socketA).1 socketB).1
      socketA 10).1
    socketA (some { chatId := .oid 10, content := .string [104, 105] })).1

/-- Bob has joined the room where Alice's "hi" waited, so the message is seen. -/
def bobHasSeen : State := (join calm aliceWaiting socketB 10).1

/-- Carol, who is in no chat, connects while Alice's "hi" is still unseen. -/
def carolConnected : State := (connection calm aliceWaiting socketC).1

/-- Alice sends three messages to Bob; no time passes between the first two, so they
carry the same createdAt. -/
def sameInstant : State :=
  (sendMessage calm
    (sendMessage (Faults.none 0)
      (sendMessage (Faults.none 0) bobJoined socketA
        (some { chatId := .oid 10, content := .string [104, 105] })).1
      socketA (some { chatId := .oid 10, content := .string [104, 105] })).1
    socketA (some { chatId := .oid 10, content := .string [104, 105] })).1

/-- Alice sends three messages to Bob, each at a later time. -/
def threeMessages : State :=
  (sendMessage calm
    (sendMessage calm
      (sendMessage calm bobJoined socketA
        (some { chatId := .oid 10, content := .string [104, 105] })).1
      socketA (some { chatId := .oid 10, content := .string [104, 105] })).1
    socketA (some { chatId := .oid 10, content := .string [104, 105] })).1

/-- The `_id`s of the messages of a listing; empty when the request failed. -/
def listedIds : MessagesResponse → List ObjectId
  | .ok messages _ => messages.map fun m => m._id
  | _ => []

/-- The messages of a listing; empty when the request failed. -/
def listedMessages : MessagesResponse → List PopulatedMessage
  | .ok messages _ => messages
  | _ => []

/-- Dave, whose id 171 is written `ab` in hexadecimal. -/
def dave : User :=
  { _id := 171, email := [100, 64, 120, 46, 105, 111], isVerified := true, isOnline := false,
    lastSeen := 0 }

/-- The store with Dave in it. -/
def daveStored : State := { initialState with users := [alice, bob, carol, dave] }

/-- Dave's id as `toString()` writes it: twenty-two `0`, then `ab`. -/
def daveLower : JsString := List.replicate 22 48 ++ [97, 98]

/-- Dave's id in upper case: twenty-two `0`, then `AB`. -/
def daveUpper : JsString := List.replicate 22 48 ++ [65, 66]

/-- Alice's older session has disconnected while her newer one is still live. -/
def olderGone : State := (disconnect calm twoDevices socketA).1

/-- The text "hi". -/
def hi : JsString := [104, 105]

/-- Alice's `send_message` of "hi" to the chat with Bob, not yet started. -/
def aliceSends : Call :=
  { env := calm, socket := socketA,
    stage := .received (some { chatId := .oid 10, content := .string hi }) }

/-- Bob's `send_message` of "yo" to the same chat, not yet started. -/
def bobSends : Call :=
  { env := calm, socket := socketB,
    stage := .received (some { chatId := .oid 10, content := .string [121, 111] }) }

/-- Alice's call has found the chat and stored its message; its update of the
snapshot is made and still pending. -/
def aliceStored : State × List Emit × SendStage :=
  sendStep calm (sendStep calm bobJoined socketA aliceSends.stage).1 socketA
    (sendStep calm bobJoined socketA aliceSends.stage).2.2

/-- Bob's client loads the chat while Alice's call is at that point. -/
def bobLoads : State × MessagesResponse :=
  getMessages calm aliceStored.1 2 10 50 none

/-- Alice's call then runs its two remaining turns. -/
def aliceDelivers : State × List Emit :=
  sendRun calm socketA 2 bobLoads.1 aliceStored.2.2

/-- The identifier of the chat of Alice and Bob written in upper case: twenty-three
`0`, then `A`. -/
def chatUpper : JsString := List.replicate 23 48 ++ [65]

/-- The text "Al". -/
def al : JsString := [65, 108]

/-- A verification that accepts the one token "t" and reads Alice's id from it. -/
def verifyOnly : JsString → Option TokenSubject :=
  fun text => if text = [116] then some (.oid 1) else none

/-! ## Facts about `trim` and the store primitives -/

theorem trimStart_head_not_ws (s : JsString) (a : Nat) (l : JsString)
    (h : trimStart s = a :: l) : isWhiteSpace a = false := by
  have h1 := List.head?_dropWhile_not isWhiteSpace s
  unfold trimStart at h
  rw [h] at h1
  simpa using h1

theorem trimEnd_eq_rdropWhile (s : JsString) : trimEnd s = s.rdropWhile isWhiteSpace := rfl

theorem trimStart_trim (s : JsString) : trimStart (trim s) = trim s := by
  unfold trim
  have hpre : trimEnd (trimStart s) <+: trimStart s := by
    rw [trimEnd_eq_rdropWhile]
    exact List.rdropWhile_prefix _ _
  cases hu : trimEnd (trimStart s) with
  | nil => rfl
  | cons a u =>
    rw [hu] at hpre
    obtain ⟨r, hr⟩ := hpre
    have ha : isWhiteSpace a = false := trimStart_head_not_ws s a (u ++ r) (by simpa using hr.symm)
    simp [trimStart, ha]

/-- Trimming is idempotent, so the schema's `trim: true` leaves the handler's
`content.trim()` as it is. -/
theorem trim_trim (s : JsString) : trim (trim s) = trim s := by
  have h : trim (trim s) = trimEnd (trim s) := by
    show trimEnd (trimStart (trim s)) = trimEnd (trim s)
    rw [trimStart_trim]
  rw [h]
  unfold trim
  rw [trimEnd_eq_rdropWhile, trimEnd_eq_rdropWhile]
  exact List.rdropWhile_idempotent _ _

theorem isEmpty_eq_false_iff_one_le (l : JsString) : l.isEmpty = false ↔ 1 ≤ l.length := by
  cases l <;> simp

theorem findOne_some_mem {chats : List Chat} {chatId userId : ObjectId} {chat : Chat}
    (h : Chat.findOne chats chatId userId = some chat) :
    chat ∈ chats ∧ chat._id = chatId ∧ userId ∈ chat.participants := by
  unfold Chat.findOne at h
  have h1 := List.mem_of_find?_eq_some h
  have h2 := List.find?_some h
  simp only [Bool.and_eq_true, beq_iff_eq, List.contains_iff_exists_mem_beq] at h2
  refine ⟨h1, h2.1, ?_⟩
  obtain ⟨x, hx, hxe⟩ := h2.2
  rwa [hxe]

theorem findOne_none_of_not_participant {chats : List Chat} {chatId userId : ObjectId}
    (h : ∀ c ∈ chats, c._id = chatId → userId ∉ c.participants) :
    Chat.findOne chats chatId userId = none := by
  unfold Chat.findOne
  rw [List.find?_eq_none]
  intro c hc hp
  simp only [Bool.and_eq_true, beq_iff_eq, List.contains_iff_exists_mem_beq] at hp
  obtain ⟨x, hx, hxe⟩ := hp.2
  exact h c hc hp.1 (by rwa [hxe])

theorem findOne_isSome_of_mem {chats : List Chat} {chatId userId : ObjectId} {chat : Chat}
    (hchat : chat ∈ chats) (hid : chat._id = chatId) (hpart : userId ∈ chat.participants) :
    ∃ found, Chat.findOne chats chatId userId = some found := by
  cases h : Chat.findOne chats chatId userId with
  | some found => exact ⟨found, rfl⟩
  | none =>
    unfold Chat.findOne at h
    rw [List.find?_eq_none] at h
    have := h chat hchat
    simp [hid, hpart] at this

/-- The document `Message.create` builds for a trimmed content. -/
theorem create_ok (env : Faults) (s : State) (chatId senderId : ObjectId) (content : JsString)
    (h1 : 1 ≤ (trim content).length) (h2 : (trim content).length ≤ 5000)
    (hc : env.createFails = false) :
    Message.create env s chatId senderId (trim content) =
      ({ s with
          clock := s.clock + env.tick,
          messages := s.messages ++
            [{ _id := s.nextId, chatId := chatId, senderId := senderId,
               content := trim content, seen := false, seenAt := none,
               createdAt := s.clock + env.tick }],
          nextId := s.nextId + 1 },
        some { _id := s.nextId, chatId := chatId, senderId := senderId,
               content := trim content, seen := false, seenAt := none,
               createdAt := s.clock + env.tick }) := by
  have hne : (trim content).isEmpty = false := (isEmpty_eq_false_iff_one_le _).2 h1
  have hle : ¬ 5000 < (trim content).length := by omega
  simp [Message.create, trim_trim, hne, hle, hc]

theorem create_rejected (env : Faults) (s : State) (chatId senderId : ObjectId)
    (content : JsString)
    (h : env.createFails = true ∨ 5000 < (trim content).length ∨ (trim content).length = 0) :
    Message.create env s chatId senderId (trim content) =
      ({ s with clock := s.clock + env.tick }, none) := by
  unfold Message.create
  simp only [trim_trim]
  rcases h with h | h | h
  · simp [h]
  · simp [h]
  · have : trim content = [] := List.length_eq_zero.mp h
    simp [this]

theorem updateLastMessage_messages (env : Faults) (s : State) (chatId : ObjectId)
    (message : Message) :
    (Chat.updateLastMessage env s chatId message).1.messages = s.messages := by
  unfold Chat.updateLastMessage
  split <;> rfl

theorem sendMessage_all_ok (env : Faults) (s : State) (socket : Socket)
    (chatId : ObjectId) (content : JsString) (chat : Chat)
    (hfound : Chat.findOne s.chats chatId socket.userId = some chat)
    (h1 : 1 ≤ (trim content).length) (h2 : (trim content).length ≤ 5000)
    (hfind : env.findOneFails = false) (hcreate : env.createFails = false)
    (hupdate : env.updateFails = false) (hpopulate : env.populateFails = false) :
    sendMessage env s socket (some { chatId := .oid chatId, content := .string content }) =
      (stateAfterSend env s chatId socket.userId (trim content),
        ((roomMembers s chatId).map fun sid =>
          ({ target := sid,
             event := .receive_message
              { _id := s.nextId, chatId := chatId,
                senderId := populateSender s.users socket.userId,
                content := trim content, seen := false,
                createdAt := s.clock + env.tick } } : Emit)) ++
        (chatUpdatedLoop s.connectedUsers chatId
          (newMessage env s chatId socket.userId (trim content))
          (populateSender s.users socket.userId) chat.participants).1 ++
        if (chatUpdatedLoop s.connectedUsers chatId
          (newMessage env s chatId socket.userId (trim content))
          (populateSender s.users socket.userId) chat.participants).2
        then [{ target := socket.id, event := .error .failedToSendMessage }] else []) := by
  have hne : (trim content).isEmpty = false := (isEmpty_eq_false_iff_one_le _).2 h1
  have hc : content.isEmpty = false := by
    cases content with
    | nil => simp [trim, trimStart, trimEnd] at hne
    | cons a l => rfl
  simp [sendMessage, hfound, hfind, create_ok env s chatId socket.userId content h1 h2 hcreate,
    Chat.updateLastMessage, hupdate, hpopulate, JsValue.truthy, WireId.truthy, hc, hne,
    stateAfterSend, newMessage, snapshotOf, roomMembers]

theorem content_nonempty_of_trim {content : JsString} (h : (trim content).isEmpty = false) :
    content.isEmpty = false := by
  cases content with
  | nil => simp [trim, trimStart, trimEnd] at h
  | cons a l => rfl

theorem sendMessage_update_rejected (env : Faults) (s : State) (socket : Socket)
    (chatId : ObjectId) (content : JsString) (chat : Chat)
    (hfound : Chat.findOne s.chats chatId socket.userId = some chat)
    (h1 : 1 ≤ (trim content).length) (h2 : (trim content).length ≤ 5000)
    (hfind : env.findOneFails = false) (hcreate : env.createFails = false)
    (hupdate : env.updateFails = true) :
    sendMessage env s socket (some { chatId := .oid chatId, content := .string content }) =
      (stateAfterCreate env s chatId socket.userId (trim content),
        [{ target := socket.id, event := .error .failedToSendMessage }]) := by
  have hne : (trim content).isEmpty = false := (isEmpty_eq_false_iff_one_le _).2 h1
  have hc := content_nonempty_of_trim hne
  simp [sendMessage, hfound, hfind, create_ok env s chatId socket.userId content h1 h2 hcreate,
    Chat.updateLastMessage, hupdate, JsValue.truthy, WireId.truthy, hc, hne,
    stateAfterCreate, newMessage]

theorem sendMessage_populate_rejected (env : Faults) (s : State) (socket : Socket)
    (chatId : ObjectId) (content : JsString) (chat : Chat)
    (hfound : Chat.findOne s.chats chatId socket.userId = some chat)
    (h1 : 1 ≤ (trim content).length) (h2 : (trim content).length ≤ 5000)
    (hfind : env.findOneFails = false) (hcreate : env.createFails = false)
    (hupdate : env.updateFails = false) (hpopulate : env.populateFails = true) :
    sendMessage env s socket (some { chatId := .oid chatId, content := .string content }) =
      (stateAfterSend env s chatId socket.userId (trim content),
        [{ target := socket.id, event := .error .failedToSendMessage }]) := by
  have hne : (trim content).isEmpty = false := (isEmpty_eq_false_iff_one_le _).2 h1
  have hc := content_nonempty_of_trim hne
  simp [sendMessage, hfound, hfind, create_ok env s chatId socket.userId content h1 h2 hcreate,
    Chat.updateLastMessage, hupdate, hpopulate, JsValue.truthy, WireId.truthy, hc, hne,
    stateAfterSend, newMessage, snapshotOf]

theorem sendMessage_create_rejected (env : Faults) (s : State) (socket : Socket)
    (chatId : ObjectId) (content : JsString) (chat : Chat)
    (hfound : Chat.findOne s.chats chatId socket.userId = some chat)
    (h1 : 1 ≤ (trim content).length)
    (hfind : env.findOneFails = false)
    (hrej : env.createFails = true ∨ 5000 < (trim content).length) :
    sendMessage env s socket (some { chatId := .oid chatId, content := .string content }) =
      ({ s with clock := s.clock + env.tick },
        [{ target := socket.id, event := .error .failedToSendMessage }]) := by
  have hne : (trim content).isEmpty = false := (isEmpty_eq_false_iff_one_le _).2 h1
  have hc := content_nonempty_of_trim hne
  have hrej' : env.createFails = true ∨ 5000 < (trim content).length ∨
      (trim content).length = 0 := by
    rcases hrej with h | h
    · exact Or.inl h
    · exact Or.inr (Or.inl h)
  simp [sendMessage, hfound, hfind, create_rejected env s chatId socket.userId content hrej',
    JsValue.truthy, WireId.truthy, hc, hne]

theorem sendMessage_blank (env : Faults) (s : State) (socket : Socket)
    (chatId : WireId) (content : JsString) (h : (trim content).length = 0) :
    sendMessage env s socket (some { chatId := chatId, content := .string content }) =
      (s, [{ target := socket.id, event := .error .invalidMessageData }]) := by
  have he : trim content = [] := List.length_eq_zero.mp h
  unfold sendMessage
  by_cases hg : (!chatId.truthy || !(JsValue.string content).truthy) = true
  · simp [hg]
  · simp [hg, he]

/-- Every run of `send_message` that does not find the caller among the
participants of the chat leaves the state as it was and answers with one
`error` event to the caller. -/
theorem sendMessage_unauthorized (env : Faults) (s : State) (socket : Socket)
    (chatId : WireId) (content : JsValue)
    (h : ∀ id, chatId.cast = some id → Chat.findOne s.chats id socket.userId = none) :
    ∃ msg, sendMessage env s socket (some { chatId := chatId, content := content }) =
      (s, [{ target := socket.id, event := .error msg }]) := by
  unfold sendMessage
  by_cases hg : (!chatId.truthy || !content.truthy) = true
  · exact ⟨.invalidMessageData, by simp [hg]⟩
  · simp only [hg]
    cases content with
    | string str =>
      by_cases he : (trim str).isEmpty = true
      · exact ⟨.invalidMessageData, by simp [he]⟩
      · cases chatId with
        | oid id =>
          by_cases hf : env.findOneFails = true
          · exact ⟨.failedToSendMessage, by simp [he, hf]⟩
          · exact ⟨.chatNotFound, by simp [he, hf, h id rfl]⟩
        | variant id text =>
          by_cases hf : env.findOneFails = true
          · exact ⟨.failedToSendMessage, by simp [he, hf]⟩
          · exact ⟨.chatNotFound, by simp [he, hf, h id rfl]⟩
        | missing => exact ⟨.failedToSendMessage, by simp [he]⟩
        | malformed => exact ⟨.failedToSendMessage, by simp [he]⟩
    | undefined => exact ⟨.failedToSendMessage, by simp⟩
    | null => exact ⟨.failedToSendMessage, by simp⟩
    | bool b => exact ⟨.failedToSendMessage, by simp⟩
    | number n => exact ⟨.failedToSendMessage, by simp⟩

theorem sendMessage_valid_messages (env : Faults) (s : State) (socket : Socket)
    (chatId : ObjectId) (content : JsString) (chat : Chat)
    (hfound : Chat.findOne s.chats chatId socket.userId = some chat)
    (h1 : 1 ≤ (trim content).length) (h2 : (trim content).length ≤ 5000)
    (hfind : env.findOneFails = false) (hcreate : env.createFails = false) :
    (sendMessage env s socket
        (some { chatId := .oid chatId, content := .string content })).1.messages =
      s.messages ++ [newMessage env s chatId socket.userId (trim content)] := by
  cases hu : env.updateFails with
  | true => rw [sendMessage_update_rejected env s socket chatId content chat hfound h1 h2 hfind
      hcreate hu]; rfl
  | false =>
    cases hp : env.populateFails with
    | true => rw [sendMessage_populate_rejected env s socket chatId content chat hfound h1 h2
        hfind hcreate hu hp]; rfl
    | false => rw [sendMessage_all_ok env s socket chatId content chat hfound h1 h2 hfind
        hcreate hu hp]; rfl

theorem sendMessage_invalid_unchanged (env : Faults) (s : State) (socket : Socket)
    (chatId : ObjectId) (content : JsString) (chat : Chat)
    (hfound : Chat.findOne s.chats chatId socket.userId = some chat)
    (hfind : env.findOneFails = false)
    (hbad : ¬ (1 ≤ (trim content).length ∧ (trim content).length ≤ 5000)) :
    (sendMessage env s socket
        (some { chatId := .oid chatId, content := .string content })).1.messages =
        s.messages ∧
    (sendMessage env s socket
        (some { chatId := .oid chatId, content := .string content })).1.chats = s.chats := by
  by_cases h0 : (trim content).length = 0
  · rw [sendMessage_blank env s socket (.oid chatId) content h0]
    exact ⟨rfl, rfl⟩
  · have h1 : 1 ≤ (trim content).length := by omega
    have h2 : 5000 < (trim content).length := by omega
    rw [sendMessage_create_rejected env s socket chatId content chat hfound h1 hfind (Or.inr h2)]
    exact ⟨rfl, rfl⟩

/-- C1: for a send_message from a participant of the chat, with the participant lookup
and the store's insert succeeding, a Message is appended to the store if and only if the
trimmed content has between 1 and 5000 code units; the stored content is the trimmed
content; and when nothing is stored, neither the messages nor the chats change. -/
theorem sendMessage_persists_iff_valid_length (env : Faults) (s : State) (socket : Socket)
    (chatId : ObjectId) (content : JsString) (chat : Chat)
    (hchat : chat ∈ s.chats) (hid : chat._id = chatId)
    (hpart : socket.userId ∈ chat.participants)
    (hfind : env.findOneFails = false) (hcreate : env.createFails = false) :
    ((∃ m, (sendMessage env s socket
          (some { chatId := .oid chatId, content := .string content })).1.messages =
          s.messages ++ [m]) ↔
        (1 ≤ (trim content).length ∧ (trim content).length ≤ 5000)) ∧
    (∀ m, (sendMessage env s socket
          (some { chatId := .oid chatId, content := .string content })).1.messages =
          s.messages ++ [m] →
        m.content = trim content ∧ m.chatId = chatId ∧ m.senderId = socket.userId ∧
          m.seen = false) ∧
    (¬ (1 ≤ (trim content).length ∧ (trim content).length ≤ 5000) →
        (sendMessage env s socket
          (some { chatId := .oid chatId, content := .string content })).1.messages =
          s.messages ∧
        (sendMessage env s socket
          (some { chatId := .oid chatId, content := .string content })).1.chats =
          s.chats) := by
  obtain ⟨found, hfound⟩ := findOne_isSome_of_mem hchat hid hpart
  by_cases hvalid : 1 ≤ (trim content).length ∧ (trim content).length ≤ 5000
  · have hm := sendMessage_valid_messages env s socket chatId content found hfound hvalid.1
      hvalid.2 hfind hcreate
    refine ⟨⟨fun _ => hvalid, fun _ => ⟨_, hm⟩⟩, ?_, fun hn => absurd hvalid hn⟩
    intro m hm'
    rw [hm] at hm'
    have : newMessage env s chatId socket.userId (trim content) = m := by
      simpa using hm'
    subst this
    exact ⟨rfl, rfl, rfl, rfl⟩
  · have hu := sendMessage_invalid_unchanged env s socket chatId content found hfound hfind
      hvalid
    refine ⟨⟨?_, fun h => absurd h hvalid⟩, ?_, fun _ => hu⟩
    · rintro ⟨m, hm⟩
      rw [hu.1] at hm
      simp at hm
    · intro m hm
      rw [hu.1] at hm
      simp at hm

/-- Witness for C1: Alice sends "hi" to her chat with Bob. -/
theorem sendMessage_persists_iff_valid_length_witness :
    ((∃ m, (sendMessage calm bobJoined socketA
          (some { chatId := .oid 10, content := .string hi })).1.messages =
          bobJoined.messages ++ [m]) ↔
        (1 ≤ (trim hi).length ∧ (trim hi).length ≤ 5000)) ∧
    (∀ m, (sendMessage calm bobJoined socketA
          (some { chatId := .oid 10, content := .string hi })).1.messages =
          bobJoined.messages ++ [m] →
        m.content = trim hi ∧ m.chatId = 10 ∧ m.senderId = socketA.userId ∧
          m.seen = false) ∧
    (¬ (1 ≤ (trim hi).length ∧ (trim hi).length ≤ 5000) →
        (sendMessage calm bobJoined socketA
          (some { chatId := .oid 10, content := .string hi })).1.messages =
          bobJoined.messages ∧
        (sendMessage calm bobJoined socketA
          (some { chatId := .oid 10, content := .string hi })).1.chats =
          bobJoined.chats) :=
  sendMessage_persists_iff_valid_length calm bobJoined socketA 10 hi chatAB
    (by decide) (by decide) (by decide) (by decide) (by decide)

/-- C2: a send_message naming a chat of which the caller is not a participant (or a chat
that does not exist) leaves the whole state as it was, so no Message is created and no
Chat's snapshot or updatedAt changes, and the only event is one `error` to the caller:
nothing goes to a room or to another session.  This holds for every content and whether
or not the store rejects a call. -/
theorem sendMessage_not_participant (env : Faults) (s : State) (socket : Socket)
    (chatId : ObjectId) (content : JsValue)
    (h : ∀ c ∈ s.chats, c._id = chatId → socket.userId ∉ c.participants) :
    (sendMessage env s socket (some { chatId := .oid chatId, content := content })).1 = s ∧
    ∃ msg, (sendMessage env s socket (some { chatId := .oid chatId, content := content })).2 =
      [{ target := socket.id, event := .error msg }] := by
  obtain ⟨msg, hmsg⟩ := sendMessage_unauthorized env s socket (.oid chatId) content
    (fun id hid => by
      simp only [WireId.cast, Option.some.injEq] at hid
      subst hid
      exact findOne_none_of_not_participant h)
  rw [hmsg]
  exact ⟨rfl, msg, rfl⟩

/-- Witness for C2: Carol, who is in no chat, sends "hi" to the chat of Alice and Bob. -/
theorem sendMessage_not_participant_witness :
    (∀ c ∈ bobJoined.chats, c._id = 10 → socketC.userId ∉ c.participants) ∧
    (sendMessage calm bobJoined socketC (some { chatId := .oid 10, content := .string hi })).1 =
      bobJoined ∧
    ∃ msg, (sendMessage calm bobJoined socketC
        (some { chatId := .oid 10, content := .string hi })).2 =
      [{ target := socketC.id, event := .error msg }] :=
  ⟨by decide, sendMessage_not_participant calm bobJoined socketC 10 (.string hi) (by decide)⟩

/-- C3: when persisting the Message fails during send_message (the store rejects the
insert, or validation rejects an over-long content), the messages and chats are unchanged
and the only event emitted is `error` "Failed to send message" to the caller: neither
receive_message nor chat_updated reaches any session. -/
theorem sendMessage_persist_failure (env : Faults) (s : State) (socket : Socket)
    (chatId : ObjectId) (content : JsString) (chat : Chat)
    (hfound : Chat.findOne s.chats chatId socket.userId = some chat)
    (hcontent : 1 ≤ (trim content).length)
    (hfind : env.findOneFails = false)
    (hfails : env.createFails = true ∨ 5000 < (trim content).length) :
    (sendMessage env s socket
        (some { chatId := .oid chatId, content := .string content })).1.messages =
        s.messages ∧
    (sendMessage env s socket
        (some { chatId := .oid chatId, content := .string content })).1.chats = s.chats ∧
    (sendMessage env s socket
        (some { chatId := .oid chatId, content := .string content })).2 =
      [{ target := socket.id, event := .error .failedToSendMessage }] := by
  rw [sendMessage_create_rejected env s socket chatId content chat hfound hcontent hfind hfails]
  exact ⟨rfl, rfl, rfl⟩

/-- Witness for C3: the store rejects the insert of Alice's "hi". -/
theorem sendMessage_persist_failure_witness :
    (sendMessage { calm with createFails := true } bobJoined socketA
        (some { chatId := .oid 10, content := .string hi })).1.messages =
        bobJoined.messages ∧
    (sendMessage { calm with createFails := true } bobJoined socketA
        (some { chatId := .oid 10, content := .string hi })).1.chats = bobJoined.chats ∧
    (sendMessage { calm with createFails := true } bobJoined socketA
        (some { chatId := .oid 10, content := .string hi })).2 =
      [{ target := socketA.id, event := .error .failedToSendMessage }] :=
  sendMessage_persist_failure { calm with createFails := true } bobJoined socketA 10 hi chatAB
    (by decide) (by decide) (by decide) (Or.inl (by decide))

/-- C4, counterexample: Bob has joined the room of chat 10; Alice sends "hi" and the
snapshot update is rejected.  The message is stored, yet no receive_message is emitted
to anybody: the only event is the error to Alice. -/
theorem sendMessage_snapshot_failure_not_broadcast :
    200 ∈ roomMembers bobJoined 10 ∧
    (∃ m ∈ (sendMessage { calm with updateFails := true } bobJoined socketA
        (some { chatId := .oid 10, content := .string hi })).1.messages, m.content = hi) ∧
    (∀ e ∈ (sendMessage { calm with updateFails := true } bobJoined socketA
        (some { chatId := .oid 10, content := .string hi })).2,
      e.event.isReceiveMessage = false) ∧
    (sendMessage { calm with updateFails := true } bobJoined socketA
        (some { chatId := .oid 10, content := .string hi })).2 =
      [{ target := 100, event := .error .failedToSendMessage }] := by
  decide

/-- C4, amended: when the update of the Chat's last-message snapshot is rejected after the
Message has been persisted, the message stays stored and the chats are unchanged, but the
failure is not swallowed: send_message emits only `error` "Failed to send message" to the
caller, and neither receive_message nor chat_updated. -/
theorem sendMessage_snapshot_failure (env : Faults) (s : State) (socket : Socket)
    (chatId : ObjectId) (content : JsString) (chat : Chat)
    (hfound : Chat.findOne s.chats chatId socket.userId = some chat)
    (h1 : 1 ≤ (trim content).length) (h2 : (trim content).length ≤ 5000)
    (hfind : env.findOneFails = false) (hcreate : env.createFails = false)
    (hupdate : env.updateFails = true) :
    (sendMessage env s socket
        (some { chatId := .oid chatId, content := .string content })).1.messages =
        s.messages ++ [newMessage env s chatId socket.userId (trim content)] ∧
    (sendMessage env s socket
        (some { chatId := .oid chatId, content := .string content })).1.chats = s.chats ∧
    (sendMessage env s socket
        (some { chatId := .oid chatId, content := .string content })).2 =
      [{ target := socket.id, event := .error .failedToSendMessage }] := by
  rw [sendMessage_update_rejected env s socket chatId content chat hfound h1 h2 hfind hcreate
    hupdate]
  exact ⟨rfl, rfl, rfl⟩

/-- Witness for the amended C4, in the scenario of its counterexample. -/
theorem sendMessage_snapshot_failure_witness :
    (sendMessage { calm with updateFails := true } bobJoined socketA
        (some { chatId := .oid 10, content := .string hi })).1.messages =
        bobJoined.messages ++
          [newMessage { calm with updateFails := true } bobJoined 10 socketA.userId (trim hi)] ∧
    (sendMessage { calm with updateFails := true } bobJoined socketA
        (some { chatId := .oid 10, content := .string hi })).1.chats = bobJoined.chats ∧
    (sendMessage { calm with updateFails := true } bobJoined socketA
        (some { chatId := .oid 10, content := .string hi })).2 =
      [{ target := socketA.id, event := .error .failedToSendMessage }] :=
  sendMessage_snapshot_failure { calm with updateFails := true } bobJoined socketA 10 hi chatAB
    (by decide) (by decide) (by decide) (by decide) (by decide) (by decide)

/-! ## Live delivery and the listing -/

theorem roomMembers_nodup (s : State) (chatId : ObjectId) (h : s.rooms.Nodup) :
    (roomMembers s chatId).Nodup := by
  unfold roomMembers
  refine List.Nodup.map_on ?_ (h.filter _)
  intro x hx y hy hxy
  have hx1 : x.1 = chatId := by simpa using (List.mem_filter.mp hx).2
  have hy1 : y.1 = chatId := by simpa using (List.mem_filter.mp hy).2
  exact Prod.ext (hx1.trans hy1.symm) hxy

theorem roomJoin_nodup (rooms : List (ObjectId × SocketId)) (chatId : ObjectId)
    (sid : SocketId) (h : rooms.Nodup) : (roomJoin rooms chatId sid).Nodup := by
  unfold roomJoin
  by_cases hc : rooms.contains (chatId, sid) = true
  · rw [if_pos hc]
    exact h
  · have hnot : (chatId, sid) ∉ rooms := by simpa using hc
    rw [if_neg hc]
    exact List.Nodup.append h (List.nodup_singleton _) (by simpa using hnot)

theorem chatUpdatedLoop_events (connectedUsers : List (ObjectId × SocketId))
    (chatId : ObjectId) (message : Message) (sender : Option SenderRef)
    (participants : List ObjectId) :
    ∀ e ∈ (chatUpdatedLoop connectedUsers chatId message sender participants).1,
      e.event.isChatUpdated = true := by
  induction participants with
  | nil => intro e he; simp [chatUpdatedLoop] at he
  | cons p rest ih =>
    intro e he
    unfold chatUpdatedLoop at he
    cases hg : mapGet connectedUsers p with
    | none => rw [hg] at he; exact ih e he
    | some sid =>
      rw [hg] at he
      cases sender with
      | none => simp at he
      | some ref =>
        simp only [List.mem_cons] at he
        rcases he with he | he
        · rw [he]; rfl
        · exact ih e he

theorem mem_find_unbounded (messages : List Message) (chatId : ObjectId) (limit : Nat)
    (m : Message) (hm : m ∈ messages) (hc : m.chatId = chatId)
    (hlimit : limit = 0 ∨ (messages.filter fun x => x.chatId == chatId).length ≤ limit) :
    m ∈ Message.find messages chatId none limit := by
  unfold Message.find applyLimit
  have hfilter : (messages.filter fun x => x.chatId == chatId && true) =
      messages.filter fun x => x.chatId == chatId := by
    congr 1
    funext x
    simp
  have hmem : m ∈ (messages.filter fun x => x.chatId == chatId && true).insertionSort
      fun a b => b.createdAt ≤ a.createdAt := by
    rw [(List.perm_insertionSort _ _).mem_iff, hfilter]
    exact List.mem_filter.mpr ⟨hm, by simpa using hc⟩
  by_cases h0 : limit = 0
  · simpa [h0] using hmem
  · rw [if_neg h0]
    rcases hlimit with h | h
    · exact absurd h h0
    · rw [List.take_of_length_le]
      · exact hmem
      · rw [List.length_insertionSort, hfilter]
        exact h

theorem getMessages_ok (env : Faults) (s : State) (userId chatId : ObjectId) (limit : Nat)
    (before : Option Date) (found : Chat)
    (hfound : Chat.findOne s.chats chatId userId = some found)
    (hfindOne : env.findOneFails = false) (hfind : env.findFails = false)
    (hpopulate : env.populateFails = false) (hseen : env.markSeenFails = false) :
    (getMessages env s userId chatId limit before).2 =
      .ok ((Message.find s.messages chatId before limit).map (populate s.users)).reverse
        (((Message.find s.messages chatId before limit).map (populate s.users)).length
          == limit) := by
  simp [getMessages, hfound, hfindOne, hfind, hpopulate, Message.markAsSeen, hseen]

/-- Delivery for a chatId sent as the canonical string of the chat's identifier: after a
successful send_message (valid content, caller a participant, no store
call rejected), with the room table free of duplicates, the new message is stored;
receive_message carrying it is emitted exactly once to each session in the chat's room
and every receive_message emitted is that one, to a member of the room; and a listing of
the chat by any participant, with no `before` bound and a limit that does not truncate
(0, or at least the number of messages of the chat), returns the message. -/
theorem sendMessage_delivers_once_and_lists (env : Faults) (s : State) (socket : Socket)
    (chatId : ObjectId) (content : JsString) (chat : Chat)
    (hfound : Chat.findOne s.chats chatId socket.userId = some chat)
    (h1 : 1 ≤ (trim content).length) (h2 : (trim content).length ≤ 5000)
    (hfind : env.findOneFails = false) (hcreate : env.createFails = false)
    (hupdate : env.updateFails = false) (hpopulate : env.populateFails = false)
    (hrooms : s.rooms.Nodup) :
    newMessage env s chatId socket.userId (trim content) ∈
      (sendMessage env s socket
        (some { chatId := .oid chatId, content := .string content })).1.messages ∧
    (∀ sid ∈ roomMembers s chatId,
      (sendMessage env s socket
        (some { chatId := .oid chatId, content := .string content })).2.count
        { target := sid,
          event := .receive_message
            (receivedOf s.users (newMessage env s chatId socket.userId (trim content))) }
        = 1) ∧
    (∀ e ∈ (sendMessage env s socket
        (some { chatId := .oid chatId, content := .string content })).2,
      e.event.isReceiveMessage = true →
        e.event = .receive_message
            (receivedOf s.users (newMessage env s chatId socket.userId (trim content))) ∧
          e.target ∈ roomMembers s chatId) ∧
    (∀ (env2 : Faults) (reader : ObjectId) (limit : Nat) (found : Chat),
      Chat.findOne (sendMessage env s socket
        (some { chatId := .oid chatId, content := .string content })).1.chats chatId reader =
          some found →
      env2.findOneFails = false → env2.findFails = false → env2.populateFails = false →
      env2.markSeenFails = false →
      (limit = 0 ∨
        ((sendMessage env s socket
          (some { chatId := .oid chatId, content := .string content })).1.messages.filter
            fun x => x.chatId == chatId).length ≤ limit) →
      ∃ listed hasMore,
        (getMessages env2 (sendMessage env s socket
          (some { chatId := .oid chatId, content := .string content })).1
          reader chatId limit none).2 = .ok listed hasMore ∧
        populate s.users (newMessage env s chatId socket.userId (trim content)) ∈ listed) := by
  rw [sendMessage_all_ok env s socket chatId content chat hfound h1 h2 hfind hcreate hupdate
    hpopulate]
  have hloop := chatUpdatedLoop_events s.connectedUsers chatId
    (newMessage env s chatId socket.userId (trim content))
    (populateSender s.users socket.userId) chat.participants
  have hmem : newMessage env s chatId socket.userId (trim content) ∈
      (stateAfterSend env s chatId socket.userId (trim content)).messages := by
    simp [stateAfterSend]
  refine ⟨hmem, ?_, ?_, ?_⟩
  · intro sid hsid
    simp only [List.count_append]
    have hlive : List.count
        ({ target := sid,
           event := .receive_message
            (receivedOf s.users (newMessage env s chatId socket.userId (trim content))) } : Emit)
        ((roomMembers s chatId).map fun sid =>
          ({ target := sid,
             event := .receive_message
              { _id := s.nextId, chatId := chatId,
                senderId := populateSender s.users socket.userId,
                content := trim content, seen := false,
                createdAt := s.clock + env.tick } } : Emit)) = 1 := by
      have hinj : Function.Injective fun sid : SocketId =>
          ({ target := sid,
             event := .receive_message
              { _id := s.nextId, chatId := chatId,
                senderId := populateSender s.users socket.userId,
                content := trim content, seen := false,
                createdAt := s.clock + env.tick } } : Emit) := by
        intro a b hab
        exact congrArg Emit.target hab
      have := List.count_map_of_injective (roomMembers s chatId) _ hinj sid
      rw [← List.count_eq_one_of_mem (roomMembers_nodup s chatId hrooms) hsid, ← this]
      rfl
    have hupd : List.count
        ({ target := sid,
           event := .receive_message
            (receivedOf s.users (newMessage env s chatId socket.userId (trim content))) } : Emit)
        (chatUpdatedLoop s.connectedUsers chatId
          (newMessage env s chatId socket.userId (trim content))
          (populateSender s.users socket.userId) chat.participants).1 = 0 := by
      rw [List.count_eq_zero]
      intro hin
      have := hloop _ hin
      simp [ServerEvent.isChatUpdated] at this
    have herr : List.count
        ({ target := sid,
           event := .receive_message
            (receivedOf s.users (newMessage env s chatId socket.userId (trim content))) } : Emit)
        (if (chatUpdatedLoop s.connectedUsers chatId
          (newMessage env s chatId socket.userId (trim content))
          (populateSender s.users socket.userId) chat.participants).2
        then [{ target := socket.id, event := .error .failedToSendMessage }] else []) = 0 := by
      rw [List.count_eq_zero]
      split <;> simp
    rw [hlive, hupd, herr]
  · intro e he hrecv
    simp only [List.mem_append, List.mem_map] at he
    rcases he with (⟨sid, hsid, rfl⟩ | he) | he
    · exact ⟨rfl, hsid⟩
    · have := hloop e he
      cases hev : e.event <;> simp [hev, ServerEvent.isChatUpdated,
        ServerEvent.isReceiveMessage] at this hrecv
    · split at he
      · simp only [List.mem_singleton] at he
        subst he
        simp [ServerEvent.isReceiveMessage] at hrecv
      · simp at he
  · intro env2 reader limit found hreader e1 e2 e3 e4 hlimit
    refine ⟨_, _, getMessages_ok env2 _ reader chatId limit none found hreader e1 e2 e3 e4, ?_⟩
    rw [List.mem_reverse, List.mem_map]
    exact ⟨newMessage env s chatId socket.userId (trim content),
      mem_find_unbounded _ chatId limit _ hmem rfl hlimit, rfl⟩

/-- Alice sends "hi", naming the chat by its canonical string, while Bob's session 200 is
in the room; Bob then lists the chat with the default limit 50. -/
theorem sendMessage_delivers_once_and_lists_witness :
    (sendMessage calm bobJoined socketA
        (some { chatId := .oid 10, content := .string hi })).2.count
      { target := 200,
        event := .receive_message
          (receivedOf bobJoined.users (newMessage calm bobJoined 10 socketA.userId (trim hi))) }
      = 1 ∧
    ∃ listed hasMore,
      (getMessages calm (sendMessage calm bobJoined socketA
        (some { chatId := .oid 10, content := .string hi })).1 2 10 50 none).2 =
        .ok listed hasMore ∧
      populate bobJoined.users (newMessage calm bobJoined 10 socketA.userId (trim hi)) ∈
        listed :=
  have h := sendMessage_delivers_once_and_lists calm bobJoined socketA 10 hi chatAB
    (by decide) (by decide) (by decide) (by decide) (by decide) (by decide) (by decide)
    (by decide)
  ⟨h.2.1 200 (by decide),
    h.2.2.2 calm 2 50
      { chatAB with
        lastMessage := some (snapshotOf (newMessage calm bobJoined 10 socketA.userId (trim hi))),
        updatedAt := 5 }
      (by decide) (by decide) (by decide) (by decide) (by decide) (Or.inr (by decide))⟩

/-! ## The sidebar notification -/

theorem populateSender_of_stored (users : List User) (senderId : ObjectId)
    (h : ∃ u ∈ users, u._id = senderId) :
    ∃ ref, populateSender users senderId = some ref ∧ ref._id = senderId := by
  unfold populateSender
  cases hf : users.find? fun u => u._id == senderId with
  | none =>
    rw [List.find?_eq_none] at hf
    obtain ⟨u, hu, hid⟩ := h
    exact absurd (by simpa using hid) (hf u hu)
  | some u =>
    have := List.find?_some hf
    exact ⟨_, rfl, by simpa using this⟩

theorem chatUpdatedLoop_populated (connectedUsers : List (ObjectId × SocketId))
    (chatId : ObjectId) (message : Message) (ref : SenderRef)
    (participants : List ObjectId) :
    chatUpdatedLoop connectedUsers chatId message (some ref) participants =
      (participants.filterMap fun p =>
        (mapGet connectedUsers p).map fun sid =>
          ({ target := sid,
             event := .chat_updated chatId
              { content := message.content, senderId := ref._id,
                createdAt := message.createdAt } } : Emit), false) := by
  induction participants with
  | nil => rfl
  | cons p rest ih =>
    unfold chatUpdatedLoop
    cases hg : mapGet connectedUsers p with
    | none => simp [ih, hg]
    | some sid => simp [ih, hg]

/-- C6, counterexample: Alice holds two live sessions, 100 and 101, and Bob one.  Bob sends
"hi" to their chat.  chat_updated reaches session 101 (the one `connectedUsers` records for
Alice) and Bob's session 200, but no chat_updated reaches Alice's live session 100. -/
theorem sendMessage_second_session_not_notified :
    socketA ∈ twoDevices.sockets ∧ socketA2 ∈ twoDevices.sockets ∧
    socketA.userId ∈ chatAB.participants ∧
    Chat.findOne twoDevices.chats 10 socketB.userId = some chatAB ∧
    (∃ e ∈ (sendMessage calm twoDevices socketB
        (some { chatId := .oid 10, content := .string hi })).2,
      e.target = socketA2.id ∧ e.event.isChatUpdated = true) ∧
    (∀ e ∈ (sendMessage calm twoDevices socketB
        (some { chatId := .oid 10, content := .string hi })).2,
      e.target = socketA.id → e.event.isChatUpdated = false) := by
  decide

theorem updateFirst_mem {α : Type} (p : α → Bool) (f : α → α) (l : List α) (x : α)
    (hx : x ∈ l) (hp : p x = true) : ∃ y ∈ l, p y = true ∧ f y ∈ updateFirst p f l := by
  induction l with
  | nil => cases hx
  | cons a rest ih =>
    unfold updateFirst
    by_cases ha : p a = true
    · exact ⟨a, List.mem_cons_self _ _, ha, by simp [ha]⟩
    · have hin : x ∈ rest := by
        rcases List.mem_cons.mp hx with h | h
        · exact absurd (h ▸ hp) ha
        · exact h
      obtain ⟨y, hy, hpy, hfy⟩ := ih hin
      exact ⟨y, List.mem_cons_of_mem _ hy, hpy, by simp [ha, hfy]⟩

theorem updateFirst_eq_map_of_unique (chatId : ObjectId) (f : Chat → Chat) (chats : List Chat)
    (hunique : (chats.map fun c => c._id).Nodup) :
    updateFirst (fun c => c._id == chatId) f chats =
      chats.map fun c => if c._id = chatId then f c else c := by
  induction chats with
  | nil => rfl
  | cons a rest ih =>
    rw [List.map_cons, List.nodup_cons] at hunique
    unfold updateFirst
    by_cases ha : a._id = chatId
    · have hrest : ∀ c ∈ rest, c._id ≠ chatId := by
        intro c hc hcid
        exact hunique.1 (List.mem_map.mpr ⟨c, hc, hcid.trans ha.symm⟩)
      have hmap : (rest.map fun c => if c._id = chatId then f c else c) = rest := by
        conv_rhs => rw [← List.map_id rest]
        exact List.map_congr_left fun c hc => by simp [hrest c hc]
      simp [ha, hmap]
    · simp [ha, ih hunique.2]

theorem eq_of_mem_of_id_eq {chats : List Chat} (hunique : (chats.map fun c => c._id).Nodup)
    {a b : Chat} (ha : a ∈ chats) (hb : b ∈ chats) (h : a._id = b._id) : a = b := by
  induction chats with
  | nil => cases ha
  | cons x rest ih =>
    rw [List.map_cons, List.nodup_cons] at hunique
    simp only [List.mem_cons] at ha hb
    rcases ha with rfl | ha <;> rcases hb with rfl | hb
    · rfl
    · exact absurd (List.mem_map.mpr ⟨b, hb, h.symm⟩) hunique.1
    · exact absurd (List.mem_map.mpr ⟨a, ha, h⟩) hunique.1
    · exact ih hunique.2 ha hb

/-- C6, amended: after a successful send_message whose sender is a stored user,
chat_updated carrying the new last-message snapshot is emitted, for each participant of
the chat, to the session that `connectedUsers` records for that participant (one per
user), whether or not that session has joined the room.  The proof also shows that every
chat_updated emitted is of this kind, and that the snapshot is the one now stored. -/
theorem sendMessage_chat_updated_registered (env : Faults) (s : State) (socket : Socket)
    (chatId : ObjectId) (content : JsString) (chat : Chat)
    (hfound : Chat.findOne s.chats chatId socket.userId = some chat)
    (h1 : 1 ≤ (trim content).length) (h2 : (trim content).length ≤ 5000)
    (hfind : env.findOneFails = false) (hcreate : env.createFails = false)
    (hupdate : env.updateFails = false) (hpopulate : env.populateFails = false)
    (hsender : ∃ u ∈ s.users, u._id = socket.userId) :
    (∀ p ∈ chat.participants, ∀ sid, mapGet s.connectedUsers p = some sid →
      ({ target := sid,
         event := .chat_updated chatId
          (snapshotOf (newMessage env s chatId socket.userId (trim content))) } : Emit) ∈
        (sendMessage env s socket
          (some { chatId := .oid chatId, content := .string content })).2) ∧
    (∀ e ∈ (sendMessage env s socket
        (some { chatId := .oid chatId, content := .string content })).2,
      e.event.isChatUpdated = true →
        e.event = .chat_updated chatId
          (snapshotOf (newMessage env s chatId socket.userId (trim content))) ∧
        ∃ p ∈ chat.participants, mapGet s.connectedUsers p = some e.target) ∧
    (∃ c ∈ (sendMessage env s socket
        (some { chatId := .oid chatId, content := .string content })).1.chats,
      c._id = chatId ∧
      c.lastMessage =
        some (snapshotOf (newMessage env s chatId socket.userId (trim content)))) := by
  rw [sendMessage_all_ok env s socket chatId content chat hfound h1 h2 hfind hcreate hupdate
    hpopulate]
  obtain ⟨ref, href, hrefid⟩ := populateSender_of_stored s.users socket.userId hsender
  rw [href, chatUpdatedLoop_populated]
  have hsnap : LastMessage.mk (newMessage env s chatId socket.userId (trim content)).content
      ref._id (newMessage env s chatId socket.userId (trim content)).createdAt =
        snapshotOf (newMessage env s chatId socket.userId (trim content)) := by
    simp [snapshotOf, newMessage, hrefid]
  rw [hsnap]
  refine ⟨?_, ?_, ?_⟩
  · intro p hp sid hsid
    simp only [List.mem_append, List.mem_filterMap]
    exact Or.inl (Or.inr ⟨p, hp, by simp [hsid]⟩)
  · intro e he hupd
    simp only [List.mem_append, List.mem_map, List.mem_filterMap] at he
    rcases he with (⟨sid, _, rfl⟩ | ⟨p, hp, hpe⟩) | he
    · simp [ServerEvent.isChatUpdated] at hupd
    · cases hg : mapGet s.connectedUsers p with
      | none => simp [hg] at hpe
      | some sid =>
        simp only [hg, Option.map_some', Option.some.injEq] at hpe
        subst hpe
        exact ⟨rfl, p, hp, hg⟩
    · simp at he
  · obtain ⟨hin, hid, _⟩ := findOne_some_mem hfound
    obtain ⟨y, _, hy, hfy⟩ := updateFirst_mem (fun c : Chat => c._id == chatId)
      (fun c => { c with
        lastMessage := some (snapshotOf (newMessage env s chatId socket.userId (trim content))),
        updatedAt := s.clock + env.tick + env.tick }) s.chats chat hin (by simpa using hid)
    exact ⟨_, hfy, by simpa using hy, rfl⟩

/-- Witness for the amended C6, in the scenario of its counterexample: the event reaches
session 101, which `connectedUsers` records for Alice. -/
theorem sendMessage_chat_updated_registered_witness :
    mapGet twoDevices.connectedUsers 1 = some 101 ∧
    ({ target := 101,
       event := .chat_updated 10
        (snapshotOf (newMessage calm twoDevices 10 socketB.userId (trim hi))) } : Emit) ∈
      (sendMessage calm twoDevices socketB
        (some { chatId := .oid 10, content := .string hi })).2 :=
  ⟨by decide,
    (sendMessage_chat_updated_registered calm twoDevices socketB 10 hi chatAB
      (by decide) (by decide) (by decide) (by decide) (by decide) (by decide) (by decide)
      (by decide)).1 1 (by decide) 101 (by decide)⟩

/-! ## The snapshot of the chat -/

theorem sendMessage_state_after_update (env : Faults) (s : State) (socket : Socket)
    (chatId : ObjectId) (content : JsString) (chat : Chat)
    (hfound : Chat.findOne s.chats chatId socket.userId = some chat)
    (h1 : 1 ≤ (trim content).length) (h2 : (trim content).length ≤ 5000)
    (hfind : env.findOneFails = false) (hcreate : env.createFails = false)
    (hupdate : env.updateFails = false) :
    (sendMessage env s socket (some { chatId := .oid chatId, content := .string content })).1 =
      stateAfterSend env s chatId socket.userId (trim content) := by
  cases hp : env.populateFails with
  | true => rw [sendMessage_populate_rejected env s socket chatId content chat hfound h1 h2
      hfind hcreate hupdate hp]
  | false => rw [sendMessage_all_ok env s socket chatId content chat hfound h1 h2 hfind
      hcreate hupdate hp]

/-- C7: after a send_message in which the message is persisted and the snapshot update is
not rejected, in a store whose chat ids are unique and whose chats are not stamped later
than the clock, the stored message has the trimmed content and the caller as sender; the
Chat's lastMessage is exactly that content, sender and createdAt; its updatedAt is not
earlier than before; and every other Chat is unchanged. -/
theorem sendMessage_updates_snapshot (env : Faults) (s : State) (socket : Socket)
    (chatId : ObjectId) (content : JsString) (chat : Chat)
    (hfound : Chat.findOne s.chats chatId socket.userId = some chat)
    (h1 : 1 ≤ (trim content).length) (h2 : (trim content).length ≤ 5000)
    (hfind : env.findOneFails = false) (hcreate : env.createFails = false)
    (hupdate : env.updateFails = false)
    (hunique : (s.chats.map fun c => c._id).Nodup)
    (hclock : ∀ c ∈ s.chats, c.updatedAt ≤ s.clock) :
    ∃ (m : Message) (t : Date),
      (sendMessage env s socket
        (some { chatId := .oid chatId, content := .string content })).1.messages =
          s.messages ++ [m] ∧
      m.content = trim content ∧ m.senderId = socket.userId ∧ m.chatId = chatId ∧
      chat.updatedAt ≤ t ∧
      (sendMessage env s socket
        (some { chatId := .oid chatId, content := .string content })).1.chats =
          s.chats.map fun c =>
            if c = chat then
              { chat with
                lastMessage := some
                  { content := trim content, senderId := socket.userId,
                    createdAt := m.createdAt },
                updatedAt := t }
            else c := by
  rw [sendMessage_state_after_update env s socket chatId content chat hfound h1 h2 hfind
    hcreate hupdate]
  obtain ⟨hin, hid, _⟩ := findOne_some_mem hfound
  refine ⟨newMessage env s chatId socket.userId (trim content), s.clock + env.tick + env.tick,
    rfl, rfl, rfl, rfl, ?_, ?_⟩
  · exact Nat.le_trans (hclock chat hin)
      (Nat.le_trans (Nat.le_add_right _ _) (Nat.le_add_right _ _))
  · simp only [stateAfterSend]
    rw [updateFirst_eq_map_of_unique chatId _ s.chats hunique]
    apply List.map_congr_left
    intro c hc
    by_cases hcc : c = chat
    · subst hcc
      simp [hid, snapshotOf, newMessage]
    · have hne : c._id ≠ chatId := by
        intro h
        exact hcc (eq_of_mem_of_id_eq hunique hc hin (h.trans hid.symm))
      simp [hcc, hne]

/-- Witness for C7: Alice sends "  hi " to her chat with Bob; the snapshot holds "hi". -/
theorem sendMessage_updates_snapshot_witness :
    ∃ (m : Message) (t : Date),
      (sendMessage calm bobJoined socketA
        (some { chatId := .oid 10, content := .string [32, 32, 104, 105, 32] })).1.messages =
          bobJoined.messages ++ [m] ∧
      m.content = trim [32, 32, 104, 105, 32] ∧ m.senderId = socketA.userId ∧ m.chatId = 10 ∧
      chatAB.updatedAt ≤ t ∧
      (sendMessage calm bobJoined socketA
        (some { chatId := .oid 10, content := .string [32, 32, 104, 105, 32] })).1.chats =
          bobJoined.chats.map fun c =>
            if c = chatAB then
              { chatAB with
                lastMessage := some
                  { content := trim [32, 32, 104, 105, 32], senderId := socketA.userId,
                    createdAt := m.createdAt },
                updatedAt := t }
            else c :=
  sendMessage_updates_snapshot calm bobJoined socketA 10 [32, 32, 104, 105, 32] chatAB
    (by decide) (by decide) (by decide) (by decide) (by decide) (by decide) (by decide)
    (by decide)

/-! ## Joining a room and marking messages seen -/

theorem markAsSeen_ok (env : Faults) (s : State) (chatId userId : ObjectId)
    (hseen : env.markSeenFails = false) :
    Message.markAsSeen env s chatId userId =
      ({ s with
          clock := s.clock + env.tick,
          messages := s.messages.map fun m =>
            if (m.chatId == chatId && m.senderId != userId && m.seen == false) = true then
              { m with seen := true, seenAt := some (s.clock + env.tick) }
            else m },
        some (s.messages.countP fun m =>
          m.chatId == chatId && m.senderId != userId && m.seen == false)) := by
  simp [Message.markAsSeen, hseen, updateMany]

theorem mem_roomJoin (rooms : List (ObjectId × SocketId)) (chatId : ObjectId) (sid : SocketId)
    (x : ObjectId × SocketId) :
    x ∈ roomJoin rooms chatId sid ↔ x ∈ rooms ∨ x = (chatId, sid) := by
  unfold roomJoin
  by_cases hc : rooms.contains (chatId, sid) = true
  · rw [if_pos hc]
    have hin : (chatId, sid) ∈ rooms := by simpa using hc
    constructor
    · exact Or.inl
    · rintro (h | h)
      · exact h
      · exact h ▸ hin
  · rw [if_neg hc]
    simp

theorem mem_roomMembers (s : State) (chatId : ObjectId) (sid : SocketId) :
    sid ∈ roomMembers s chatId ↔ (chatId, sid) ∈ s.rooms := by
  unfold roomMembers
  simp only [List.mem_map, List.mem_filter, beq_iff_eq]
  constructor
  · rintro ⟨⟨c, x⟩, ⟨hin, hc⟩, hx⟩
    simp only at hc hx
    subst hc hx
    exact hin
  · intro h
    exact ⟨(chatId, sid), ⟨h, rfl⟩, rfl⟩

theorem join_ok (env : Faults) (s : State) (socket : Socket) (chatId : ObjectId) (chat : Chat)
    (hfound : Chat.findOne s.chats chatId socket.userId = some chat)
    (hfind : env.findOneFails = false) (hseen : env.markSeenFails = false) :
    join env s socket chatId =
      ({ s with
          rooms := roomJoin s.rooms chatId socket.id,
          clock := s.clock + env.tick,
          messages := s.messages.map fun m =>
            if (m.chatId == chatId && m.senderId != socket.userId && m.seen == false) = true
            then { m with seen := true, seenAt := some (s.clock + env.tick) }
            else m },
        (((roomJoin s.rooms chatId socket.id).filter fun r => r.1 == chatId).map Prod.snd
          |>.filter fun sid => sid != socket.id).map fun sid =>
            { target := sid, event := .messages_seen chatId socket.userId }) := by
  simp [join, hfound, hfind, markAsSeen_ok _ _ _ _ hseen, roomMembers]

/-- C8: a join naming a chat of which the caller is not a participant (or that does not
exist) changes nothing and emits nothing: the session is not added to the room, no
message's seen flag or seenAt changes, and no messages_seen event is emitted.  The
refusal is silent. -/
theorem join_not_participant (env : Faults) (s : State) (socket : Socket) (chatId : ObjectId)
    (h : ∀ c ∈ s.chats, c._id = chatId → socket.userId ∉ c.participants) :
    join env s socket chatId = (s, []) := by
  unfold join
  rw [findOne_none_of_not_participant h]
  split <;> rfl

/-- Witness for C8: Carol asks to join the room of the chat of Alice and Bob. -/
theorem join_not_participant_witness :
    (∀ c ∈ bobJoined.chats, c._id = 10 → socketC.userId ∉ c.participants) ∧
    join calm bobJoined socketC 10 = (bobJoined, []) :=
  ⟨by decide, join_not_participant calm bobJoined socketC 10 (by decide)⟩

/-- Joining with the canonical string of the chat's identifier: a join by a participant of
the chat, with the participant lookup and the seen
update not rejected, puts the session in the chat's room; afterwards every message of the
chat not sent by the joining user has seen = true; and messages_seen {chatId, userId} is
emitted to every other session in the room, and to nobody else, in particular not to the
joining session. -/
theorem join_participant (env : Faults) (s : State) (socket : Socket) (chatId : ObjectId)
    (chat : Chat)
    (hfound : Chat.findOne s.chats chatId socket.userId = some chat)
    (hfind : env.findOneFails = false) (hseen : env.markSeenFails = false) :
    socket.id ∈ roomMembers (join env s socket chatId).1 chatId ∧
    (∀ m ∈ (join env s socket chatId).1.messages,
      m.chatId = chatId → m.senderId ≠ socket.userId → m.seen = true) ∧
    (∀ sid ∈ roomMembers (join env s socket chatId).1 chatId, sid ≠ socket.id →
      ({ target := sid, event := .messages_seen chatId socket.userId } : Emit) ∈
        (join env s socket chatId).2) ∧
    (∀ e ∈ (join env s socket chatId).2,
      e.target ≠ socket.id ∧ e.target ∈ roomMembers (join env s socket chatId).1 chatId ∧
        e.event = .messages_seen chatId socket.userId) := by
  rw [join_ok env s socket chatId chat hfound hfind hseen]
  refine ⟨?_, ?_, ?_, ?_⟩
  · rw [mem_roomMembers]
    exact (mem_roomJoin _ _ _ _).2 (Or.inr rfl)
  · intro m hm hc hs
    simp only [List.mem_map] at hm
    obtain ⟨m0, _, rfl⟩ := hm
    by_cases hcond : (m0.chatId == chatId && m0.senderId != socket.userId &&
        m0.seen == false) = true
    · rw [if_pos hcond]
    · rw [if_neg hcond] at hc hs ⊢
      cases hseen0 : m0.seen with
      | true => rfl
      | false =>
        exfalso
        apply hcond
        simp [hc, hs, hseen0]
  · intro sid hsid hne
    simp only [List.mem_map, List.mem_filter]
    refine ⟨sid, ⟨?_, by simpa using hne⟩, rfl⟩
    simpa [roomMembers] using hsid
  · intro e he
    simp only [List.mem_map, List.mem_filter] at he
    obtain ⟨sid, ⟨hsid, hne⟩, rfl⟩ := he
    refine ⟨by simpa using hne, ?_, rfl⟩
    simpa [roomMembers] using hsid

/-- Bob joins, with the canonical string of the chat's identifier, the room in which Alice
waits with an unseen "hi". -/
theorem join_participant_witness :
    socketB.id ∈ roomMembers (join calm aliceWaiting socketB 10).1 10 ∧
    (∀ m ∈ (join calm aliceWaiting socketB 10).1.messages,
      m.chatId = 10 → m.senderId ≠ socketB.userId → m.seen = true) ∧
    (∀ sid ∈ roomMembers (join calm aliceWaiting socketB 10).1 10, sid ≠ socketB.id →
      ({ target := sid, event := .messages_seen 10 socketB.userId } : Emit) ∈
        (join calm aliceWaiting socketB 10).2) ∧
    (∀ e ∈ (join calm aliceWaiting socketB 10).2,
      e.target ≠ socketB.id ∧ e.target ∈ roomMembers (join calm aliceWaiting socketB 10).1 10 ∧
        e.event = .messages_seen 10 socketB.userId) :=
  join_participant calm aliceWaiting socketB 10
    { chatAB with
      lastMessage := some { content := hi, senderId := 1, createdAt := 4 }, updatedAt := 5 }
    (by decide) (by decide) (by decide)

/-- C10: when the store does not reject it, markAsSeen(chatId, reader) reports as
modifiedCount the number of messages of the chat not sent by the reader and not yet seen;
position by position, such a message gets seen = true and seenAt stamped with the time
of the call, its other fields kept, while every other message (of another chat, sent by
the reader, or already seen, with its seenAt) is left as it was; users and chats are
untouched; and on a chat with no messages it reports 0 and changes no message. -/
theorem markAsSeen_exact (env : Faults) (s : State) (chatId reader : ObjectId)
    (hseen : env.markSeenFails = false) :
    (Message.markAsSeen env s chatId reader).2 =
      some (s.messages.filter fun m =>
        decide (m.chatId = chatId ∧ m.senderId ≠ reader ∧ m.seen = false)).length ∧
    (Message.markAsSeen env s chatId reader).1.messages.length = s.messages.length ∧
    (∀ (i : Nat) (m : Message), s.messages[i]? = some m →
      (m.chatId = chatId ∧ m.senderId ≠ reader ∧ m.seen = false →
        (Message.markAsSeen env s chatId reader).1.messages[i]? =
          some { m with seen := true, seenAt := some (s.clock + env.tick) }) ∧
      (¬ (m.chatId = chatId ∧ m.senderId ≠ reader ∧ m.seen = false) →
        (Message.markAsSeen env s chatId reader).1.messages[i]? = some m)) ∧
    (Message.markAsSeen env s chatId reader).1.chats = s.chats ∧
    (Message.markAsSeen env s chatId reader).1.users = s.users ∧
    ((∀ m ∈ s.messages, m.chatId ≠ chatId) →
      (Message.markAsSeen env s chatId reader).2 = some 0 ∧
      (Message.markAsSeen env s chatId reader).1.messages = s.messages) := by
  rw [markAsSeen_ok env s chatId reader hseen]
  have hcond : ∀ m : Message,
      ((m.chatId == chatId && m.senderId != reader && m.seen == false) = true) ↔
        (m.chatId = chatId ∧ m.senderId ≠ reader ∧ m.seen = false) := by
    intro m
    simp [and_assoc]
  refine ⟨?_, by simp, ?_, rfl, rfl, ?_⟩
  · simp only [List.countP_eq_length_filter]
    congr 2
    apply List.filter_congr
    intro m _
    by_cases h : m.chatId = chatId ∧ m.senderId ≠ reader ∧ m.seen = false
    · rw [(hcond m).2 h, decide_eq_true h]
    · rw [decide_eq_false h]
      exact Bool.eq_false_iff.mpr fun hb => h ((hcond m).1 hb)
  · intro i m hi
    simp only [List.getElem?_map, hi, Option.map_some']
    constructor
    · intro h
      rw [if_pos ((hcond m).2 h)]
    · intro h
      rw [if_neg fun hb => h ((hcond m).1 hb)]
  · intro hnone
    have hfalse : ∀ m ∈ s.messages,
        ¬ ((m.chatId == chatId && m.senderId != reader && m.seen == false) = true) := by
      intro m hm hb
      exact hnone m hm ((hcond m).1 hb).1
    constructor
    · simp only [Option.some.injEq, List.countP_eq_zero]
      exact hfalse
    · show (s.messages.map _) = s.messages
      conv_rhs => rw [← List.map_id s.messages]
      apply List.map_congr_left
      intro m hm
      rw [if_neg (hfalse m hm)]
      rfl

/-- Witness for C10: Bob reads the chat in which Alice's "hi" is unseen; one message is
modified. -/
theorem markAsSeen_exact_witness :
    (Message.markAsSeen calm aliceWaiting 10 2).2 = some 1 ∧
    (Message.markAsSeen calm aliceWaiting 10 2).1.messages =
      [{ _id := 11, chatId := 10, senderId := 1, content := hi, seen := true,
         seenAt := some 6, createdAt := 4 }] ∧
    (Message.markAsSeen calm aliceWaiting 10 2).2 =
      some (aliceWaiting.messages.filter fun m =>
        decide (m.chatId = 10 ∧ m.senderId ≠ 2 ∧ m.seen = false)).length :=
  ⟨by decide, by decide, (markAsSeen_exact calm aliceWaiting 10 2 (by decide)).1⟩

/-! ## The invariants are kept by every handler -/

theorem updateFirst_map_eq {α β : Type} (p : α → Bool) (f : α → α) (g : α → β)
    (hg : ∀ x, g (f x) = g x) (l : List α) : (updateFirst p f l).map g = l.map g := by
  induction l with
  | nil => rfl
  | cons a rest ih =>
    unfold updateFirst
    by_cases ha : p a = true
    · simp [ha, hg]
    · simp [ha, ih]

theorem mem_updateFirst {α : Type} (p : α → Bool) (f : α → α) (l : List α) (y : α)
    (hy : y ∈ updateFirst p f l) : y ∈ l ∨ ∃ x ∈ l, y = f x := by
  induction l with
  | nil => cases hy
  | cons a rest ih =>
    unfold updateFirst at hy
    by_cases ha : p a = true
    · rw [if_pos ha] at hy
      rcases List.mem_cons.mp hy with h | h
      · exact Or.inr ⟨a, List.mem_cons_self _ _, h⟩
      · exact Or.inl (List.mem_cons_of_mem _ h)
    · rw [if_neg ha] at hy
      rcases List.mem_cons.mp hy with h | h
      · exact Or.inl (h ▸ List.mem_cons_self _ _)
      · rcases ih h with h2 | ⟨x, hx, hxy⟩
        · exact Or.inl (List.mem_cons_of_mem _ h2)
        · exact Or.inr ⟨x, List.mem_cons_of_mem _ hx, hxy⟩

theorem wellFormed_initialState : initialState.WellFormed := by
  unfold State.WellFormed
  decide

theorem wellFormed_of_later (s r : State) (h : s.WellFormed) (hrooms : r.rooms = s.rooms)
    (hchats : r.chats = s.chats) (hclock : s.clock ≤ r.clock) : r.WellFormed := by
  unfold State.WellFormed at h ⊢
  rw [hrooms, hchats]
  exact ⟨h.1, h.2.1, fun c hc => Nat.le_trans (h.2.2 c hc) hclock⟩

theorem wellFormed_stateAfterSend (env : Faults) (s : State) (chatId senderId : ObjectId)
    (content : JsString) (h : s.WellFormed) :
    (stateAfterSend env s chatId senderId content).WellFormed := by
  unfold State.WellFormed at h ⊢
  refine ⟨h.1, ?_, ?_⟩
  · simp only [stateAfterSend]
    have hids := updateFirst_map_eq (fun c : Chat => c._id == chatId)
      (fun c : Chat => { c with
        lastMessage := some (snapshotOf (newMessage env s chatId senderId content)),
        updatedAt := s.clock + env.tick + env.tick })
      (fun c : Chat => c._id) (fun _ => rfl) s.chats
    rw [hids]
    exact h.2.1
  · intro c hc
    simp only [stateAfterSend] at hc ⊢
    rcases mem_updateFirst _ _ _ _ hc with h1 | ⟨x, _, rfl⟩
    · exact Nat.le_trans (h.2.2 c h1)
        (Nat.le_trans (Nat.le_add_right _ _) (Nat.le_add_right _ _))
    · exact Nat.le_refl _

/-- What a `send_message` whose `chatId` casts to `chatId` does once the checks
have passed and the chat is found. -/
theorem sendMessage_castable (env : Faults) (s : State) (socket : Socket) (wire : WireId)
    (chatId : ObjectId) (str : JsString) (chat : Chat)
    (hcast : wire.cast = some chatId) (hne : (trim str).isEmpty = false)
    (hf : env.findOneFails = false)
    (hfound : Chat.findOne s.chats chatId socket.userId = some chat) :
    sendMessage env s socket (some { chatId := wire, content := .string str }) =
      match Message.create env s chatId socket.userId (trim str) with
      | (s1, none) => (s1, [{ target := socket.id, event := .error .failedToSendMessage }])
      | (s1, some message) =>
        match Chat.updateLastMessage env s1 chatId message with
        | (s2, false) =>
          (s2, [{ target := socket.id, event := .error .failedToSendMessage }])
        | (s2, true) =>
          if env.populateFails then
            (s2, [{ target := socket.id, event := .error .failedToSendMessage }])
          else
            (s2, ((roomMembersOf s2 wire).map fun sid =>
                ({ target := sid,
                   event := .receive_message
                    { _id := message._id, chatId := message.chatId,
                      senderId := populateSender s2.users message.senderId,
                      content := message.content, seen := message.seen,
                      createdAt := message.createdAt } } : Emit)) ++
              (chatUpdatedLoopOf s2.connectedUsers wire message
                (populateSender s2.users message.senderId) chat.participants).1 ++
              if (chatUpdatedLoopOf s2.connectedUsers wire message
                (populateSender s2.users message.senderId) chat.participants).2
              then [{ target := socket.id, event := .error .failedToSendMessage }]
              else []) := by
  have hc := content_nonempty_of_trim hne
  cases wire with
  | oid id =>
    simp only [WireId.cast, Option.some.injEq] at hcast
    subst hcast
    simp [sendMessage, hne, hc, hf, hfound, JsValue.truthy, WireId.truthy, roomMembersOf,
      chatUpdatedLoopOf]
  | variant id text =>
    simp only [WireId.cast, Option.some.injEq] at hcast
    subst hcast
    simp [sendMessage, hne, hc, hf, hfound, JsValue.truthy, WireId.truthy, roomMembersOf,
      chatUpdatedLoopOf]
  | missing => simp [WireId.cast] at hcast
  | malformed => simp [WireId.cast] at hcast

/-- A `chatId` in another spelling leaves the same state as the canonical one: only the
room and the payload of `chat_updated` depend on the spelling. -/
theorem sendMessage_variant_state (env : Faults) (s : State) (socket : Socket)
    (id : ObjectId) (text : JsString) (content : JsValue) :
    (sendMessage env s socket (some { chatId := .variant id text, content := content })).1 =
      (sendMessage env s socket (some { chatId := .oid id, content := content })).1 := by
  cases content with
  | string str =>
    by_cases he : (trim str).isEmpty = true
    · have h0 : (trim str).length = 0 := by
        have : trim str = [] := List.isEmpty_iff.mp he
        rw [this]
        rfl
      rw [sendMessage_blank env s socket _ str h0, sendMessage_blank env s socket _ str h0]
    · have hne : (trim str).isEmpty = false := by simpa using he
      have hc := content_nonempty_of_trim hne
      by_cases hf : env.findOneFails = true
      · simp [sendMessage, hne, hc, hf, JsValue.truthy, WireId.truthy]
      · have hf2 : env.findOneFails = false := by simpa using hf
        cases hfound : Chat.findOne s.chats id socket.userId with
        | none => simp [sendMessage, hne, hc, hf2, hfound, JsValue.truthy, WireId.truthy]
        | some chat =>
          rw [sendMessage_castable env s socket (.variant id text) id str chat rfl hne hf2
              hfound,
            sendMessage_castable env s socket (.oid id) id str chat rfl hne hf2 hfound]
          cases hcr : Message.create env s id socket.userId (trim str) with
          | mk s1 res =>
            cases res with
            | none => rfl
            | some message =>
              simp only []
              cases hup : Chat.updateLastMessage env s1 id message with
              | mk s2 ok =>
                cases ok with
                | false => rfl
                | true =>
                  simp only []
                  by_cases hpop : env.populateFails = true
                  · simp [hpop]
                  · simp [hpop]
  | undefined => simp [sendMessage, JsValue.truthy]
  | null => simp [sendMessage, JsValue.truthy]
  | bool b => cases b <;> simp [sendMessage, JsValue.truthy, WireId.truthy]
  | number n => by_cases hn : n = 0 <;> simp [sendMessage, JsValue.truthy, WireId.truthy, hn]

/-- The states `send_message` can end in. -/
theorem sendMessage_state_cases (env : Faults) (s : State) (socket : Socket)
    (data : Option SendMessageData) :
    (sendMessage env s socket data).1 = s ∨
    (sendMessage env s socket data).1 = { s with clock := s.clock + env.tick } ∨
    ∃ chatId content,
      (sendMessage env s socket data).1 =
          stateAfterCreate env s chatId socket.userId content ∨
      (sendMessage env s socket data).1 = stateAfterSend env s chatId socket.userId content := by
  cases data with
  | none => exact Or.inl rfl
  | some d =>
    obtain ⟨chatId, content⟩ := d
    by_cases hfind : ∀ id, chatId.cast = some id → Chat.findOne s.chats id socket.userId = none
    · obtain ⟨msg, hmsg⟩ := sendMessage_unauthorized env s socket chatId content hfind
      rw [hmsg]
      exact Or.inl rfl
    · push_neg at hfind
      obtain ⟨id, hcast, hne⟩ := hfind
      obtain ⟨chat, hchat⟩ := Option.ne_none_iff_exists'.mp hne
      have hstate : (sendMessage env s socket
          (some { chatId := chatId, content := content })).1 =
          (sendMessage env s socket (some { chatId := .oid id, content := content })).1 := by
        cases chatId with
        | oid id2 =>
          simp only [WireId.cast, Option.some.injEq] at hcast
          subst hcast
          rfl
        | variant id2 text =>
          simp only [WireId.cast, Option.some.injEq] at hcast
          subst hcast
          exact sendMessage_variant_state env s socket id2 text content
        | missing => simp [WireId.cast] at hcast
        | malformed => simp [WireId.cast] at hcast
      rw [hstate]
      cases content with
      | string str =>
        by_cases h0 : (trim str).length = 0
        · rw [sendMessage_blank env s socket _ str h0]
          exact Or.inl rfl
        · have h1 : 1 ≤ (trim str).length := by omega
          cases hf : env.findOneFails with
          | true =>
            have hne : (trim str).isEmpty = false := (isEmpty_eq_false_iff_one_le _).2 h1
            have hc := content_nonempty_of_trim hne
            left
            simp [sendMessage, hf, JsValue.truthy, WireId.truthy, hc, hne]
          | false =>
            by_cases hrej : env.createFails = true ∨ 5000 < (trim str).length
            · rw [sendMessage_create_rejected env s socket id str chat hchat h1 hf hrej]
              exact Or.inr (Or.inl rfl)
            · push_neg at hrej
              have hcr : env.createFails = false := by simpa using hrej.1
              refine Or.inr (Or.inr ⟨id, trim str, ?_⟩)
              cases hu : env.updateFails with
              | true =>
                rw [sendMessage_update_rejected env s socket id str chat hchat h1 hrej.2 hf hcr
                  hu]
                exact Or.inl rfl
              | false =>
                rw [sendMessage_state_after_update env s socket id str chat hchat h1 hrej.2 hf
                  hcr hu]
                exact Or.inr rfl
      | undefined => exact Or.inl (by simp [sendMessage, JsValue.truthy])
      | null => exact Or.inl (by simp [sendMessage, JsValue.truthy])
      | bool b => exact Or.inl (by cases b <;> simp [sendMessage, JsValue.truthy, WireId.truthy])
      | number n =>
        exact Or.inl (by
          by_cases hn : n = 0 <;> simp [sendMessage, JsValue.truthy, WireId.truthy, hn])

/-- The handler `send_message` keeps the invariants, whatever the payload and the faults. -/
theorem sendMessage_wellFormed (env : Faults) (s : State) (socket : Socket)
    (data : Option SendMessageData) (h : s.WellFormed) :
    (sendMessage env s socket data).1.WellFormed := by
  rcases sendMessage_state_cases env s socket data with hr | hr | ⟨chatId, content, hr | hr⟩
  · rw [hr]; exact h
  · rw [hr]; exact wellFormed_of_later s _ h rfl rfl (Nat.le_add_right _ _)
  · rw [hr]
    exact wellFormed_of_later s _ h rfl rfl
      (Nat.le_trans (Nat.le_add_right _ _) (Nat.le_add_right _ _))
  · rw [hr]; exact wellFormed_stateAfterSend env s chatId socket.userId content h

/-- The handler `connection` keeps the invariants. -/
theorem connection_wellFormed (env : Faults) (s : State) (socket : Socket)
    (h : s.WellFormed) : (connection env s socket).1.WellFormed := by
  unfold connection
  split
  · exact wellFormed_of_later s _ h rfl rfl (Nat.le_add_right _ _)
  · exact wellFormed_of_later s _ h rfl rfl (Nat.le_add_right _ _)

/-- The handler `join` keeps the invariants. -/
theorem join_wellFormed (env : Faults) (s : State) (socket : Socket) (chatId : ObjectId)
    (h : s.WellFormed) : (join env s socket chatId).1.WellFormed := by
  unfold join
  split
  · exact h
  · split
    · exact h
    · unfold Message.markAsSeen
      unfold State.WellFormed at h ⊢
      split <;>
        exact ⟨roomJoin_nodup _ _ _ h.1, h.2.1,
          fun c hc => Nat.le_trans (h.2.2 c hc) (Nat.le_add_right _ _)⟩

theorem markAsSeen_wellFormed (env : Faults) (s : State) (chatId userId : ObjectId)
    (h : s.WellFormed) : (Message.markAsSeen env s chatId userId).1.WellFormed := by
  unfold Message.markAsSeen
  split <;> exact wellFormed_of_later s _ h rfl rfl (Nat.le_add_right _ _)

theorem getMessages_state_cases (env : Faults) (s : State) (userId chatId : ObjectId)
    (limit : Nat) (before : Option Date) :
    (getMessages env s userId chatId limit before).1 = s ∨
    (getMessages env s userId chatId limit before).1 =
      (Message.markAsSeen env s chatId userId).1 := by
  unfold getMessages
  split
  · exact Or.inl rfl
  · split
    · exact Or.inl rfl
    · split
      · exact Or.inl rfl
      · right
        cases hm : Message.markAsSeen env s chatId userId with
        | mk s1 res => cases res <;> rfl

/-- The route `GET /messages/:chatId` keeps the invariants. -/
theorem getMessages_wellFormed (env : Faults) (s : State) (userId chatId : ObjectId)
    (limit : Nat) (before : Option Date) (h : s.WellFormed) :
    (getMessages env s userId chatId limit before).1.WellFormed := by
  rcases getMessages_state_cases env s userId chatId limit before with hr | hr
  · rw [hr]; exact h
  · rw [hr]; exact markAsSeen_wellFormed env s chatId userId h

/-- The scenario states satisfy the invariants. -/
theorem wellFormed_bobJoined : bobJoined.WellFormed :=
  join_wellFormed _ _ _ _ (connection_wellFormed _ _ _ (connection_wellFormed _ _ _
    wellFormed_initialState))

/-! ## Marking seen is idempotent and never reverts -/

theorem markAsSeen_messages_fixed (env : Faults) (s : State) (chatId reader : ObjectId)
    (hnone : ∀ m ∈ s.messages,
      (m.chatId == chatId && m.senderId != reader && m.seen == false) = false)
    (hseen : env.markSeenFails = false) :
    (Message.markAsSeen env s chatId reader).2 = some 0 ∧
    (Message.markAsSeen env s chatId reader).1.messages = s.messages := by
  rw [markAsSeen_ok env s chatId reader hseen]
  constructor
  · simp only [Option.some.injEq, List.countP_eq_zero]
    intro m hm hc
    rw [hnone m hm] at hc
    exact Bool.false_ne_true hc
  · show (s.messages.map _) = s.messages
    conv_rhs => rw [← List.map_id s.messages]
    apply List.map_congr_left
    intro m hm
    rw [if_neg (by rw [hnone m hm]; exact Bool.false_ne_true)]
    rfl

theorem markAsSeen_leaves_none_unseen (env : Faults) (s : State) (chatId reader : ObjectId)
    (hseen : env.markSeenFails = false) :
    ∀ m ∈ (Message.markAsSeen env s chatId reader).1.messages,
      (m.chatId == chatId && m.senderId != reader && m.seen == false) = false := by
  rw [markAsSeen_ok env s chatId reader hseen]
  intro m hm
  simp only [List.mem_map] at hm
  obtain ⟨m0, _, rfl⟩ := hm
  by_cases hc : (m0.chatId == chatId && m0.senderId != reader && m0.seen == false) = true
  · rw [if_pos hc]
    simp
  · rw [if_neg hc]
    simpa using hc

theorem markAsSeen_chats_users (env : Faults) (s : State) (chatId reader : ObjectId) :
    (Message.markAsSeen env s chatId reader).1.chats = s.chats ∧
    (Message.markAsSeen env s chatId reader).1.users = s.users := by
  unfold Message.markAsSeen
  split <;> exact ⟨rfl, rfl⟩

/-- C11: a second markAsSeen for the same chat and reader, right after the first and with
the store rejecting neither, reports a modified count of zero and leaves messages, chats
and users exactly as the first call left them. -/
theorem markAsSeen_twice (env1 env2 : Faults) (s : State) (chatId reader : ObjectId)
    (h1 : env1.markSeenFails = false) (h2 : env2.markSeenFails = false) :
    (Message.markAsSeen env2 (Message.markAsSeen env1 s chatId reader).1 chatId reader).2 =
      some 0 ∧
    (Message.markAsSeen env2 (Message.markAsSeen env1 s chatId reader).1 chatId
        reader).1.messages =
      (Message.markAsSeen env1 s chatId reader).1.messages ∧
    (Message.markAsSeen env2 (Message.markAsSeen env1 s chatId reader).1 chatId
        reader).1.chats =
      (Message.markAsSeen env1 s chatId reader).1.chats ∧
    (Message.markAsSeen env2 (Message.markAsSeen env1 s chatId reader).1 chatId
        reader).1.users =
      (Message.markAsSeen env1 s chatId reader).1.users := by
  have hfixed := markAsSeen_messages_fixed env2 (Message.markAsSeen env1 s chatId reader).1
    chatId reader (markAsSeen_leaves_none_unseen env1 s chatId reader h1) h2
  have hrest := markAsSeen_chats_users env2 (Message.markAsSeen env1 s chatId reader).1
    chatId reader
  exact ⟨hfixed.1, hfixed.2, hrest.1, hrest.2⟩

/-- Witness for C11: Bob marks Alice's unseen "hi" as seen (one message modified), then
marks again. -/
theorem markAsSeen_twice_witness :
    (Message.markAsSeen calm aliceWaiting 10 2).2 = some 1 ∧
    (Message.markAsSeen calm (Message.markAsSeen calm aliceWaiting 10 2).1 10 2).2 = some 0 ∧
    (Message.markAsSeen calm (Message.markAsSeen calm aliceWaiting 10 2).1 10 2).1.messages =
      (Message.markAsSeen calm aliceWaiting 10 2).1.messages :=
  ⟨by decide,
    (markAsSeen_twice calm calm aliceWaiting 10 2 (by decide) (by decide)).1,
    (markAsSeen_twice calm calm aliceWaiting 10 2 (by decide) (by decide)).2.1⟩

theorem seenKept_refl (l : List Message) : SeenKept l l :=
  fun _ m h => ⟨m, h, rfl, id⟩

theorem seenKept_trans {a b c : List Message} (hab : SeenKept a b) (hbc : SeenKept b c) :
    SeenKept a c := by
  intro i m hm
  obtain ⟨m2, h2, hid2, hs2⟩ := hab i m hm
  obtain ⟨m3, h3, hid3, hs3⟩ := hbc i m2 h2
  exact ⟨m3, h3, hid3.trans hid2, fun h => hs3 (hs2 h)⟩

theorem seenKept_append (l extra : List Message) : SeenKept l (l ++ extra) := by
  intro i m hm
  refine ⟨m, ?_, rfl, id⟩
  have hi : i < l.length := by
    by_contra hge
    rw [List.getElem?_eq_none (by omega)] at hm
    cases hm
  rw [List.getElem?_append_left hi]
  exact hm

theorem seenKept_map (l : List Message) (g : Message → Message)
    (hg : ∀ m, (g m)._id = m._id ∧ (m.seen = true → (g m).seen = true)) :
    SeenKept l (l.map g) := by
  intro i m hm
  refine ⟨g m, ?_, (hg m).1, (hg m).2⟩
  rw [List.getElem?_map, hm]
  rfl

theorem extends_refl (s : State) : Extends s s := ⟨Nat.le_refl _, seenKept_refl _⟩

theorem extends_trans {a b c : State} (hab : Extends a b) (hbc : Extends b c) : Extends a c :=
  ⟨Nat.le_trans hab.1 hbc.1, seenKept_trans hab.2 hbc.2⟩

theorem extends_of_eq {s r : State} (hclock : s.clock ≤ r.clock)
    (hmessages : r.messages = s.messages) : Extends s r :=
  ⟨hclock, hmessages ▸ seenKept_refl _⟩

theorem markAsSeen_extends (env : Faults) (s : State) (chatId userId : ObjectId) :
    Extends s (Message.markAsSeen env s chatId userId).1 := by
  unfold Message.markAsSeen
  split
  · exact extends_of_eq (Nat.le_add_right _ _) rfl
  · refine ⟨Nat.le_add_right _ _, ?_⟩
    simp only [updateMany]
    apply seenKept_map
    intro m
    split
    · exact ⟨rfl, fun _ => rfl⟩
    · exact ⟨rfl, id⟩

theorem create_extends (env : Faults) (s : State) (chatId senderId : ObjectId)
    (content : JsString) : Extends s (Message.create env s chatId senderId content).1 := by
  unfold Message.create
  simp only
  split
  · exact extends_of_eq (Nat.le_add_right _ _) rfl
  · split
    · exact extends_of_eq (Nat.le_add_right _ _) rfl
    · exact ⟨Nat.le_add_right _ _, seenKept_append _ _⟩

theorem updateLastMessage_extends (env : Faults) (s : State) (chatId : ObjectId)
    (message : Message) : Extends s (Chat.updateLastMessage env s chatId message).1 := by
  unfold Chat.updateLastMessage
  simp only
  split <;> exact extends_of_eq (Nat.le_add_right _ _) rfl

theorem findOrCreateChat_extends (env : Faults) (s : State) (userId1 userId2 : ObjectId) :
    Extends s (Chat.findOrCreateChat env s userId1 userId2).1 := by
  unfold Chat.findOrCreateChat
  have hle : s.clock ≤ s.clock + env.tick + env.tick :=
    Nat.le_trans (Nat.le_add_right _ _) (Nat.le_add_right _ _)
  split
  · exact extends_refl s
  · split
    · split <;> exact extends_refl s
    · simp only
      split
      · exact extends_of_eq hle rfl
      · split <;> exact extends_of_eq hle rfl

theorem connection_extends (env : Faults) (s : State) (socket : Socket) :
    Extends s (connection env s socket).1 := by
  unfold connection
  simp only
  split <;> exact extends_of_eq (Nat.le_add_right _ _) rfl

theorem disconnect_extends (env : Faults) (s : State) (socket : Socket) :
    Extends s (disconnect env s socket).1 := by
  unfold disconnect
  simp only
  split
  · exact extends_of_eq (Nat.le_add_right _ _) rfl
  · exact extends_of_eq (Nat.le_trans (Nat.le_add_right _ _) (Nat.le_add_right _ _)) rfl

theorem join_state (env : Faults) (s : State) (socket : Socket) (chatId : ObjectId) :
    (join env s socket chatId).1 = s ∨
    (join env s socket chatId).1 =
      (Message.markAsSeen env { s with rooms := roomJoin s.rooms chatId socket.id } chatId
        socket.userId).1 := by
  unfold join
  split
  · exact Or.inl rfl
  · split
    · exact Or.inl rfl
    · right
      simp only
      cases hm : Message.markAsSeen env { s with rooms := roomJoin s.rooms chatId socket.id }
        chatId socket.userId with
      | mk s2 res => cases res <;> rfl

theorem join_extends (env : Faults) (s : State) (socket : Socket) (chatId : ObjectId) :
    Extends s (join env s socket chatId).1 := by
  rcases join_state env s socket chatId with h | h
  · rw [h]; exact extends_refl s
  · rw [h]
    exact extends_trans (extends_of_eq (Nat.le_refl _) rfl)
      (markAsSeen_extends env { s with rooms := roomJoin s.rooms chatId socket.id } chatId
        socket.userId)

theorem markSeen_state (env : Faults) (s : State) (socket : Socket) (chatId : ObjectId) :
    (markSeen env s socket chatId).1 = (Message.markAsSeen env s chatId socket.userId).1 := by
  unfold markSeen
  cases hm : Message.markAsSeen env s chatId socket.userId with
  | mk s2 res => cases res <;> rfl

theorem putSeen_state (env : Faults) (s : State) (userId chatId : ObjectId) :
    (putSeen env s userId chatId).1 = s ∨
    (putSeen env s userId chatId).1 = (Message.markAsSeen env s chatId userId).1 := by
  unfold putSeen
  split
  · exact Or.inl rfl
  · split
    · exact Or.inl rfl
    · right
      cases hm : Message.markAsSeen env s chatId userId with
      | mk s2 res => cases res <;> rfl

theorem sendMessage_extends (env : Faults) (s : State) (socket : Socket)
    (data : Option SendMessageData) : Extends s (sendMessage env s socket data).1 := by
  have hle : s.clock ≤ s.clock + env.tick + env.tick :=
    Nat.le_trans (Nat.le_add_right _ _) (Nat.le_add_right _ _)
  rcases sendMessage_state_cases env s socket data with hr | hr | ⟨chatId, content, hr | hr⟩
  · rw [hr]; exact extends_refl s
  · rw [hr]; exact extends_of_eq (Nat.le_add_right _ _) rfl
  · rw [hr]; exact ⟨hle, seenKept_append _ _⟩
  · rw [hr]; exact ⟨hle, seenKept_append _ _⟩

theorem postMessage_extends (env : Faults) (s : State) (userId chatId : ObjectId)
    (content : JsValue) : Extends s (postMessage env s userId chatId content).1 := by
  cases content with
  | string str =>
    have hc := create_extends env s chatId userId (trim str)
    unfold postMessage
    simp only
    split
    · exact extends_refl s
    · split
      · exact extends_refl s
      · split
        · exact extends_refl s
        · split
          · exact extends_refl s
          · cases hcr : Message.create env s chatId userId (trim str) with
            | mk s1 res =>
              rw [hcr] at hc
              cases res with
              | none => exact hc
              | some message =>
                have hu := updateLastMessage_extends env s1 chatId message
                simp only
                cases hup : Chat.updateLastMessage env s1 chatId message with
                | mk s2 ok =>
                  rw [hup] at hu
                  cases ok
                  · exact extends_trans hc hu
                  · simp only
                    split <;> exact extends_trans hc hu
  | undefined => simp [postMessage, JsValue.truthy, extends_refl]
  | null => simp [postMessage, JsValue.truthy, extends_refl]
  | bool b => cases b <;> simp [postMessage, JsValue.truthy, extends_refl]
  | number n => by_cases hn : n = 0 <;> simp [postMessage, JsValue.truthy, hn, extends_refl]

theorem postChat_state (env : Faults) (s : State) (userId : ObjectId)
    (participantId : JsValue) :
    (postChat env s userId participantId).1 = s ∨
    ∃ id, (postChat env s userId participantId).1 =
      (Chat.findOrCreateChat env s userId id).1 := by
  unfold postChat
  split
  · exact Or.inl rfl
  · cases hcast : participantId.castObjectId with
    | none => exact Or.inl rfl
    | some id =>
      simp only
      split
      · exact Or.inl rfl
      · split
        · exact Or.inl rfl
        · split
          · exact Or.inl rfl
          · right
            refine ⟨id, ?_⟩
            cases hm : Chat.findOrCreateChat env s userId id with
            | mk s2 res => cases res <;> rfl

/-- Whatever the request and the faults, the clock does not go back and no stored
message is lost or turned unseen. -/
theorem handle_extends (env : Faults) (s : State) (request : Request) :
    Extends s (handle env s request) := by
  cases request with
  | connection socket => exact connection_extends env s socket
  | disconnect socket => exact disconnect_extends env s socket
  | join socket chatId => exact join_extends env s socket chatId
  | leave socket chatId => exact extends_of_eq (Nat.le_refl _) rfl
  | sendMessage socket data => exact sendMessage_extends env s socket data
  | markSeen socket chatId =>
    show Extends s (markSeen env s socket chatId).1
    rw [markSeen_state]
    exact markAsSeen_extends env s chatId socket.userId
  | getMessages userId chatId limit before =>
    show Extends s (getMessages env s userId chatId limit before).1
    rcases getMessages_state_cases env s userId chatId limit before with h | h
    · rw [h]; exact extends_refl s
    · rw [h]; exact markAsSeen_extends env s chatId userId
  | postMessage userId chatId content => exact postMessage_extends env s userId chatId content
  | putSeen userId chatId =>
    show Extends s (putSeen env s userId chatId).1
    rcases putSeen_state env s userId chatId with h | h
    · rw [h]; exact extends_refl s
    · rw [h]; exact markAsSeen_extends env s chatId userId
  | postChat userId participantId =>
    show Extends s (postChat env s userId participantId).1
    rcases postChat_state env s userId participantId with h | ⟨id, h⟩
    · rw [h]; exact extends_refl s
    · rw [h]; exact findOrCreateChat_extends env s userId id

theorem run_extends (s : State) (requests : List (Faults × Request)) :
    Extends s (run s requests) := by
  induction requests generalizing s with
  | nil => exact extends_refl s
  | cons head rest ih =>
    obtain ⟨env, request⟩ := head
    exact extends_trans (handle_extends env s request) (ih _)

/-- C12: whatever sequence of requests the server handles (connecting, disconnecting,
joining, leaving, sending over the socket or over REST, marking seen over the socket or
over REST, listing messages, creating a chat), under any faults, a stored message whose
seen flag is true stays stored at its position, under its `_id`, with seen still true. -/
theorem seen_never_reverts (s : State) (requests : List (Faults × Request)) (i : Nat)
    (m : Message) (hm : s.messages[i]? = some m) (hseen : m.seen = true) :
    ∃ m2, (run s requests).messages[i]? = some m2 ∧ m2._id = m._id ∧ m2.seen = true := by
  obtain ⟨m2, h2, hid, hs⟩ := (run_extends s requests).2 i m hm
  exact ⟨m2, h2, hid, hs hseen⟩

/-- Witness for C12: after Bob has seen Alice's "hi", Alice sends again, Bob leaves and
disconnects, Carol tries to mark the chat, and Alice lists it; the first message is still
seen. -/
theorem seen_never_reverts_witness :
    ∃ m2,
      (run bobHasSeen
        [(calm, .sendMessage socketA (some { chatId := .oid 10, content := .string hi })),
         (calm, .leave socketB 10),
         (calm, .disconnect socketB),
         (calm, .markSeen socketC 10),
         (calm, .getMessages 1 10 50 none)]).messages[0]? = some m2 ∧
      m2._id = 11 ∧ m2.seen = true :=
  seen_never_reverts bobHasSeen _ 0
    { _id := 11, chatId := 10, senderId := 1, content := hi, seen := true, seenAt := some 6,
      createdAt := 4 }
    (by decide) rfl

/-- C13, the code at the failing input: Carol is not a participant of chat 10, in which
Alice's "hi" is unseen and Alice's session 100 is in the room.  Carol's `mark_seen` for
chat 10 is not refused: the message becomes seen, with a seenAt, and messages_seen is
emitted to Alice's session.  The same request is refused on the sibling paths: `PUT
/messages/10/seen` answers 404 and `join` does nothing, both leaving the state as it
was. -/
theorem markSeen_by_outsider :
    Chat.findOne carolConnected.chats 10 socketC.userId = none ∧
    carolConnected.messages =
      [{ _id := 11, chatId := 10, senderId := 1, content := hi, seen := false,
         seenAt := none, createdAt := 4 }] ∧
    (markSeen calm carolConnected socketC 10).1.messages =
      [{ _id := 11, chatId := 10, senderId := 1, content := hi, seen := true,
         seenAt := some 7, createdAt := 4 }] ∧
    (markSeen calm carolConnected socketC 10).2 =
      [{ target := 100, event := .messages_seen 10 3 }] ∧
    putSeen calm carolConnected 3 10 = (carolConnected, .notFound) ∧
    join calm carolConnected socketC 10 = (carolConnected, []) := by
  decide

/-! ## The pages of the pull path -/

theorem find_eq_sort (messages : List Message) (chatId : ObjectId) (before : Option Date)
    (limit : Nat) :
    Message.find messages chatId before limit =
      applyLimit limit ((messages.filter (matchesQuery chatId before)).insertionSort
        fun a b => b.createdAt ≤ a.createdAt) := rfl

theorem find_eq_take (messages : List Message) (chatId : ObjectId) (before : Option Date)
    (limit : Nat) (hlimit : 0 < limit) :
    Message.find messages chatId before limit =
      ((messages.filter (matchesQuery chatId before)).insertionSort
        fun a b => b.createdAt ≤ a.createdAt).take limit := by
  rw [find_eq_sort]
  unfold applyLimit
  rw [if_neg (by omega)]

theorem matchesQuery_iff (chatId : ObjectId) (before : Option Date) (m : Message) :
    matchesQuery chatId before m = true ↔
      m.chatId = chatId ∧ ∀ b, before = some b → m.createdAt < b := by
  unfold matchesQuery
  cases before with
  | none => simp
  | some b => simp

/-- C14: for a participant, with no store call rejected, and a positive limit, the list
`GET /messages/:chatId` returns is in non-decreasing createdAt order, holds only stored
messages of that chat created strictly before the bound (when one is given), has at most
`limit` entries, and consists of the most recent such messages: it holds `limit` of them,
or all of them when there are fewer; together with the messages left out (`older`) it is
exactly the chat's messages satisfying the bound; nothing left out is more recent than
anything returned; and `hasMore` tells whether the list is `limit` long. -/
theorem getMessages_page (env : Faults) (s : State) (userId chatId : ObjectId) (limit : Nat)
    (before : Option Date) (found : Chat)
    (hfound : Chat.findOne s.chats chatId userId = some found)
    (hfindOne : env.findOneFails = false) (hfind : env.findFails = false)
    (hpopulate : env.populateFails = false) (hseen : env.markSeenFails = false)
    (hlimit : 0 < limit) :
    ∃ (page older : List Message) (hasMore : Bool),
      (getMessages env s userId chatId limit before).2 =
        .ok (page.map (populate s.users)) hasMore ∧
      page.Sorted (fun a b => a.createdAt ≤ b.createdAt) ∧
      (∀ m ∈ page, m ∈ s.messages ∧ m.chatId = chatId ∧
        ∀ b, before = some b → m.createdAt < b) ∧
      page.length ≤ limit ∧
      page.length = min limit (s.messages.filter (matchesQuery chatId before)).length ∧
      hasMore = (page.length == limit) ∧
      (older ++ page).Perm (s.messages.filter (matchesQuery chatId before)) ∧
      ∀ x ∈ older, ∀ y ∈ page, x.createdAt ≤ y.createdAt := by
  have hsorted := List.sorted_insertionSort (fun a b : Message => b.createdAt ≤ a.createdAt)
    (s.messages.filter (matchesQuery chatId before))
  have hperm := List.perm_insertionSort (fun a b : Message => b.createdAt ≤ a.createdAt)
    (s.messages.filter (matchesQuery chatId before))
  have hfindeq := find_eq_take s.messages chatId before limit hlimit
  generalize (s.messages.filter (matchesQuery chatId before)).insertionSort
      (fun a b => b.createdAt ≤ a.createdAt) = D at hsorted hperm hfindeq
  refine ⟨(D.take limit).reverse, (D.drop limit).reverse,
    ((D.take limit).map (populate s.users)).length == limit, ?_, ?_, ?_, ?_, ?_, ?_, ?_, ?_⟩
  · rw [getMessages_ok env s userId chatId limit before found hfound hfindOne hfind hpopulate
      hseen, hfindeq, List.map_reverse]
  · have htake : (D.take limit).Pairwise (fun a b : Message => b.createdAt ≤ a.createdAt) :=
      List.Pairwise.sublist (List.take_sublist _ _) hsorted
    exact List.pairwise_reverse.mpr htake
  · intro m hm
    have hmD : m ∈ D := List.mem_of_mem_take (List.mem_reverse.mp hm)
    have hmF := hperm.mem_iff.mp hmD
    rw [List.mem_filter] at hmF
    exact ⟨hmF.1, (matchesQuery_iff chatId before m).mp hmF.2⟩
  · rw [List.length_reverse]
    exact List.length_take_le _ _
  · rw [List.length_reverse, List.length_take, hperm.length_eq]
  · rw [List.length_reverse, List.length_map]
  · rw [← List.reverse_append, List.take_append_drop]
    exact (List.reverse_perm D).trans hperm
  · intro x hx y hy
    have hsplit : (D.take limit ++ D.drop limit).Pairwise
        (fun a b : Message => b.createdAt ≤ a.createdAt) := by
      rw [List.take_append_drop]
      exact hsorted
    exact (List.pairwise_append.mp hsplit).2.2 y (List.mem_reverse.mp hy) x
      (List.mem_reverse.mp hx)

/-- Witness for C14: Bob lists the chat holding Alice's "hi" with the default limit. -/
theorem getMessages_page_witness :
    ∃ (page : List Message) (hasMore : Bool),
      (getMessages calm aliceWaiting 2 10 50 none).2 =
        .ok (page.map (populate aliceWaiting.users)) hasMore ∧
      page.Sorted (fun a b => a.createdAt ≤ b.createdAt) ∧ page.length ≤ 50 ∧
      page.length = min 50 (aliceWaiting.messages.filter (matchesQuery 10 none)).length ∧
      (aliceWaiting.messages.filter (matchesQuery 10 none)).length = 1 :=
  match getMessages_page calm aliceWaiting 2 10 50 none
      { chatAB with
        lastMessage := some { content := hi, senderId := 1, createdAt := 4 },
        updatedAt := 5 }
      (by decide) (by decide) (by decide) (by decide) (by decide) (by decide) with
  | ⟨page, _, hasMore, h1, h2, _, h4, h5, _, _, _⟩ =>
    ⟨page, hasMore, h1, h2, h4, h5, by decide⟩

/-- C15, counterexample.  First, two of Alice's three messages (11 and 12) share their
createdAt; Bob pages backward with page size 2: the first page is 11 and 13, the next
bound is the createdAt of 11, nothing is strictly before it, and paging ends with message
12 omitted, while one unbounded listing returns 12, 11, 13.  Second, even with three
distinct createdAt the paged documents are not those of the unbounded listing: listing
marks as seen, so message 11, fetched by the second request, comes back seen. -/
theorem catchUp_omits_same_instant :
    (catchUpBySpec calm 2 10 2 10 sameInstant none).map (fun m => m._id) = [11, 13] ∧
    listedIds (getMessages calm sameInstant 2 10 0 none).2 = [12, 11, 13] ∧
    (catchUpBySpec calm 2 10 2 10 threeMessages none).map (fun m => (m._id, m.seen)) =
      [(11, true), (12, false), (13, false)] ∧
    (listedMessages (getMessages calm threeMessages 2 10 0 none).2).map
      (fun m => (m._id, m.seen)) = [(11, false), (12, false), (13, false)] := by
  decide

/-! ## Paging backward -/

theorem filter_orderedInsert_of_neg {α : Type} (r : α → α → Prop) [DecidableRel r]
    (p : α → Bool) (a : α) (hp : p a = false) (l : List α) :
    (l.orderedInsert r a).filter p = l.filter p := by
  induction l with
  | nil => simp [hp]
  | cons b rest ih =>
    rw [List.orderedInsert]
    by_cases hab : r a b
    · rw [if_pos hab, List.filter_cons_of_neg (by simp [hp])]
    · rw [if_neg hab, List.filter_cons, List.filter_cons, ih]

theorem filter_orderedInsert_of_pos {α : Type} (r : α → α → Prop) [DecidableRel r]
    [IsTrans α r] (p : α → Bool) (a : α) (hp : p a = true) (l : List α)
    (hl : l.Sorted r) :
    (l.orderedInsert r a).filter p = (l.filter p).orderedInsert r a := by
  induction l with
  | nil => simp [hp]
  | cons b rest ih =>
    have hrest : rest.Sorted r := hl.of_cons
    rw [List.orderedInsert]
    by_cases hab : r a b
    · rw [if_pos hab, List.filter_cons_of_pos hp]
      by_cases hb : p b = true
      · rw [List.filter_cons_of_pos hb, List.orderedInsert, if_pos hab]
      · rw [List.filter_cons_of_neg hb]
        cases hf : rest.filter p with
        | nil => rfl
        | cons c more =>
          have hc : c ∈ rest := by
            have : c ∈ rest.filter p := by rw [hf]; exact List.mem_cons_self _ _
            exact (List.mem_filter.mp this).1
          have hac : r a c := IsTrans.trans _ _ _ hab (List.rel_of_sorted_cons hl c hc)
          rw [List.orderedInsert, if_pos hac]
    · rw [if_neg hab]
      by_cases hb : p b = true
      · rw [List.filter_cons_of_pos hb, List.filter_cons_of_pos hb, List.orderedInsert,
          if_neg hab, ih hrest]
      · rw [List.filter_cons_of_neg hb, List.filter_cons_of_neg hb, ih hrest]

/-- Filtering commutes with a stable sort. -/
theorem filter_insertionSort {α : Type} (r : α → α → Prop) [DecidableRel r] [IsTrans α r]
    [IsTotal α r] (p : α → Bool) (l : List α) :
    (l.insertionSort r).filter p = (l.filter p).insertionSort r := by
  induction l with
  | nil => rfl
  | cons a rest ih =>
    rw [List.insertionSort]
    by_cases hp : p a = true
    · rw [filter_orderedInsert_of_pos r p a hp _ (List.sorted_insertionSort r rest),
        List.filter_cons_of_pos hp, List.insertionSort, ih]
    · rw [filter_orderedInsert_of_neg r p a (by simpa using hp), List.filter_cons_of_neg hp, ih]

/-- In a list of strictly decreasing createdAt, the messages strictly older than the one
at position `i` are exactly those after position `i`. -/
theorem filter_older_eq_drop (D : List Message)
    (hD : D.Pairwise fun a b => b.createdAt < a.createdAt) (i : Nat) (m : Message)
    (hm : D[i]? = some m) :
    D.filter (fun x => decide (x.createdAt < m.createdAt)) = D.drop (i + 1) := by
  induction D generalizing i with
  | nil => simp at hm
  | cons x rest ih =>
    rw [List.pairwise_cons] at hD
    cases i with
    | zero =>
      simp only [List.getElem?_cons_zero, Option.some.injEq] at hm
      subst hm
      rw [List.filter_cons_of_neg (by simp)]
      simp only [zero_add, List.drop_succ_cons, List.drop_zero]
      rw [List.filter_eq_self]
      intro y hy
      simpa using hD.1 y hy
    | succ j =>
      simp only [List.getElem?_cons_succ] at hm
      have hmem : m ∈ rest := List.getElem?_mem hm
      have hlt : m.createdAt < x.createdAt := hD.1 m hmem
      rw [List.filter_cons_of_neg (by simpa using Nat.le_of_lt hlt)]
      simp only [List.drop_succ_cons]
      exact ih hD.2 j hm

theorem applyLimit_map {α β : Type} (f : α → β) (n : Nat) (l : List α) :
    applyLimit n (l.map f) = (applyLimit n l).map f := by
  unfold applyLimit
  split
  · rfl
  · rw [List.map_take]

/-- The query does not look at the seen flag. -/
theorem find_map_forgetSeen (messages : List Message) (chatId : ObjectId)
    (before : Option Date) (limit : Nat) :
    Message.find (messages.map Message.forgetSeen) chatId before limit =
      (Message.find messages chatId before limit).map Message.forgetSeen := by
  rw [find_eq_sort, find_eq_sort, List.filter_map]
  have hp : (matchesQuery chatId before ∘ Message.forgetSeen) = matchesQuery chatId before := by
    funext m
    rfl
  rw [hp, ← applyLimit_map]
  congr 1
  exact (List.map_insertionSort (fun a b : Message => b.createdAt ≤ a.createdAt)
    (fun a b : Message => b.createdAt ≤ a.createdAt) Message.forgetSeen _
    (fun _ _ _ _ => Iff.rfl)).symm

theorem populate_forgetSeen (users : List User) (m : Message) :
    (populate users m).forgetSeen = populate users m.forgetSeen := rfl

/-- What a successful listing returns, seen flags aside, in terms of the stored messages
with their seen flags blanked. -/
theorem getMessages_erased (env : Faults) (s : State) (userId chatId : ObjectId) (limit : Nat)
    (before : Option Date) (found : Chat)
    (hfound : Chat.findOne s.chats chatId userId = some found)
    (hfindOne : env.findOneFails = false) (hfind : env.findFails = false)
    (hpopulate : env.populateFails = false) (hseen : env.markSeenFails = false) :
    ∃ page hasMore,
      (getMessages env s userId chatId limit before).2 = .ok page hasMore ∧
      page.map PopulatedMessage.forgetSeen =
        ((Message.find (s.messages.map Message.forgetSeen) chatId before limit).map
          (populate s.users)).reverse := by
  refine ⟨_, _, getMessages_ok env s userId chatId limit before found hfound hfindOne hfind
    hpopulate hseen, ?_⟩
  rw [find_map_forgetSeen, ← List.map_reverse, ← List.map_reverse, List.map_map,
    ← List.map_reverse, List.map_map]
  rfl

/-- A listing changes neither the users, nor the chats, nor anything but the seen flags of
the messages. -/
theorem getMessages_keeps (env : Faults) (s : State) (userId chatId : ObjectId) (limit : Nat)
    (before : Option Date) :
    (getMessages env s userId chatId limit before).1.messages.map Message.forgetSeen =
      s.messages.map Message.forgetSeen ∧
    (getMessages env s userId chatId limit before).1.users = s.users ∧
    (getMessages env s userId chatId limit before).1.chats = s.chats := by
  rcases getMessages_state_cases env s userId chatId limit before with h | h
  · rw [h]
    exact ⟨rfl, rfl, rfl⟩
  · rw [h]
    refine ⟨?_, (markAsSeen_chats_users env s chatId userId).2,
      (markAsSeen_chats_users env s chatId userId).1⟩
    unfold Message.markAsSeen
    simp only
    split
    · rfl
    · simp only [updateMany, List.map_map]
      apply List.map_congr_left
      intro m _
      simp only [Function.comp]
      split <;> rfl

theorem filter_bound_eq (chatId : ObjectId) (b : Date) (E : List Message) :
    E.filter (matchesQuery chatId (some b)) =
      (E.filter (matchesQuery chatId none)).filter fun x => decide (x.createdAt < b) := by
  rw [List.filter_filter]
  congr 1
  funext x
  simp only [matchesQuery, Bool.and_true]
  exact Bool.and_comm _ _

/-- The heart of the catch-up argument: while the messages still to fetch are the tail
`D.drop k` of the chat's messages in newest-first order, the protocol returns exactly
that tail, oldest first. -/
theorem catchUp_erased (env : Faults) (reader chatId : ObjectId) (pageSize : Nat)
    (hsize : 1 ≤ pageSize)
    (hfindOne : env.findOneFails = false) (hfind : env.findFails = false)
    (hpopulate : env.populateFails = false) (hseen : env.markSeenFails = false)
    (E : List Message) (U : List User) (D : List Message)
    (hD : D = (E.filter (matchesQuery chatId none)).insertionSort
      fun a b => b.createdAt ≤ a.createdAt)
    (hstrict : D.Pairwise fun a b => b.createdAt < a.createdAt) :
    ∀ (fuel : Nat) (s : State) (bound : Option Date) (k : Nat),
      s.messages.map Message.forgetSeen = E → s.users = U →
      (∃ found, Chat.findOne s.chats chatId reader = some found) →
      (E.filter (matchesQuery chatId bound)).insertionSort
        (fun a b => b.createdAt ≤ a.createdAt) = D.drop k →
      (D.drop k).length < fuel →
      (catchUpBySpec env reader chatId pageSize fuel s bound).map PopulatedMessage.forgetSeen =
        (D.drop k).reverse.map (populate U) := by
  intro fuel
  induction fuel with
  | zero =>
    intro s bound k _ _ _ _ hlen
    exact absurd hlen (Nat.not_lt_zero _)
  | succ fuel ih =>
    intro s bound k hE hU hfound hsort hlen
    obtain ⟨found, hfound⟩ := hfound
    obtain ⟨page, hasMore, hresp, hpage⟩ := getMessages_erased env s reader chatId pageSize
      bound found hfound hfindOne hfind hpopulate hseen
    have hkeep := getMessages_keeps env s reader chatId pageSize bound
    have hfindE : Message.find E chatId bound pageSize = (D.drop k).take pageSize := by
      rw [find_eq_take _ _ _ _ hsize, hsort]
    rw [hE, hU, hfindE] at hpage
    have hlenpage : page.length = min pageSize (D.drop k).length := by
      have := congrArg List.length hpage
      simpa using this
    rw [catchUpBySpec]
    cases hg : getMessages env s reader chatId pageSize bound with
    | mk s1 resp =>
      rw [hg] at hresp hkeep
      simp only at hresp hkeep
      subst hresp
      simp only
      by_cases hshort : page.length < pageSize
      · rw [if_pos hshort, hpage, List.take_of_length_le (by omega), List.map_reverse]
      · rw [if_neg hshort]
        have hlong : pageSize ≤ (D.drop k).length := by omega
        have hidx : k + (pageSize - 1) < D.length := by
          rw [List.length_drop] at hlong
          omega
        obtain ⟨m, hm⟩ : ∃ m, D[k + (pageSize - 1)]? = some m :=
          ⟨D[k + (pageSize - 1)], List.getElem?_eq_getElem hidx⟩
        have hlast : ((D.drop k).take pageSize).getLast? = some m := by
          rw [List.getLast?_eq_getElem?, List.length_take, Nat.min_eq_left hlong,
            List.getElem?_take_of_lt (by omega), List.getElem?_drop]
          exact hm
        have hhead : page.head?.map PopulatedMessage.forgetSeen = some (populate U m) := by
          rw [← List.head?_map, hpage, List.head?_reverse, List.getLast?_map, hlast]
          rfl
        cases hh : page.head? with
        | none => rw [hh] at hhead; cases hhead
        | some oldest =>
          rw [hh] at hhead
          simp only [Option.map_some', Option.some.injEq] at hhead
          have hcreated : oldest.createdAt = m.createdAt :=
            congrArg PopulatedMessage.createdAt hhead
          simp only
          have hnext : (E.filter (matchesQuery chatId (some oldest.createdAt))).insertionSort
              (fun a b => b.createdAt ≤ a.createdAt) = D.drop (k + pageSize) := by
            rw [filter_bound_eq, ← filter_insertionSort, ← hD, hcreated,
              filter_older_eq_drop D hstrict (k + (pageSize - 1)) m hm]
            congr 1
            omega
          have hfuel : (D.drop (k + pageSize)).length < fuel := by
            rw [List.length_drop] at hlen hlong ⊢
            omega
          have hrec := ih s1 (some oldest.createdAt) (k + pageSize) (hkeep.1.trans hE)
            (hkeep.2.1.trans hU) ⟨found, by rw [hkeep.2.2]; exact hfound⟩ hnext hfuel
          rw [List.map_append, hrec, hpage, ← List.map_reverse, ← List.map_append,
            ← List.reverse_append]
          congr 2
          rw [← List.drop_drop, List.take_append_drop]

theorem filter_chat_erased (chatId : ObjectId) (messages : List Message) :
    (messages.map Message.forgetSeen).filter (matchesQuery chatId none) =
      (messages.filter fun m => m.chatId == chatId).map Message.forgetSeen := by
  rw [List.filter_map]
  congr 1
  apply List.filter_congr
  intro m _
  simp [matchesQuery, Message.forgetSeen]

/-- C15, amended: with no other writes, for a participant, every page size of at least 1
and enough requests allowed, if no two messages of the chat share their createdAt, paging
backward and concatenating the pages oldest first yields the messages of one unbounded
listing (limit 0, no bound), in the same order, none omitted or repeated; the documents
agree in everything but the seen flag and seenAt, which listing itself updates. -/
theorem catchUp_reconstructs (env : Faults) (s : State) (reader chatId : ObjectId)
    (pageSize fuel : Nat) (found : Chat)
    (hfound : Chat.findOne s.chats chatId reader = some found)
    (hfindOne : env.findOneFails = false) (hfind : env.findFails = false)
    (hpopulate : env.populateFails = false) (hseen : env.markSeenFails = false)
    (hsize : 1 ≤ pageSize)
    (hdistinct : (s.messages.filter fun m => m.chatId == chatId).Pairwise
      fun a b => a.createdAt ≠ b.createdAt)
    (hfuel : (s.messages.filter fun m => m.chatId == chatId).length < fuel) :
    ∃ listed hasMore,
      (getMessages env s reader chatId 0 none).2 = .ok listed hasMore ∧
      (catchUpBySpec env reader chatId pageSize fuel s none).map PopulatedMessage.forgetSeen =
        listed.map PopulatedMessage.forgetSeen := by
  obtain ⟨listed, hasMore, hresp, hlisted⟩ := getMessages_erased env s reader chatId 0 none
    found hfound hfindOne hfind hpopulate hseen
  refine ⟨listed, hasMore, hresp, ?_⟩
  have hsorted := List.sorted_insertionSort (fun a b : Message => b.createdAt ≤ a.createdAt)
    ((s.messages.map Message.forgetSeen).filter (matchesQuery chatId none))
  have hperm := List.perm_insertionSort (fun a b : Message => b.createdAt ≤ a.createdAt)
    ((s.messages.map Message.forgetSeen).filter (matchesQuery chatId none))
  have hne : (((s.messages.map Message.forgetSeen).filter (matchesQuery chatId none)).insertionSort
      fun a b => b.createdAt ≤ a.createdAt).Pairwise fun a b => a.createdAt ≠ b.createdAt := by
    rw [hperm.pairwise_iff (fun h => Ne.symm h), filter_chat_erased, List.pairwise_map]
    exact hdistinct
  have hstrict : (((s.messages.map Message.forgetSeen).filter
      (matchesQuery chatId none)).insertionSort
      fun a b => b.createdAt ≤ a.createdAt).Pairwise fun a b => b.createdAt < a.createdAt :=
    (List.Pairwise.and hsorted hne).imp fun h => Nat.lt_of_le_of_ne h.1 (Ne.symm h.2)
  have hlen : ((((s.messages.map Message.forgetSeen).filter
      (matchesQuery chatId none)).insertionSort
      fun a b => b.createdAt ≤ a.createdAt).drop 0).length < fuel := by
    rw [List.drop_zero, List.length_insertionSort, filter_chat_erased, List.length_map]
    exact hfuel
  rw [catchUp_erased env reader chatId pageSize hsize hfindOne hfind hpopulate hseen
    (s.messages.map Message.forgetSeen) s.users _ rfl hstrict fuel s none 0 rfl rfl
    ⟨found, hfound⟩ (List.drop_zero _).symm hlen, hlisted, List.drop_zero, find_eq_sort,
    List.map_reverse]
  rfl

/-- Witness for the amended C15: Bob pages through Alice's three messages, created at
three different times, two at a time. -/
theorem catchUp_reconstructs_witness :
    ∃ listed hasMore,
      (getMessages calm threeMessages 2 10 0 none).2 = .ok listed hasMore ∧
      (catchUpBySpec calm 2 10 2 10 threeMessages none).map PopulatedMessage.forgetSeen =
        listed.map PopulatedMessage.forgetSeen :=
  catchUp_reconstructs calm threeMessages 2 10 2 10
    { chatAB with
      lastMessage := some { content := hi, senderId := 1, createdAt := 8 }, updatedAt := 9 }
    (by decide) (by decide) (by decide) (by decide) (by decide) (by decide) (by decide)
    (by decide)

/-! ## One chat per pair of users -/

theorem findOrCreateChat_found (env : Faults) (s : State) (userId1 userId2 : ObjectId)
    (chat : Chat)
    (hfound : (s.chats.find? fun c =>
      c.participants.contains userId1 && c.participants.contains userId2) = some chat)
    (hfindOne : env.findOneFails = false) (hpopulate : env.populateFails = false) :
    Chat.findOrCreateChat env s userId1 userId2 = (s, some (populateChat s.users chat)) := by
  unfold Chat.findOrCreateChat
  rw [hfound]
  simp [hfindOne, hpopulate]

theorem findOrCreateChat_created (env : Faults) (s : State) (userId1 userId2 : ObjectId)
    (hnone : (s.chats.find? fun c =>
      c.participants.contains userId1 && c.participants.contains userId2) = none)
    (hfindOne : env.findOneFails = false) (hpopulate : env.populateFails = false)
    (hcreate : env.chatCreateFails = false) :
    Chat.findOrCreateChat env s userId1 userId2 =
      ({ s with
          clock := s.clock + env.tick + env.tick,
          chats := s.chats ++ [newChat env s userId1 userId2],
          nextId := s.nextId + 1 },
        some (populateChat s.users (newChat env s userId1 userId2))) := by
  unfold Chat.findOrCreateChat
  rw [hnone]
  simp [hfindOne, hpopulate, hcreate, newChat]

theorem findOrCreateChat_chats (env : Faults) (s : State) (userId1 userId2 : ObjectId) :
    (Chat.findOrCreateChat env s userId1 userId2).1.chats = s.chats ∨
    ((s.chats.find? fun c =>
        c.participants.contains userId1 && c.participants.contains userId2) = none ∧
      (Chat.findOrCreateChat env s userId1 userId2).1.chats =
        s.chats ++ [newChat env s userId1 userId2]) := by
  unfold Chat.findOrCreateChat
  split
  · exact Or.inl rfl
  · cases hf : s.chats.find? fun c =>
        c.participants.contains userId1 && c.participants.contains userId2 with
    | some chat =>
      simp only
      split <;> exact Or.inl rfl
    | none =>
      simp only
      split
      · exact Or.inl rfl
      · split <;> exact Or.inr ⟨trivial, rfl⟩

theorem findOrCreateChat_onePerPair (env : Faults) (s : State) (userId1 userId2 : ObjectId)
    (h : OnePerPair s.chats) :
    OnePerPair (Chat.findOrCreateChat env s userId1 userId2).1.chats := by
  rcases findOrCreateChat_chats env s userId1 userId2 with hc | ⟨hnone, hc⟩
  · rw [hc]; exact h
  · rw [hc]
    unfold OnePerPair at h ⊢
    rw [List.pairwise_append]
    refine ⟨h, List.pairwise_singleton _ _, ?_⟩
    intro c hcin n hn hsame
    rw [List.mem_singleton] at hn
    subst hn
    rw [List.find?_eq_none] at hnone
    apply hnone c hcin
    have h1 : userId1 ∈ c.participants := (hsame userId1).mpr (by simp [newChat])
    have h2 : userId2 ∈ c.participants := (hsame userId2).mpr (by simp [newChat])
    simp [h1, h2]

theorem find?_both_comm (chats : List Chat) (a b : ObjectId) :
    (chats.find? fun c => c.participants.contains b && c.participants.contains a) =
      chats.find? fun c => c.participants.contains a && c.participants.contains b := by
  congr 1
  funext c
  exact Bool.and_comm _ _

/-- C16: from a store with at most one Chat per unordered set of participants, every
sequence of findOrCreateChat calls, under any faults, leaves at most one Chat per
unordered set; and when the store rejects nothing, findOrCreateChat(a, b) followed by
findOrCreateChat(b, a) returns the same Chat, the second call leaving the chats as the
first left them. -/
theorem findOrCreateChat_one_per_pair (s : State) :
    (∀ calls : List (Faults × ObjectId × ObjectId),
      OnePerPair s.chats → OnePerPair (runFindOrCreate s calls).chats) ∧
    (∀ (env1 env2 : Faults) (a b : ObjectId),
      env1.findOneFails = false → env1.populateFails = false →
      env1.chatCreateFails = false →
      env2.findOneFails = false → env2.populateFails = false →
      env2.chatCreateFails = false →
      ∃ chat,
        (Chat.findOrCreateChat env1 s a b).2 = some chat ∧
        (Chat.findOrCreateChat env2 (Chat.findOrCreateChat env1 s a b).1 b a).2 =
          some chat ∧
        (Chat.findOrCreateChat env2 (Chat.findOrCreateChat env1 s a b).1 b a).1.chats =
          (Chat.findOrCreateChat env1 s a b).1.chats) := by
  constructor
  · intro calls
    induction calls generalizing s with
    | nil => exact id
    | cons call rest ih =>
      obtain ⟨env, userId1, userId2⟩ := call
      intro h
      exact ih _ (findOrCreateChat_onePerPair env s userId1 userId2 h)
  · intro env1 env2 a b f1 p1 c1 f2 p2 _
    cases hf : s.chats.find? fun c => c.participants.contains a && c.participants.contains b with
    | some chat =>
      rw [findOrCreateChat_found env1 s a b chat hf f1 p1]
      have hf2 := (find?_both_comm s.chats a b).trans hf
      rw [findOrCreateChat_found env2 s b a chat hf2 f2 p2]
      exact ⟨_, rfl, rfl, rfl⟩
    | none =>
      rw [findOrCreateChat_created env1 s a b hf f1 p1 c1]
      have hf2 : ((s.chats ++ [newChat env1 s a b]).find? fun c =>
          c.participants.contains b && c.participants.contains a) =
          some (newChat env1 s a b) := by
        rw [List.find?_append, (find?_both_comm s.chats a b).trans hf]
        simp [newChat]
      rw [findOrCreateChat_found env2 _ b a (newChat env1 s a b) hf2 f2 p2]
      exact ⟨_, rfl, rfl, rfl⟩

/-- Witness for C16: Alice opens a chat with Carol, then Carol with Alice; the store keeps
one chat per pair and the second call returns the chat the first created. -/
theorem findOrCreateChat_one_per_pair_witness :
    OnePerPair (runFindOrCreate initialState [(calm, 1, 3), (calm, 3, 1)]).chats ∧
    ∃ chat,
      (Chat.findOrCreateChat calm initialState 1 3).2 = some chat ∧
      (Chat.findOrCreateChat calm (Chat.findOrCreateChat calm initialState 1 3).1 3 1).2 =
        some chat ∧
      (Chat.findOrCreateChat calm (Chat.findOrCreateChat calm initialState 1 3).1 3 1).1.chats =
        (Chat.findOrCreateChat calm initialState 1 3).1.chats :=
  ⟨(findOrCreateChat_one_per_pair initialState).1 [(calm, 1, 3), (calm, 3, 1)]
      (List.pairwise_singleton _ _),
    (findOrCreateChat_one_per_pair initialState).2 calm calm 1 3 rfl rfl rfl rfl rfl rfl⟩

/-! ## A chat with oneself -/

theorem postChat_creates_two (env : Faults) (s : State) (userId : ObjectId)
    (participantId : JsValue) :
    ∀ c ∈ (postChat env s userId participantId).1.chats, c ∈ s.chats ∨
      c.participants.length = 2 := by
  intro c hc
  rcases postChat_state env s userId participantId with h | ⟨id, h⟩
  · rw [h] at hc
    exact Or.inl hc
  · rw [h] at hc
    rcases findOrCreateChat_chats env s userId id with h2 | ⟨_, h2⟩
    · rw [h2] at hc
      exact Or.inl hc
    · rw [h2, List.mem_append, List.mem_singleton] at hc
      rcases hc with hc | hc
      · exact Or.inl hc
      · right
        rw [hc]
        rfl

/-- C17, the code at the failing input: Dave (id 171) posts his own id in upper case.
The store resolves the text to Dave, but the text differs from `userId.toString()`, so
the guard against a chat with oneself does not fire: a Chat whose two participants are
both Dave is created and returned, with no other participant.  The lower-case text is
rejected. -/
theorem postChat_with_oneself :
    toHexString 171 = daveLower ∧
    castObjectId daveUpper = some 171 ∧
    postChat calm daveStored 171 (.string daveLower) = (daveStored, .cannotChatWithSelf) ∧
    (postChat calm daveStored 171 (.string daveUpper)).1.chats =
      [chatAB,
       { _id := 11, participants := [171, 171], lastMessage := none, updatedAt := 1,
         createdAt := 2 }] ∧
    (postChat calm daveStored 171 (.string daveUpper)).2 =
      .ok { _id := 11, participant := none, lastMessage := none, updatedAt := 1,
            createdAt := 2 } := by
  decide

/-! ## Presence -/

theorem updateFirst_eq_map_of_nodup {α : Type} (key : α → Nat) (id : Nat) (f : α → α)
    (l : List α) (hunique : (l.map key).Nodup) :
    updateFirst (fun x => key x == id) f l = l.map fun x => if key x = id then f x else x := by
  induction l with
  | nil => rfl
  | cons a rest ih =>
    rw [List.map_cons, List.nodup_cons] at hunique
    unfold updateFirst
    by_cases ha : key a = id
    · have hrest : ∀ c ∈ rest, key c ≠ id := by
        intro c hc hcid
        exact hunique.1 (List.mem_map.mpr ⟨c, hc, hcid.trans ha.symm⟩)
      have hmap : (rest.map fun x => if key x = id then f x else x) = rest := by
        conv_rhs => rw [← List.map_id rest]
        exact List.map_congr_left fun c hc => by simp [hrest c hc]
      simp [ha, hmap]
    · simp [ha, ih hunique.2]

theorem any_mapSet (m : List (ObjectId × SocketId)) (k : ObjectId) (v : SocketId)
    (x : ObjectId) :
    (mapSet m k v).any (fun p => p.1 == x) = (m.any (fun p => p.1 == x) || k == x) := by
  rw [Bool.eq_iff_iff]
  unfold mapSet
  by_cases hk : m.any (fun p => p.1 == k) = true
  · rw [if_pos hk]
    simp only [List.any_eq_true, List.mem_map, Bool.or_eq_true, beq_iff_eq]
    constructor
    · rintro ⟨q, ⟨p, hp, rfl⟩, hq⟩
      by_cases hpk : p.1 = k
      · rw [if_pos hpk] at hq
        exact Or.inr hq
      · rw [if_neg hpk] at hq
        exact Or.inl ⟨p, hp, hq⟩
    · rintro (⟨p, hp, hpx⟩ | hkx)
      · refine ⟨_, ⟨p, hp, rfl⟩, ?_⟩
        by_cases hpk : p.1 = k
        · rw [if_pos hpk]
          exact hpk.symm.trans hpx
        · rw [if_neg hpk]
          exact hpx
      · rw [List.any_eq_true] at hk
        obtain ⟨p, hp, hpk⟩ := hk
        have hpk2 : p.1 = k := by simpa using hpk
        refine ⟨_, ⟨p, hp, rfl⟩, ?_⟩
        rw [if_pos hpk2]
        exact hkx
  · rw [if_neg hk]
    simp

theorem any_filter_ne (m : List (ObjectId × SocketId)) (k x : ObjectId) :
    (m.filter fun p => p.1 != k).any (fun p => p.1 == x) =
      (m.any (fun p => p.1 == x) && x != k) := by
  rw [Bool.eq_iff_iff]
  simp only [List.any_eq_true, List.mem_filter, Bool.and_eq_true, beq_iff_eq, bne_iff_ne,
    ne_eq]
  constructor
  · rintro ⟨p, ⟨hp, hpk⟩, hpx⟩
    exact ⟨⟨p, hp, hpx⟩, fun h => hpk (hpx.trans h)⟩
  · rintro ⟨⟨p, hp, hpx⟩, hxk⟩
    exact ⟨p, ⟨hp, fun h => hxk (hpx.symm.trans h)⟩, hpx⟩

theorem connection_ok (env : Faults) (s : State) (socket : Socket)
    (hupdate : env.userUpdateFails = false) :
    connection env s socket =
      ({ s with
          sockets := s.sockets ++ [socket],
          connectedUsers := mapSet s.connectedUsers socket.userId socket.id,
          clock := s.clock + env.tick,
          users := updateFirst (fun u => u._id == socket.userId)
            (fun u => { u with isOnline := true, lastSeen := s.clock + env.tick }) s.users },
        (s.sockets.filter fun k => k.id != socket.id).map fun k =>
          { target := k.id, event := .user_online socket.userId socket.email }) := by
  simp [connection, hupdate]

theorem disconnect_ok (env : Faults) (s : State) (socket : Socket)
    (hupdate : env.userUpdateFails = false) :
    disconnect env s socket =
      ({ s with
          sockets := s.sockets.filter fun k => k.id != socket.id,
          rooms := s.rooms.filter fun r => r.2 != socket.id,
          otherRooms := s.otherRooms.filter fun r => r.2 != socket.id,
          connectedUsers := s.connectedUsers.filter fun p => p.1 != socket.userId,
          clock := s.clock + env.tick + env.tick,
          users := updateFirst (fun u => u._id == socket.userId)
            (fun u => { u with isOnline := false, lastSeen := s.clock + env.tick }) s.users },
        (s.sockets.filter fun k => k.id != socket.id).map fun k =>
          { target := k.id,
            event := .user_offline socket.userId (s.clock + env.tick + env.tick) }) := by
  simp [disconnect, hupdate]

theorem samePresence_refl (s : State) : SamePresence s s := ⟨rfl, rfl, rfl⟩

theorem samePresence_trans {a b c : State} (hab : SamePresence a b) (hbc : SamePresence b c) :
    SamePresence a c :=
  ⟨hbc.1.trans hab.1, hbc.2.1.trans hab.2.1, hbc.2.2.trans hab.2.2⟩

theorem markAsSeen_samePresence (env : Faults) (s : State) (chatId userId : ObjectId) :
    SamePresence s (Message.markAsSeen env s chatId userId).1 := by
  unfold Message.markAsSeen
  split <;> exact ⟨rfl, rfl, rfl⟩

theorem create_samePresence (env : Faults) (s : State) (chatId senderId : ObjectId)
    (content : JsString) : SamePresence s (Message.create env s chatId senderId content).1 := by
  unfold Message.create
  simp only
  split
  · exact ⟨rfl, rfl, rfl⟩
  · split <;> exact ⟨rfl, rfl, rfl⟩

theorem updateLastMessage_samePresence (env : Faults) (s : State) (chatId : ObjectId)
    (message : Message) : SamePresence s (Chat.updateLastMessage env s chatId message).1 := by
  unfold Chat.updateLastMessage
  simp only
  split <;> exact ⟨rfl, rfl, rfl⟩

theorem findOrCreateChat_samePresence (env : Faults) (s : State) (userId1 userId2 : ObjectId) :
    SamePresence s (Chat.findOrCreateChat env s userId1 userId2).1 := by
  unfold Chat.findOrCreateChat
  split
  · exact samePresence_refl s
  · split
    · split <;> exact samePresence_refl s
    · simp only
      split
      · exact ⟨rfl, rfl, rfl⟩
      · split <;> exact ⟨rfl, rfl, rfl⟩

theorem postMessage_samePresence (env : Faults) (s : State) (userId chatId : ObjectId)
    (content : JsValue) : SamePresence s (postMessage env s userId chatId content).1 := by
  cases content with
  | string str =>
    have hc := create_samePresence env s chatId userId (trim str)
    unfold postMessage
    simp only
    split
    · exact samePresence_refl s
    · split
      · exact samePresence_refl s
      · split
        · exact samePresence_refl s
        · split
          · exact samePresence_refl s
          · cases hcr : Message.create env s chatId userId (trim str) with
            | mk s1 res =>
              rw [hcr] at hc
              cases res with
              | none => exact hc
              | some message =>
                have hu := updateLastMessage_samePresence env s1 chatId message
                simp only
                cases hup : Chat.updateLastMessage env s1 chatId message with
                | mk s2 ok =>
                  rw [hup] at hu
                  cases ok
                  · exact samePresence_trans hc hu
                  · simp only
                    split <;> exact samePresence_trans hc hu
  | undefined => simp [postMessage, JsValue.truthy, samePresence_refl]
  | null => simp [postMessage, JsValue.truthy, samePresence_refl]
  | bool b => cases b <;> simp [postMessage, JsValue.truthy, samePresence_refl]
  | number n =>
    by_cases hn : n = 0 <;> simp [postMessage, JsValue.truthy, hn, samePresence_refl]

/-- Only `connection` and `disconnect` touch the users, the live connections or
`connectedUsers`. -/
theorem handle_samePresence (env : Faults) (s : State) (request : Request)
    (hnot : ∀ socket, request ≠ .connection socket ∧ request ≠ .disconnect socket) :
    SamePresence s (handle env s request) := by
  cases request with
  | connection socket => exact absurd rfl (hnot socket).1
  | disconnect socket => exact absurd rfl (hnot socket).2
  | join socket chatId =>
    show SamePresence s (join env s socket chatId).1
    rcases join_state env s socket chatId with h | h
    · rw [h]; exact samePresence_refl s
    · rw [h]
      exact samePresence_trans ⟨rfl, rfl, rfl⟩
        (markAsSeen_samePresence env { s with rooms := roomJoin s.rooms chatId socket.id }
          chatId socket.userId)
  | leave socket chatId => exact ⟨rfl, rfl, rfl⟩
  | sendMessage socket data =>
    show SamePresence s (sendMessage env s socket data).1
    rcases sendMessage_state_cases env s socket data with hr | hr | ⟨chatId, content, hr | hr⟩
    all_goals rw [hr]; exact ⟨rfl, rfl, rfl⟩
  | markSeen socket chatId =>
    show SamePresence s (markSeen env s socket chatId).1
    rw [markSeen_state]
    exact markAsSeen_samePresence env s chatId socket.userId
  | getMessages userId chatId limit before =>
    show SamePresence s (getMessages env s userId chatId limit before).1
    rcases getMessages_state_cases env s userId chatId limit before with h | h
    · rw [h]; exact samePresence_refl s
    · rw [h]; exact markAsSeen_samePresence env s chatId userId
  | postMessage userId chatId content =>
    exact postMessage_samePresence env s userId chatId content
  | putSeen userId chatId =>
    show SamePresence s (putSeen env s userId chatId).1
    rcases putSeen_state env s userId chatId with h | h
    · rw [h]; exact samePresence_refl s
    · rw [h]; exact markAsSeen_samePresence env s chatId userId
  | postChat userId participantId =>
    show SamePresence s (postChat env s userId participantId).1
    rcases postChat_state env s userId participantId with h | ⟨id, h⟩
    · rw [h]; exact samePresence_refl s
    · rw [h]; exact findOrCreateChat_samePresence env s userId id

theorem presenceInv_of_samePresence {s s2 : State} (h : SamePresence s s2)
    (hinv : PresenceInv s) : PresenceInv s2 := by
  obtain ⟨hu, hs, hc⟩ := h
  unfold PresenceInv isUserOnline at hinv ⊢
  rw [hu, hs, hc]
  exact hinv

theorem eq_of_pairwise_ne {α β : Type} (key : α → β) (l : List α)
    (h : l.Pairwise fun a b => key a ≠ key b) {a b : α} (ha : a ∈ l) (hb : b ∈ l)
    (heq : key a = key b) : a = b := by
  induction l with
  | nil => cases ha
  | cons x rest ih =>
    rw [List.pairwise_cons] at h
    simp only [List.mem_cons] at ha hb
    rcases ha with rfl | ha <;> rcases hb with rfl | hb
    · rfl
    · exact absurd heq (h.1 b hb)
    · exact absurd heq.symm (h.1 a ha)
    · exact ih h.2 ha hb

theorem exists_user_of_ids_eq {users users2 : List User}
    (hids : (users2.map fun u => u._id) = users.map fun u => u._id) (x : ObjectId)
    (h : ∃ u ∈ users, u._id = x) : ∃ u ∈ users2, u._id = x := by
  obtain ⟨u, hu, hx⟩ := h
  have hmem : x ∈ users.map fun u => u._id := List.mem_map.mpr ⟨u, hu, hx⟩
  rw [← hids] at hmem
  exact List.mem_map.mp hmem

theorem presenceInv_start (s : State) (h : s.isStart) : PresenceInv s := by
  obtain ⟨hs, hc, _, hoff, hids⟩ := h
  unfold PresenceInv isUserOnline
  rw [hs, hc]
  refine ⟨hids, ?_, List.Pairwise.nil, List.Pairwise.nil, ?_, ?_⟩
  · intro k hk
    cases hk
  · intro userId
    simp
  · intro u hu
    simp [hoff u hu]

theorem presenceInv_connection (env : Faults) (s : State) (socket : Socket)
    (hinv : PresenceInv s)
    (hfresh : ∀ k ∈ s.sockets, k.id ≠ socket.id)
    (hstored : ∃ u ∈ s.users, u._id = socket.userId)
    (hsingle : ∀ k ∈ s.sockets, k.userId ≠ socket.userId)
    (hupdate : env.userUpdateFails = false) :
    PresenceInv (connection env s socket).1 := by
  obtain ⟨hids, hbelongs, hsid, hsuser, hreg, hflag⟩ := hinv
  rw [connection_ok env s socket hupdate]
  have hids2 : ((updateFirst (fun u => u._id == socket.userId)
      (fun u => { u with isOnline := true, lastSeen := s.clock + env.tick }) s.users).map
      fun u => u._id) = s.users.map fun u => u._id :=
    updateFirst_map_eq (fun u : User => u._id == socket.userId)
      (fun u : User => { u with isOnline := true, lastSeen := s.clock + env.tick })
      (fun u : User => u._id) (fun _ => rfl) s.users
  have husers := updateFirst_eq_map_of_nodup (fun u : User => u._id) socket.userId
    (fun u => { u with isOnline := true, lastSeen := s.clock + env.tick }) s.users hids
  beta_reduce at husers
  have hreg2 : ∀ userId, (s.connectedUsers.any fun p => p.1 == userId) = true ↔
      ∃ k ∈ s.sockets, k.userId = userId := hreg
  unfold PresenceInv isUserOnline
  simp only
  refine ⟨?_, ?_, ?_, ?_, ?_, ?_⟩
  · rw [hids2]
    exact hids
  · intro k hk
    apply exists_user_of_ids_eq hids2
    rcases List.mem_append.mp hk with hk | hk
    · exact hbelongs k hk
    · rw [List.mem_singleton] at hk
      rw [hk]
      exact hstored
  · rw [List.pairwise_append]
    refine ⟨hsid, List.pairwise_singleton _ _, ?_⟩
    intro a ha b hb
    rw [List.mem_singleton] at hb
    rw [hb]
    exact hfresh a ha
  · rw [List.pairwise_append]
    refine ⟨hsuser, List.pairwise_singleton _ _, ?_⟩
    intro a ha b hb
    rw [List.mem_singleton] at hb
    rw [hb]
    exact hsingle a ha
  · intro userId
    rw [any_mapSet, Bool.or_eq_true, hreg2 userId]
    simp only [beq_iff_eq, List.mem_append, List.mem_singleton]
    constructor
    · rintro (⟨k, hk, hku⟩ | h)
      · exact ⟨k, Or.inl hk, hku⟩
      · exact ⟨socket, Or.inr rfl, h⟩
    · rintro ⟨k, hk | hk, hku⟩
      · exact Or.inl ⟨k, hk, hku⟩
      · exact Or.inr (hk ▸ hku)
  · intro u2 hu2
    rw [husers, List.mem_map] at hu2
    obtain ⟨u, hu, rfl⟩ := hu2
    by_cases hself : u._id = socket.userId
    · rw [if_pos hself]
      simp only [true_iff]
      exact ⟨socket, List.mem_append.mpr (Or.inr (List.mem_singleton.mpr rfl)), hself.symm⟩
    · rw [if_neg hself, hflag u hu]
      simp only [List.mem_append, List.mem_singleton]
      constructor
      · rintro ⟨k, hk, hku⟩
        exact ⟨k, Or.inl hk, hku⟩
      · rintro ⟨k, hk | hk, hku⟩
        · exact ⟨k, hk, hku⟩
        · exact absurd (hk ▸ hku).symm hself

theorem presenceInv_disconnect (env : Faults) (s : State) (socket : Socket)
    (hinv : PresenceInv s) (hlive : socket ∈ s.sockets)
    (hupdate : env.userUpdateFails = false) :
    PresenceInv (disconnect env s socket).1 := by
  obtain ⟨hids, hbelongs, hsid, hsuser, hreg, hflag⟩ := hinv
  rw [disconnect_ok env s socket hupdate]
  have hids2 : ((updateFirst (fun u => u._id == socket.userId)
      (fun u => { u with isOnline := false, lastSeen := s.clock + env.tick }) s.users).map
      fun u => u._id) = s.users.map fun u => u._id :=
    updateFirst_map_eq (fun u : User => u._id == socket.userId)
      (fun u : User => { u with isOnline := false, lastSeen := s.clock + env.tick })
      (fun u : User => u._id) (fun _ => rfl) s.users
  have husers := updateFirst_eq_map_of_nodup (fun u : User => u._id) socket.userId
    (fun u => { u with isOnline := false, lastSeen := s.clock + env.tick }) s.users hids
  beta_reduce at husers
  have hreg2 : ∀ userId, (s.connectedUsers.any fun p => p.1 == userId) = true ↔
      ∃ k ∈ s.sockets, k.userId = userId := hreg
  have hmem : ∀ k, k ∈ s.sockets.filter (fun k => k.id != socket.id) ↔
      k ∈ s.sockets ∧ k.userId ≠ socket.userId := by
    intro k
    simp only [List.mem_filter, bne_iff_ne, ne_eq]
    constructor
    · rintro ⟨hk, hne⟩
      refine ⟨hk, fun hu => hne ?_⟩
      rw [eq_of_pairwise_ne (fun k : Socket => k.userId) s.sockets hsuser hk hlive hu]
    · rintro ⟨hk, hne⟩
      refine ⟨hk, fun hi => hne ?_⟩
      rw [eq_of_pairwise_ne (fun k : Socket => k.id) s.sockets hsid hk hlive hi]
  unfold PresenceInv isUserOnline
  simp only
  refine ⟨?_, ?_, ?_, ?_, ?_, ?_⟩
  · rw [hids2]
    exact hids
  · intro k hk
    apply exists_user_of_ids_eq hids2
    exact hbelongs k ((hmem k).mp hk).1
  · exact List.Pairwise.sublist (List.filter_sublist _) hsid
  · exact List.Pairwise.sublist (List.filter_sublist _) hsuser
  · intro userId
    rw [any_filter_ne, Bool.and_eq_true, hreg2 userId]
    simp only [bne_iff_ne, ne_eq]
    constructor
    · rintro ⟨⟨k, hk, hku⟩, hne⟩
      exact ⟨k, (hmem k).mpr ⟨hk, hku ▸ hne⟩, hku⟩
    · rintro ⟨k, hk, hku⟩
      obtain ⟨hk1, hk2⟩ := (hmem k).mp hk
      exact ⟨⟨k, hk1, hku⟩, hku ▸ hk2⟩
  · intro u2 hu2
    rw [husers, List.mem_map] at hu2
    obtain ⟨u, hu, rfl⟩ := hu2
    by_cases hself : u._id = socket.userId
    · rw [if_pos hself]
      simp only [Bool.false_eq_true, false_iff, not_exists, not_and]
      intro k hk hku
      exact ((hmem k).mp hk).2 (hku.trans hself)
    · rw [if_neg hself, hflag u hu]
      constructor
      · rintro ⟨k, hk, hku⟩
        exact ⟨k, (hmem k).mpr ⟨hk, fun h => hself (hku.symm.trans h)⟩, hku⟩
      · rintro ⟨k, hk, hku⟩
        exact ⟨k, ((hmem k).mp hk).1, hku⟩

theorem presenceInv_reachable (s : State) (h : Reachable true s) : PresenceInv s := by
  induction h with
  | start s hstart => exact presenceInv_start s hstart
  | step s env request _ hadm hsingle hupdate ih =>
    cases request with
    | connection socket =>
      exact presenceInv_connection env s socket ih hadm.1 hadm.2 (hsingle rfl) hupdate
    | disconnect socket => exact presenceInv_disconnect env s socket ih hadm hupdate
    | join socket chatId =>
      exact presenceInv_of_samePresence
        (handle_samePresence env s _ (fun _ => ⟨by simp, by simp⟩)) ih
    | leave socket chatId =>
      exact presenceInv_of_samePresence
        (handle_samePresence env s _ (fun _ => ⟨by simp, by simp⟩)) ih
    | sendMessage socket data =>
      exact presenceInv_of_samePresence
        (handle_samePresence env s _ (fun _ => ⟨by simp, by simp⟩)) ih
    | markSeen socket chatId =>
      exact presenceInv_of_samePresence
        (handle_samePresence env s _ (fun _ => ⟨by simp, by simp⟩)) ih
    | getMessages userId chatId limit before =>
      exact presenceInv_of_samePresence
        (handle_samePresence env s _ (fun _ => ⟨by simp, by simp⟩)) ih
    | postMessage userId chatId content =>
      exact presenceInv_of_samePresence
        (handle_samePresence env s _ (fun _ => ⟨by simp, by simp⟩)) ih
    | putSeen userId chatId =>
      exact presenceInv_of_samePresence
        (handle_samePresence env s _ (fun _ => ⟨by simp, by simp⟩)) ih
    | postChat userId participantId =>
      exact presenceInv_of_samePresence
        (handle_samePresence env s _ (fun _ => ⟨by simp, by simp⟩)) ih

/-- C18, counterexample: Alice connects from two devices, Bob from one, then Alice's older
session disconnects.  The state is reachable, Alice's newer session 101 is still live, yet
her online flag is false and the registry reports her offline. -/
theorem presence_lost_with_two_devices :
    Reachable false olderGone ∧
    socketA2 ∈ olderGone.sockets ∧ socketA2.userId = 1 ∧
    (User.findById olderGone.users 1).map (fun u => u.isOnline) = some false ∧
    isUserOnline olderGone 1 = false :=
  ⟨Reachable.step twoDevices calm (.disconnect socketA)
      (Reachable.step _ calm (.connection socketB)
        (Reachable.step _ calm (.connection socketA2)
          (Reachable.step initialState calm (.connection socketA)
            (Reachable.start initialState (by unfold State.isStart; decide))
            (by unfold Request.admissible; decide) (fun h => Bool.noConfusion h) rfl)
          (by unfold Request.admissible; decide) (fun h => Bool.noConfusion h) rfl)
        (by unfold Request.admissible; decide) (fun h => Bool.noConfusion h) rfl)
      (by unfold Request.admissible; decide) (fun h => Bool.noConfusion h) rfl,
    by decide, rfl, by decide, by decide⟩

/-- C18, amended: in every state reached from a server start by admissible requests whose
user updates are not rejected, and in which no identity ever held two live connections at
a time, for every identity the registry reports it online, and the online flag of its
user document is true, if and only if a live connection authenticated as that identity
exists. -/
theorem presence_matches_connections (s : State) (h : Reachable true s) (userId : ObjectId) :
    (isUserOnline s userId = true ↔ ∃ k ∈ s.sockets, k.userId = userId) ∧
    ∀ u ∈ s.users, u._id = userId →
      (u.isOnline = true ↔ ∃ k ∈ s.sockets, k.userId = userId) := by
  obtain ⟨_, _, _, _, hreg, hflag⟩ := presenceInv_reachable s h
  refine ⟨hreg userId, ?_⟩
  intro u hu hid
  rw [← hid]
  exact hflag u hu

/-- Witness for the amended C18: Alice connects once to a freshly started server. -/
theorem presence_matches_connections_witness :
    (isUserOnline (handle calm initialState (.connection socketA)) 1 = true ↔
      ∃ k ∈ (handle calm initialState (.connection socketA)).sockets, k.userId = 1) ∧
    ∀ u ∈ (handle calm initialState (.connection socketA)).users, u._id = 1 →
      (u.isOnline = true ↔
        ∃ k ∈ (handle calm initialState (.connection socketA)).sockets, k.userId = 1) :=
  presence_matches_connections _
    (Reachable.step initialState calm (.connection socketA)
      (Reachable.start initialState (by unfold State.isStart; decide))
      (by unfold Request.admissible; decide)
      (fun _ => by unfold Request.keepsSingle; decide) rfl)
    1

theorem connection_clock (env : Faults) (s : State) (socket : Socket) :
    (connection env s socket).1.clock = s.clock + env.tick := by
  unfold connection
  simp only
  split <;> rfl

/-- C19: when the user update is not rejected, connecting a session emits user_online
carrying its identity to every other live session; and whatever requests the server
handles in between, when the session later disconnects (again with the user update not
rejected) user_offline carrying that identity is emitted to every other live session,
with a lastSeen not earlier than the time read when the session connected.  Time never
runs backward in the model. -/
theorem presence_events (env1 env2 : Faults) (s : State) (socket : Socket)
    (requests : List (Faults × Request))
    (h1 : env1.userUpdateFails = false) (h2 : env2.userUpdateFails = false) :
    (connection env1 s socket).1.clock = s.clock + env1.tick ∧
    (∀ k ∈ s.sockets, k.id ≠ socket.id →
      ({ target := k.id, event := .user_online socket.userId socket.email } : Emit) ∈
        (connection env1 s socket).2) ∧
    (∀ k ∈ (run (connection env1 s socket).1 requests).sockets, k.id ≠ socket.id →
      ∃ lastSeen, s.clock + env1.tick ≤ lastSeen ∧
        ({ target := k.id, event := .user_offline socket.userId lastSeen } : Emit) ∈
          (disconnect env2 (run (connection env1 s socket).1 requests) socket).2) ∧
    (∀ e ∈ (disconnect env2 (run (connection env1 s socket).1 requests) socket).2,
      ∃ lastSeen, s.clock + env1.tick ≤ lastSeen ∧
        e.event = .user_offline socket.userId lastSeen) := by
  have hclock := connection_clock env1 s socket
  have hrun := (run_extends (connection env1 s socket).1 requests).1
  rw [hclock] at hrun
  have hlater : s.clock + env1.tick ≤
      (run (connection env1 s socket).1 requests).clock + env2.tick + env2.tick :=
    Nat.le_trans hrun (Nat.le_trans (Nat.le_add_right _ _) (Nat.le_add_right _ _))
  refine ⟨hclock, ?_, ?_, ?_⟩
  · intro k hk hne
    rw [connection_ok env1 s socket h1]
    simp only [List.mem_map, List.mem_filter]
    exact ⟨k, ⟨hk, by simpa using hne⟩, rfl⟩
  · intro k hk hne
    refine ⟨_, hlater, ?_⟩
    rw [disconnect_ok env2 _ socket h2]
    simp only [List.mem_map, List.mem_filter]
    exact ⟨k, ⟨hk, by simpa using hne⟩, rfl⟩
  · intro e he
    rw [disconnect_ok env2 _ socket h2] at he
    simp only [List.mem_map, List.mem_filter] at he
    obtain ⟨k, _, rfl⟩ := he
    exact ⟨_, hlater, rfl⟩

/-- Witness for C19: Bob connects while Alice is connected, sends her a message, and
disconnects; Alice's session gets user_online and later user_offline. -/
theorem presence_events_witness :
    ({ target := 100, event := .user_online 2 socketB.email } : Emit) ∈
      (connection calm (connection calm initialState socketA).1 socketB).2 ∧
    ∃ lastSeen, 2 ≤ lastSeen ∧
      ({ target := 100, event := .user_offline 2 lastSeen } : Emit) ∈
        (disconnect calm
          (run (connection calm (connection calm initialState socketA).1 socketB).1
            [(calm, .sendMessage socketB (some { chatId := .oid 10, content := .string hi }))])
          socketB).2 :=
  have h := presence_events calm calm (connection calm initialState socketA).1 socketB
    [(calm, .sendMessage socketB (some { chatId := .oid 10, content := .string hi }))] rfl rfl
  ⟨h.2.1 socketA (by decide) (by decide), h.2.2.1 socketA (by decide) (by decide)⟩

theorem mapGet_filter_ne (m : List (ObjectId × SocketId)) (k : ObjectId) :
    mapGet (m.filter fun p => p.1 != k) k = none := by
  unfold mapGet
  rw [Option.map_eq_none', List.find?_eq_none]
  intro p hp
  have := (List.mem_filter.mp hp).2
  simpa using this

theorem filter_ne_of_mapGet_none (m : List (ObjectId × SocketId)) (k : ObjectId)
    (h : mapGet m k = none) : (m.filter fun p => p.1 != k) = m := by
  unfold mapGet at h
  rw [Option.map_eq_none', List.find?_eq_none] at h
  rw [List.filter_eq_self]
  intro p hp
  simpa using h p hp

/-- C20, counterexample: Alice's older session 100 disconnects while the registry holds her
newer session 101.  The cleanup is no no-op: her registry entry is removed, her online
flag goes from true to false, and user_offline is emitted to the other sessions. -/
theorem disconnect_unheld_session_not_noop :
    getSocketId twoDevices socketA.userId = some 101 ∧ socketA.id ≠ 101 ∧
    getSocketId (disconnect calm twoDevices socketA).1 socketA.userId = none ∧
    (User.findById twoDevices.users 1).map (fun u => u.isOnline) = some true ∧
    (User.findById (disconnect calm twoDevices socketA).1.users 1).map (fun u => u.isOnline) =
      some false ∧
    (disconnect calm twoDevices socketA).2 =
      [{ target := 101, event := .user_offline 1 5 },
       { target := 200, event := .user_offline 1 5 }] := by
  decide

/-- C20, amended: disconnect cleanup for a session the registry does not hold leaves the
registry unchanged only when the identity has no entry; an entry referring to a different
session is removed, so that afterwards the identity has no entry.  In both cases, with
the user update not rejected and user ids unique, the user's online flag is set to false,
last-seen is stamped, and user_offline is emitted to every other live session. -/
theorem disconnect_effects (env : Faults) (s : State) (socket : Socket)
    (hupdate : env.userUpdateFails = false)
    (hids : (s.users.map fun u => u._id).Nodup) :
    (getSocketId s socket.userId = none →
      (disconnect env s socket).1.connectedUsers = s.connectedUsers) ∧
    getSocketId (disconnect env s socket).1 socket.userId = none ∧
    (∀ u ∈ (disconnect env s socket).1.users, u._id = socket.userId →
      u.isOnline = false ∧ u.lastSeen = s.clock + env.tick) ∧
    (disconnect env s socket).2 =
      (s.sockets.filter fun k => k.id != socket.id).map fun k =>
        { target := k.id,
          event := .user_offline socket.userId (s.clock + env.tick + env.tick) } := by
  rw [disconnect_ok env s socket hupdate]
  refine ⟨?_, mapGet_filter_ne _ _, ?_, rfl⟩
  · intro hnone
    exact filter_ne_of_mapGet_none _ _ hnone
  · intro u2 hu2 hid
    simp only at hu2
    have husers := updateFirst_eq_map_of_nodup (fun u : User => u._id) socket.userId
      (fun u => { u with isOnline := false, lastSeen := s.clock + env.tick }) s.users hids
    beta_reduce at husers
    rw [husers, List.mem_map] at hu2
    obtain ⟨u, _, rfl⟩ := hu2
    by_cases hself : u._id = socket.userId
    · rw [if_pos hself]
      exact ⟨rfl, rfl⟩
    · rw [if_neg hself] at hid
      exact absurd hid hself

/-- Witness for the amended C20, in the scenario of its counterexample. -/
theorem disconnect_effects_witness :
    getSocketId (disconnect calm twoDevices socketA).1 socketA.userId = none ∧
    (disconnect calm twoDevices socketA).2 =
      (twoDevices.sockets.filter fun k => k.id != socketA.id).map fun k =>
        { target := k.id,
          event := .user_offline socketA.userId (twoDevices.clock + calm.tick + calm.tick) } :=
  have h := disconnect_effects calm twoDevices socketA rfl (by decide)
  ⟨h.2.1, h.2.2.2⟩

/-! ## Unread count and marking seen -/

/-- C30: with the store rejecting neither call, the modified count markAsSeen returns is
the value getUnreadCount returns for the same chat and user just before the call, and
getUnreadCount returns zero just after it. -/
theorem markAsSeen_count_is_unread (env : Faults) (s : State) (chatId userId : ObjectId)
    (hseen : env.markSeenFails = false) (hcount : env.countFails = false) :
    (Message.markAsSeen env s chatId userId).2 = Message.getUnreadCount env s chatId userId ∧
    (∃ n, Message.getUnreadCount env s chatId userId = some n) ∧
    Message.getUnreadCount env (Message.markAsSeen env s chatId userId).1 chatId userId =
      some 0 := by
  refine ⟨?_, ⟨_, by simp only [Message.getUnreadCount, hcount]; rfl⟩, ?_⟩
  · rw [markAsSeen_ok env s chatId userId hseen]
    simp [Message.getUnreadCount, hcount]
  · have hnone := markAsSeen_leaves_none_unseen env s chatId userId hseen
    simp only [Message.getUnreadCount, hcount, Bool.false_eq_true, if_false,
      Option.some.injEq, List.countP_eq_zero]
    intro m hm hc
    rw [hnone m hm] at hc
    exact Bool.false_ne_true hc

/-- C30 (witness): Bob has one unread message in the chat where Alice's "hi" waits;
markAsSeen reports one and leaves none. -/
theorem markAsSeen_count_is_unread_witness :
    (Message.markAsSeen calm aliceWaiting 10 2).2 = some 1 ∧
    Message.getUnreadCount calm aliceWaiting 10 2 = some 1 ∧
    Message.getUnreadCount calm (Message.markAsSeen calm aliceWaiting 10 2).1 10 2 = some 0 :=
  have h := markAsSeen_count_is_unread calm aliceWaiting 10 2 rfl rfl
  ⟨by decide, by decide, h.2.2⟩

/-! ## Listing marks seen -/

/-- C28 (counterexample): Alice's "hi" is unseen; Bob lists the chat through the pull
path, joining no room and calling no mark-seen, and the stored message is seen, with a
seenAt, afterwards. -/
theorem getMessages_changes_seen :
    (aliceWaiting.messages.map fun m => (m._id, m.seen, m.seenAt)) = [(11, false, none)] ∧
    ((getMessages calm aliceWaiting 2 10 50 none).1.messages.map
      fun m => (m._id, m.seen, m.seenAt)) = [(11, true, some 6)] := by
  decide

/-- C28 (amended): a listing of a chat by one of its participants, with no store call
rejected, leaves the store exactly as markAsSeen for that chat and reader leaves it: every
message of the chat sent by someone else and not yet seen becomes seen, with the time of the
listing as seenAt, and no other message changes; the page returned carries the flags as they
were before. -/
theorem getMessages_marks_seen (env : Faults) (s : State) (userId chatId : ObjectId)
    (limit : Nat) (before : Option Date) (found : Chat)
    (hfound : Chat.findOne s.chats chatId userId = some found)
    (hfindOne : env.findOneFails = false) (hfind : env.findFails = false)
    (hpopulate : env.populateFails = false) (hseen : env.markSeenFails = false) :
    (getMessages env s userId chatId limit before).1 =
      (Message.markAsSeen env s chatId userId).1 ∧
    (getMessages env s userId chatId limit before).1.messages =
      (s.messages.map fun m =>
        if (m.chatId == chatId && m.senderId != userId && m.seen == false) = true then
          { m with seen := true, seenAt := some (s.clock + env.tick) }
        else m) ∧
    (getMessages env s userId chatId limit before).2 =
      .ok ((Message.find s.messages chatId before limit).map (populate s.users)).reverse
        (((Message.find s.messages chatId before limit).map (populate s.users)).length
          == limit) := by
  have hstate : (getMessages env s userId chatId limit before).1 =
      (Message.markAsSeen env s chatId userId).1 := by
    simp [getMessages, hfound, hfindOne, hfind, hpopulate, Message.markAsSeen, hseen]
  refine ⟨hstate, ?_, getMessages_ok env s userId chatId limit before found hfound hfindOne
    hfind hpopulate hseen⟩
  rw [hstate, markAsSeen_ok env s chatId userId hseen]

/-- C28 (witness): Bob lists the chat where Alice's "hi" waits. -/
theorem getMessages_marks_seen_witness :
    Chat.findOne aliceWaiting.chats 10 2 = some { chatAB with
      lastMessage := some { content := hi, senderId := 1, createdAt := 4 }, updatedAt := 5 } ∧
    (getMessages calm aliceWaiting 2 10 50 none).1 =
      (Message.markAsSeen calm aliceWaiting 10 2).1 :=
  ⟨by decide,
    (getMessages_marks_seen calm aliceWaiting 2 10 50 none
      { chatAB with
        lastMessage := some { content := hi, senderId := 1, createdAt := 4 }, updatedAt := 5 }
      (by decide) rfl rfl rfl rfl).1⟩

/-! ## Formatting a chat -/

/-- C26: for a chat whose two participants are distinct and one of which is the current
user, formatChat returns the sanitized record of the other participant, which is not the
current user, and copies _id, lastMessage, updatedAt and createdAt from the chat. -/
theorem formatChat_other_participant (chatObj : PopulatedChat) (p q : UserObject)
    (currentUserId : ObjectId)
    (hparts : chatObj.participants = [p, q]) (hdistinct : p._id ≠ q._id)
    (hcurrent : currentUserId = p._id ∨ currentUserId = q._id) :
    formatChat chatObj currentUserId =
      { _id := chatObj._id,
        participant := some (sanitizeUser (if currentUserId = p._id then q else p)),
        lastMessage := chatObj.lastMessage, updatedAt := chatObj.updatedAt,
        createdAt := chatObj.createdAt } ∧
    (∀ u, (formatChat chatObj currentUserId).participant = some u → u._id ≠ currentUserId) := by
  have hpart : (formatChat chatObj currentUserId).participant =
      some (sanitizeUser (if currentUserId = p._id then q else p)) := by
    unfold formatChat
    rw [hparts]
    rcases hcurrent with h | h
    · subst h
      have hq : (q._id != p._id) = true := by simpa using Ne.symm hdistinct
      simp [List.find?, hq]
    · subst h
      have hp : (p._id != q._id) = true := by simpa using hdistinct
      simp [List.find?, hp, Ne.symm hdistinct]
  constructor
  · unfold formatChat at hpart ⊢
    simp only at hpart
    rw [hpart]
  · intro u hu
    rw [hpart] at hu
    cases hu
    rcases hcurrent with h | h
    · subst h
      simpa [sanitizeUser] using Ne.symm hdistinct
    · subst h
      simpa [sanitizeUser, Ne.symm hdistinct] using hdistinct

/-- C26 (witness): the chat of Alice and Bob formatted for Alice shows Bob. -/
theorem formatChat_other_participant_witness :
    (populateChat initialState.users chatAB).participants =
      [{ _id := 1, email := alice.email, isVerified := none, isOnline := some false,
         lastSeen := some 0, createdAt := none },
       { _id := 2, email := bob.email, isVerified := none, isOnline := some false,
         lastSeen := some 0, createdAt := none }] ∧
    ((formatChat (populateChat initialState.users chatAB) 1).participant.map
      fun u => (u._id, u.email)) = some (2, bob.email) :=
  have h := formatChat_other_participant (populateChat initialState.users chatAB)
    { _id := 1, email := alice.email, isVerified := none, isOnline := some false,
      lastSeen := some 0, createdAt := none }
    { _id := 2, email := bob.email, isVerified := none, isOnline := some false,
      lastSeen := some 0, createdAt := none }
    1 (by decide) (by decide) (Or.inl rfl)
  ⟨by decide, by rw [h.1]; rfl⟩

/-! ## The fallback and the live channel -/

theorem postMessage_all_ok (env : Faults) (s : State) (userId chatId : ObjectId)
    (content : JsString) (chat : Chat)
    (hfound : Chat.findOne s.chats chatId userId = some chat)
    (h1 : 1 ≤ (trim content).length) (h2 : (trim content).length ≤ 5000)
    (hfind : env.findOneFails = false) (hcreate : env.createFails = false)
    (hupdate : env.updateFails = false) (hpopulate : env.populateFails = false) :
    postMessage env s userId chatId (.string content) =
      (stateAfterSend env s chatId userId (trim content),
        .created (populate s.users (newMessage env s chatId userId (trim content)))) := by
  have hne : (trim content).isEmpty = false := (isEmpty_eq_false_iff_one_le _).2 h1
  have hc := content_nonempty_of_trim hne
  simp [postMessage, hfound, hfind, create_ok env s chatId userId content h1 h2 hcreate,
    Chat.updateLastMessage, hupdate, hpopulate, JsValue.truthy, hc, hne,
    stateAfterSend, newMessage, snapshotOf]

/-- The fallback and the live channel side by side: they leave the same store, and
either both refuse (the fallback with a response other than 201, the live channel
with one `error` event to the caller) or both ran every step. -/
theorem postMessage_sendMessage_cases (env : Faults) (s : State) (socket : Socket)
    (chatId : ObjectId) (content : JsValue) :
    (postMessage env s socket.userId chatId content).1 =
      (sendMessage env s socket (some { chatId := .oid chatId, content := content })).1 ∧
    ((∃ msg, (sendMessage env s socket (some { chatId := .oid chatId, content := content })).2 =
          [{ target := socket.id, event := .error msg }] ∧
        ∀ m, (postMessage env s socket.userId chatId content).2 ≠ .created m) ∨
     ∃ text chat, content = .string text ∧
        Chat.findOne s.chats chatId socket.userId = some chat ∧
        1 ≤ (trim text).length ∧ (trim text).length ≤ 5000 ∧
        env.findOneFails = false ∧ env.createFails = false ∧ env.updateFails = false ∧
        env.populateFails = false) := by
  cases content with
  | string text =>
    by_cases h0 : (trim text).length = 0
    · have he : trim text = [] := List.length_eq_zero.mp h0
      rw [sendMessage_blank env s socket (.oid chatId) text h0]
      have hp : postMessage env s socket.userId chatId (.string text) = (s, .badRequest) := by
        unfold postMessage
        by_cases hg : (!(JsValue.string text).truthy) = true
        · simp [hg]
        · simp [hg, he]
      rw [hp]
      exact ⟨rfl, Or.inl ⟨.invalidMessageData, rfl, by simp⟩⟩
    · have h1 : 1 ≤ (trim text).length := Nat.one_le_iff_ne_zero.mpr h0
      have hne : (trim text).isEmpty = false := (isEmpty_eq_false_iff_one_le _).2 h1
      have hc := content_nonempty_of_trim hne
      by_cases hf : env.findOneFails = true
      · have hl : sendMessage env s socket
            (some { chatId := .oid chatId, content := .string text }) =
            (s, [{ target := socket.id, event := .error .failedToSendMessage }]) := by
          simp [sendMessage, hf, JsValue.truthy, WireId.truthy, hc, hne]
        have hp : postMessage env s socket.userId chatId (.string text) =
            (s, .serverError) := by
          simp [postMessage, hf, JsValue.truthy, hc, hne]
        rw [hl, hp]
        exact ⟨rfl, Or.inl ⟨.failedToSendMessage, rfl, by simp⟩⟩
      · have hf : env.findOneFails = false := by simpa using hf
        cases hfound : Chat.findOne s.chats chatId socket.userId with
        | none =>
          have hl : sendMessage env s socket
              (some { chatId := .oid chatId, content := .string text }) =
              (s, [{ target := socket.id, event := .error .chatNotFound }]) := by
            simp [sendMessage, hf, hfound, JsValue.truthy, WireId.truthy, hc, hne]
          have hp : postMessage env s socket.userId chatId (.string text) =
              (s, .notFound) := by
            simp [postMessage, hf, hfound, JsValue.truthy, hc, hne]
          rw [hl, hp]
          exact ⟨rfl, Or.inl ⟨.chatNotFound, rfl, by simp⟩⟩
        | some chat =>
          by_cases hrej : env.createFails = true ∨ 5000 < (trim text).length
          · have hrej2 : env.createFails = true ∨ 5000 < (trim text).length ∨
                (trim text).length = 0 := by
              rcases hrej with h | h
              · exact Or.inl h
              · exact Or.inr (Or.inl h)
            rw [sendMessage_create_rejected env s socket chatId text chat hfound h1 hf hrej]
            have hp : postMessage env s socket.userId chatId (.string text) =
                ({ s with clock := s.clock + env.tick }, .serverError) := by
              simp [postMessage, hf, hfound,
                create_rejected env s chatId socket.userId text hrej2, JsValue.truthy, hc, hne]
            rw [hp]
            exact ⟨rfl, Or.inl ⟨.failedToSendMessage, rfl, by simp⟩⟩
          · have hcreate : env.createFails = false := by
              cases h : env.createFails with
              | false => rfl
              | true => exact absurd (Or.inl h) hrej
            have h2 : (trim text).length ≤ 5000 := by
              by_contra hgt
              exact hrej (Or.inr (by omega))
            by_cases hu : env.updateFails = true
            · rw [sendMessage_update_rejected env s socket chatId text chat hfound h1 h2 hf
                hcreate hu]
              have hp : postMessage env s socket.userId chatId (.string text) =
                  (stateAfterCreate env s chatId socket.userId (trim text), .serverError) := by
                simp [postMessage, hf, hfound,
                  create_ok env s chatId socket.userId text h1 h2 hcreate,
                  Chat.updateLastMessage, hu, JsValue.truthy, hc, hne, stateAfterCreate,
                  newMessage]
              rw [hp]
              exact ⟨rfl, Or.inl ⟨.failedToSendMessage, rfl, by simp⟩⟩
            · have hu : env.updateFails = false := by simpa using hu
              by_cases hpop : env.populateFails = true
              · rw [sendMessage_populate_rejected env s socket chatId text chat hfound h1 h2 hf
                  hcreate hu hpop]
                have hp : postMessage env s socket.userId chatId (.string text) =
                    (stateAfterSend env s chatId socket.userId (trim text), .serverError) := by
                  simp [postMessage, hf, hfound,
                    create_ok env s chatId socket.userId text h1 h2 hcreate,
                    Chat.updateLastMessage, hu, hpop, JsValue.truthy, hc, hne, stateAfterSend,
                    newMessage, snapshotOf]
                rw [hp]
                exact ⟨rfl, Or.inl ⟨.failedToSendMessage, rfl, by simp⟩⟩
              · have hpop : env.populateFails = false := by simpa using hpop
                rw [sendMessage_all_ok env s socket chatId text chat hfound h1 h2 hf hcreate hu
                  hpop,
                  postMessage_all_ok env s socket.userId chatId text chat hfound h1 h2 hf
                    hcreate hu hpop]
                exact ⟨rfl, Or.inr ⟨text, chat, rfl, rfl, h1, h2, hf, hcreate, hu, hpop⟩⟩
  | undefined =>
    exact ⟨by simp [postMessage, sendMessage, JsValue.truthy],
      Or.inl ⟨.invalidMessageData, by simp [sendMessage, JsValue.truthy],
        by simp [postMessage, JsValue.truthy]⟩⟩
  | null =>
    exact ⟨by simp [postMessage, sendMessage, JsValue.truthy],
      Or.inl ⟨.invalidMessageData, by simp [sendMessage, JsValue.truthy],
        by simp [postMessage, JsValue.truthy]⟩⟩
  | bool b =>
    cases b with
    | false =>
      exact ⟨by simp [postMessage, sendMessage, JsValue.truthy],
        Or.inl ⟨.invalidMessageData, by simp [sendMessage, JsValue.truthy],
          by simp [postMessage, JsValue.truthy]⟩⟩
    | true =>
      exact ⟨by simp [postMessage, sendMessage, JsValue.truthy, WireId.truthy],
        Or.inl ⟨.failedToSendMessage, by simp [sendMessage, JsValue.truthy, WireId.truthy],
          by simp [postMessage, JsValue.truthy]⟩⟩
  | number n =>
    by_cases hn : n = 0
    · subst hn
      exact ⟨by simp [postMessage, sendMessage, JsValue.truthy],
        Or.inl ⟨.invalidMessageData, by simp [sendMessage, JsValue.truthy],
          by simp [postMessage, JsValue.truthy]⟩⟩
    · exact ⟨by simp [postMessage, sendMessage, JsValue.truthy, WireId.truthy, hn],
        Or.inl ⟨.failedToSendMessage,
          by simp [sendMessage, JsValue.truthy, WireId.truthy, hn],
          by simp [postMessage, JsValue.truthy, hn]⟩⟩

/-- C25: for a caller who is a stored user, any chat identifier and any content, the REST
fallback and the live channel leave the same store, and the fallback answers 201 exactly
when the live channel emits no error event; when they accept, the store is the one with the
new message appended and the chat's last-message snapshot set from it. -/
theorem postMessage_same_as_sendMessage (env : Faults) (s : State) (socket : Socket)
    (chatId : ObjectId) (content : JsValue)
    (hsender : ∃ u ∈ s.users, u._id = socket.userId) :
    (postMessage env s socket.userId chatId content).1 =
      (sendMessage env s socket (some { chatId := .oid chatId, content := content })).1 ∧
    ((∃ m, (postMessage env s socket.userId chatId content).2 = .created m) ↔
      ∀ e ∈ (sendMessage env s socket (some { chatId := .oid chatId, content := content })).2,
        ∀ msg, e.event ≠ .error msg) ∧
    ((∃ m, (postMessage env s socket.userId chatId content).2 = .created m) →
      ∃ text, content = .string text ∧
        (postMessage env s socket.userId chatId content).1 =
          stateAfterSend env s chatId socket.userId (trim text)) := by
  obtain ⟨hstate, hcases⟩ := postMessage_sendMessage_cases env s socket chatId content
  refine ⟨hstate, ?_, ?_⟩
  · rcases hcases with ⟨msg, hl, hp⟩ | ⟨text, chat, rfl, hfound, h1, h2, hf, hc, hu, hpop⟩
    · constructor
      · rintro ⟨m, hm⟩
        exact absurd hm (hp m)
      · intro hall
        exact absurd rfl (hall { target := socket.id, event := .error msg }
          (by rw [hl]; exact List.mem_singleton.mpr rfl) msg)
    · constructor
      · intro _ e he msg hmsg
        rw [sendMessage_all_ok env s socket chatId text chat hfound h1 h2 hf hc hu hpop] at he
        obtain ⟨ref, href, _⟩ := populateSender_of_stored s.users socket.userId hsender
        rw [href, chatUpdatedLoop_populated] at he
        simp only [Bool.false_eq_true, if_false, List.append_nil, List.mem_append,
          List.mem_map, List.mem_filterMap] at he
        rcases he with ⟨sid, _, rfl⟩ | ⟨p, _, hp⟩
        · cases hmsg
        · cases hget : mapGet s.connectedUsers p with
          | none => rw [hget] at hp; cases hp
          | some sid =>
            rw [hget] at hp
            cases hp
            cases hmsg
      · intro _
        exact ⟨_, by rw [postMessage_all_ok env s socket.userId chatId text chat hfound h1 h2
          hf hc hu hpop]⟩
  · rintro ⟨m, hm⟩
    rcases hcases with ⟨msg, _, hp⟩ | ⟨text, chat, rfl, hfound, h1, h2, hf, hc, hu, hpop⟩
    · exact absurd hm (hp m)
    · exact ⟨text, rfl, by rw [postMessage_all_ok env s socket.userId chatId text chat hfound
        h1 h2 hf hc hu hpop]⟩

/-- C25 (witness): Alice sends "hi" to the chat with Bob through either path. -/
theorem postMessage_same_as_sendMessage_witness :
    (postMessage calm bobJoined 1 10 (.string hi)).1 =
      (sendMessage calm bobJoined socketA (some { chatId := .oid 10, content := .string hi })).1 ∧
    ∀ e ∈ (sendMessage calm bobJoined socketA
        (some { chatId := .oid 10, content := .string hi })).2,
      ∀ msg, e.event ≠ .error msg :=
  have h := postMessage_same_as_sendMessage calm bobJoined socketA 10 (.string hi)
    ⟨{ alice with isOnline := true, lastSeen := 1 }, by decide, rfl⟩
  ⟨h.1, h.2.1.mp ⟨_, rfl⟩⟩

/-! ## The handshake -/

theorem mapGet_mapSet_self (m : List (ObjectId × SocketId)) (k : ObjectId) (v : SocketId) :
    mapGet (mapSet m k v) k = some v := by
  unfold mapSet mapGet
  by_cases hany : (m.any fun p => p.1 == k) = true
  · rw [if_pos hany]
    induction m with
    | nil => simp at hany
    | cons p rest ih =>
      by_cases hp : (p.1 == k) = true
      · simp [List.find?, hp]
      · have hrest : (rest.any fun p => p.1 == k) = true := by
          simpa [List.any_cons, hp] using hany
        have hp2 : (p.1 == k) = false := by simpa using hp
        simp only [List.map_cons, hp2, Bool.false_eq_true, if_false, List.find?_cons]
        exact ih hrest
  · rw [if_neg hany]
    have hnone : m.find? (fun p => p.1 == k) = none := by
      rw [List.find?_eq_none]
      intro x hx hxk
      exact hany (List.any_eq_true.mpr ⟨x, hx, hxk⟩)
    simp [List.find?_append, hnone]

theorem findById_updateFirst (users : List User) (id : ObjectId) (f : User → User)
    (hf : ∀ u, (f u)._id = u._id) :
    User.findById (updateFirst (fun u => u._id == id) f users) id =
      (User.findById users id).map f := by
  unfold User.findById
  induction users with
  | nil => rfl
  | cons u rest ih =>
    by_cases hu : (u._id == id) = true
    · have hfu : ((f u)._id == id) = true := by rw [hf u]; exact hu
      simp [updateFirst, hu, List.find?, hfu]
    · have hu2 : (u._id == id) = false := by simpa using hu
      simp only [updateFirst, hu2, Bool.false_eq_true, if_false, List.find?_cons]
      exact ih

theorem findById_some {users : List User} {id : ObjectId} {user : User}
    (h : User.findById users id = some user) : user ∈ users ∧ user._id = id := by
  unfold User.findById at h
  exact ⟨List.mem_of_find?_eq_some h, by simpa using List.find?_some h⟩

/-- The middleware accepts exactly a token that is a non-empty text, verifies, and names
a stored user whose `isVerified` is true, the lookup not being rejected. -/
theorem authenticate_cases (verify : JsString → Option TokenSubject) (env : Faults) (s : State)
    (token : JsValue) :
    (∃ text id user, token = .string text ∧ text ≠ [] ∧ verify text = some (.oid id) ∧
      env.userFindFails = false ∧ User.findById s.users id = some user ∧
      user.isVerified = true ∧ authenticate verify env s token = .ok user) ∨
    ∃ e, authenticate verify env s token = .error e := by
  unfold authenticate
  by_cases ht : (!token.truthy) = true
  · exact Or.inr ⟨.authenticationRequired, by simp [ht]⟩
  · simp only [ht, Bool.false_eq_true, if_false]
    cases token with
    | string text =>
      have hne : text ≠ [] := by
        intro h
        subst h
        simp [JsValue.truthy] at ht
      cases hv : verify text with
      | none => exact Or.inr ⟨.invalidToken, by simp [hv]⟩
      | some wire =>
        cases wire with
        | uncastable => exact Or.inr ⟨.invalidToken, by simp [hv]⟩
        | absent =>
          by_cases hf : env.userFindFails = true
          · exact Or.inr ⟨.invalidToken, by simp [hv, hf]⟩
          · exact Or.inr ⟨.userNotFoundOrNotVerified, by simp [hv, hf]⟩
        | oid id =>
          by_cases hf : env.userFindFails = true
          · exact Or.inr ⟨.invalidToken, by simp [hv, hf]⟩
          · have hf2 : env.userFindFails = false := by simpa using hf
            cases hu : User.findById s.users id with
            | none => exact Or.inr ⟨.userNotFoundOrNotVerified, by simp [hv, hf2, hu]⟩
            | some user =>
              by_cases hver : user.isVerified = true
              · exact Or.inl ⟨text, id, user, rfl, hne, hv, hf2, hu, hver,
                  by simp [hv, hf2, hu, hver]⟩
              · exact Or.inr ⟨.userNotFoundOrNotVerified, by simp [hv, hf2, hu, hver]⟩
    | undefined => exact Or.inr ⟨.invalidToken, rfl⟩
    | null => exact Or.inr ⟨.invalidToken, rfl⟩
    | bool b => exact Or.inr ⟨.invalidToken, rfl⟩
    | number n => exact Or.inr ⟨.invalidToken, rfl⟩

/-- C21: a connection attempt either is accepted, and then the token is a non-empty text
that verifies and names a stored user whose isVerified is true (the lookup not rejected):
the connection handler runs for that user, the registry maps the user to the new session
and, unless the store rejects the status update, the user's online flag is set and
user_online goes to every other live session; or it is rejected with an error, and then the
state (registry, users and all) is unchanged and nothing is emitted. -/
theorem handshake_session_only_if_verified (verify : JsString → Option TokenSubject) (env : Faults)
    (s : State) (socketId : SocketId) (token : JsValue) :
    (∃ text id user, token = .string text ∧ text ≠ [] ∧ verify text = some (.oid id) ∧
      env.userFindFails = false ∧ user ∈ s.users ∧ user._id = id ∧ user.isVerified = true ∧
      (handshake verify env s socketId token).error = none ∧
      ((handshake verify env s socketId token).state,
        (handshake verify env s socketId token).emits) =
          connection env s { id := socketId, userId := id, email := user.email } ∧
      getSocketId (handshake verify env s socketId token).state id = some socketId ∧
      (env.userUpdateFails = false →
        (∃ u, User.findById (handshake verify env s socketId token).state.users id = some u ∧
          u.isOnline = true) ∧
        ∀ k ∈ s.sockets, k.id ≠ socketId →
          ({ target := k.id, event := .user_online id user.email } : Emit) ∈
            (handshake verify env s socketId token).emits)) ∨
    (∃ e, (handshake verify env s socketId token).error = some e ∧
      (handshake verify env s socketId token).state = s ∧
      (handshake verify env s socketId token).emits = []) := by
  rcases authenticate_cases verify env s token with
    ⟨text, id, user, htoken, hne, hv, hf, hfind, hver, hauth⟩ | ⟨e, hauth⟩
  · left
    obtain ⟨hmem, hid⟩ := findById_some hfind
    have hshake : handshake verify env s socketId token =
        { state := (connection env s { id := socketId, userId := id, email := user.email }).1,
          emits := (connection env s { id := socketId, userId := id, email := user.email }).2,
          error := none } := by
      unfold handshake
      rw [hauth]
      simp only [hid]
    refine ⟨text, id, user, htoken, hne, hv, hf, hmem, hid, hver, ?_, ?_, ?_, ?_⟩
    · rw [hshake]
    · rw [hshake]
    · rw [hshake]
      unfold getSocketId connection
      by_cases hup : env.userUpdateFails = true
      · simp only [hup, if_true]
        exact mapGet_mapSet_self _ _ _
      · simp only [hup, Bool.false_eq_true, if_false]
        exact mapGet_mapSet_self _ _ _
    · intro hup
      rw [hshake]
      rw [connection_ok env s _ hup]
      constructor
      · refine ⟨{ user with isOnline := true, lastSeen := s.clock + env.tick }, ?_, rfl⟩
        show User.findById (updateFirst (fun u => u._id == id)
          (fun u => { u with isOnline := true, lastSeen := s.clock + env.tick }) s.users) id = _
        rw [findById_updateFirst s.users id
          (fun u : User => { u with isOnline := true, lastSeen := s.clock + env.tick })
          (fun _ => rfl), hfind]
        rfl
      · intro k hk hne2
        simp only [List.mem_map, List.mem_filter]
        exact ⟨k, ⟨hk, by simpa using hne2⟩, rfl⟩
  · right
    refine ⟨e, ?_, ?_, ?_⟩ <;>
    · unfold handshake
      rw [hauth]

/-! ## Store failures on the live channel -/

theorem sendMessage_findOne_rejected (env : Faults) (s : State) (socket : Socket)
    (data : Option SendMessageData) (hfail : env.findOneFails = true) :
    ∃ msg, sendMessage env s socket data =
      (s, [{ target := socket.id, event := .error msg }]) := by
  unfold sendMessage
  cases data with
  | none => exact ⟨.failedToSendMessage, rfl⟩
  | some d =>
    by_cases hg : (!d.chatId.truthy || !d.content.truthy) = true
    · exact ⟨.invalidMessageData, by simp [hg]⟩
    · simp only [hg]
      cases hcontent : d.content with
      | string str =>
        by_cases he : (trim str).isEmpty = true
        · exact ⟨.invalidMessageData, by simp [he]⟩
        · cases hchat : d.chatId with
          | oid id => exact ⟨.failedToSendMessage, by simp [he, hfail]⟩
          | variant id text => exact ⟨.failedToSendMessage, by simp [he, hfail]⟩
          | missing => exact ⟨.failedToSendMessage, by simp [he]⟩
          | malformed => exact ⟨.failedToSendMessage, by simp [he]⟩
      | undefined => exact ⟨.failedToSendMessage, by simp⟩
      | null => exact ⟨.failedToSendMessage, by simp⟩
      | bool b => exact ⟨.failedToSendMessage, by simp⟩
      | number n => exact ⟨.failedToSendMessage, by simp⟩

/-- C22 (counterexample): with the lookup of the chat rejected by the store, send_message
answers Alice with an error event, but join for the same chat emits nothing; and join or
mark_seen whose update of the seen flags is rejected emit nothing either. -/
theorem join_failure_not_surfaced :
    (sendMessage { calm with findOneFails := true } bobJoined socketA
      (some { chatId := .oid 10, content := .string hi })).2 =
        [{ target := 100, event := .error .failedToSendMessage }] ∧
    (join { calm with findOneFails := true } bobJoined socketA 10).2 = [] ∧
    (join { calm with markSeenFails := true } bobJoined socketA 10).2 = [] ∧
    (markSeen { calm with markSeenFails := true } bobJoined socketA 10).2 = [] := by
  decide

/-- C22 (amended): when the store rejects the lookup of the chat or the update of the seen
flags, join emits no event at all, to the caller or anyone else (a rejected lookup also
leaves the state as it was); mark_seen whose update is rejected emits no event at all;
send_message, for any payload, answers a rejected lookup with an error event to the
caller. -/
theorem join_markSeen_failures_silent (env : Faults) (s : State) (socket : Socket)
    (chatId : ObjectId) (data : Option SendMessageData)
    (hfail : env.findOneFails = true ∨ env.markSeenFails = true) :
    (join env s socket chatId).2 = [] ∧
    (env.findOneFails = true → join env s socket chatId = (s, [])) ∧
    (env.markSeenFails = true → (markSeen env s socket chatId).2 = []) ∧
    (env.findOneFails = true →
      ∃ msg, (sendMessage env s socket data).2 =
        [{ target := socket.id, event := .error msg }]) := by
  refine ⟨?_, ?_, ?_, ?_⟩
  · unfold join
    by_cases hf : env.findOneFails = true
    · simp [hf]
    · have hm : env.markSeenFails = true := hfail.resolve_left hf
      simp only [hf, Bool.false_eq_true, if_false]
      cases Chat.findOne s.chats chatId socket.userId with
      | none => rfl
      | some chat => simp [Message.markAsSeen, hm]
  · intro hf
    simp [join, hf]
  · intro hm
    simp [markSeen, Message.markAsSeen, hm]
  · intro hf
    obtain ⟨msg, h⟩ := sendMessage_findOne_rejected env s socket data hf
    exact ⟨msg, by rw [h]⟩

/-- C22 (witness): Alice's join while the store rejects the lookup of the chat. -/
theorem join_markSeen_failures_silent_witness :
    (join { calm with findOneFails := true } bobJoined socketA 10).2 = [] ∧
    join { calm with findOneFails := true } bobJoined socketA 10 = (bobJoined, []) :=
  have h := join_markSeen_failures_silent { calm with findOneFails := true } bobJoined socketA
    10 none (Or.inl rfl)
  ⟨h.1, h.2.1 rfl⟩

/-- The handshake at work: a token that verifies to Alice opens a session for her; no
token, a token that is not a text and a token that does not verify open none. -/
theorem handshake_examples :
    (handshake verifyOnly calm initialState 100 (.string [116])).error = none ∧
    getSocketId (handshake verifyOnly calm initialState 100 (.string [116])).state 1 =
      some 100 ∧
    handshake verifyOnly calm initialState 100 .undefined =
      { state := initialState, emits := [], error := some .authenticationRequired } ∧
    handshake verifyOnly calm initialState 100 (.number 7) =
      { state := initialState, emits := [], error := some .invalidToken } ∧
    handshake verifyOnly calm initialState 100 (.string [117]) =
      { state := initialState, emits := [], error := some .invalidToken } := by
  decide

/-! ## Payloads without the expected shape -/

/-- C27: a typing event that carries no payload makes the handler throw outside any try,
which the process answers by exiting with code 1; send_message, whose body is inside a try,
completes for every payload, the missing one included, and typing completes for every
payload that is present. -/
theorem typing_without_payload_exits (s : State) (socket : Socket) :
    typing s socket none = .uncaughtException ∧
    exitCode (typing s socket none) = some 1 ∧
    (∀ env data, exitCode (sendMessageOutcome env s socket data) = none) ∧
    (∀ env, (sendMessage env s socket none).2 =
      [{ target := socket.id, event := .error .failedToSendMessage }]) ∧
    ∀ d, exitCode (typing s socket (some d)) = none :=
  ⟨rfl, rfl, fun _ _ => rfl, fun _ => rfl, fun _ => rfl⟩

/-! ## The display name -/

/-- C29: whatever displayName the user object carries, sanitizeUser answers with the email
up to its first at-sign.  Alice, whose email is a@x.io, sets the displayName "Al" through
PUT /auth/me: the stored document and its virtual name say "Al", while the user returned by
that request and by GET /auth/me afterwards says "a". -/
theorem sanitizeUser_ignores_displayName :
    (∀ userObj : UserObject,
      (sanitizeUser userObj).displayName = userObj.email.takeWhile fun c => c != 64) ∧
    ((putMe calm initialState alice (some al) none).1.users.map
      fun u => (u._id, u.displayName, u.name)) =
        [(1, some al, al), (2, none, [98]), (3, none, [99])] ∧
    (∃ user, (putMe calm initialState alice (some al) none).2 = .ok user ∧
      user.displayName = [97]) ∧
    ∃ user, getMe { alice with displayName := some al } = .ok user ∧
      user.displayName = [97] :=
  ⟨fun _ => rfl, by decide, ⟨_, rfl, by decide⟩, ⟨_, rfl, by decide⟩⟩

/-! ## The client's list -/

/-- C24 (counterexample): Bob's client has the chat open and is in its room.  Alice's
send_message has stored its message when the client's load of the chat is answered, so the
page holds message 11; the call then emits receive_message for message 11, and the client
appends it: the list holds the message twice. -/
theorem client_list_duplicates :
    listedIds bobLoads.2 = [11] ∧
    (receivedBy 200 aliceDelivers.2).map (fun m => m._id) = [11] ∧
    ((receivedBy 200 aliceDelivers.2).foldl (handleNewMessage 10)
      (loadMessages [] (listedMessages bobLoads.2))).map ClientMessage._id = [11, 11] := by
  decide

/-- C24 (amended): loading replaces the list by the page, entry for entry; a live message
of the open chat is appended whatever the list holds, and one of another chat is dropped.
So when the ids in the list are distinct and the live message, if it is of the open chat,
has an id the list does not hold yet, the ids are distinct afterwards too. -/
theorem handleNewMessage_keeps_distinct (chatId : ObjectId) (prev : List ClientMessage)
    (message : ReceivedMessage)
    (hprev : (prev.map ClientMessage._id).Nodup)
    (hfresh : message.chatId = chatId → message._id ∉ prev.map ClientMessage._id) :
    ((handleNewMessage chatId prev message).map ClientMessage._id).Nodup ∧
    (handleNewMessage chatId prev message).map ClientMessage._id =
      prev.map ClientMessage._id ++ (if message.chatId = chatId then [message._id] else []) ∧
    ∀ (old : List ClientMessage) (page : List PopulatedMessage),
      (loadMessages old page).map ClientMessage._id = page.map fun m => m._id := by
  have hids : (handleNewMessage chatId prev message).map ClientMessage._id =
      prev.map ClientMessage._id ++
        (if message.chatId = chatId then [message._id] else []) := by
    unfold handleNewMessage
    by_cases hc : message.chatId = chatId
    · simp [hc, ClientMessage._id]
    · simp [hc]
  refine ⟨?_, hids, ?_⟩
  · rw [hids]
    by_cases hc : message.chatId = chatId
    · rw [if_pos hc]
      exact List.Nodup.append hprev (List.nodup_singleton _)
        (by
          intro x hx hx2
          rw [List.mem_singleton] at hx2
          subst hx2
          exact hfresh hc hx)
    · rw [if_neg hc, List.append_nil]
      exact hprev
  · intro old page
    simp [loadMessages, ClientMessage._id, Function.comp_def]

/-- C24 (witness): the page holds message 11 and a live message 12 of the chat arrives. -/
theorem handleNewMessage_keeps_distinct_witness :
    ((handleNewMessage 10 (loadMessages [] (listedMessages bobLoads.2))
      { _id := 12, chatId := 10, senderId := none, content := hi, seen := false,
        createdAt := 9 }).map ClientMessage._id).Nodup :=
  (handleNewMessage_keeps_distinct 10 (loadMessages [] (listedMessages bobLoads.2))
    { _id := 12, chatId := 10, senderId := none, content := hi, seen := false,
      createdAt := 9 } (by decide) (by decide)).1

/-! ## Sends that overlap -/

theorem sendRun_succ (env : Faults) (socket : Socket) (n : Nat) (s : State)
    (stage : SendStage) :
    sendRun env socket (n + 1) s stage =
      ((sendRun env socket n (sendStep env s socket stage).1
          (sendStep env s socket stage).2.2).1,
        (sendStep env s socket stage).2.1 ++
          (sendRun env socket n (sendStep env s socket stage).1
            (sendStep env s socket stage).2.2).2) :=
  rfl

theorem sendRun_finished (env : Faults) (socket : Socket) (n : Nat) (s : State) :
    sendRun env socket n s .finished = (s, []) := by
  induction n with
  | zero => rfl
  | succ n ih =>
    rw [sendRun_succ]
    show ((sendRun env socket n s .finished).1, [] ++ (sendRun env socket n s .finished).2) = _
    rw [ih]
    rfl

theorem sendRun_of_finished_step (env : Faults) (socket : Socket) (n : Nat) (s s1 : State)
    (stage : SendStage) (emits : List Emit)
    (h : sendStep env s socket stage = (s1, emits, .finished)) :
    sendRun env socket (n + 1) s stage = (s1, emits) := by
  rw [sendRun_succ, h]
  simp [sendRun_finished]

theorem sendRun_of_step (env : Faults) (socket : Socket) (n : Nat) (s s1 : State)
    (stage next : SendStage)
    (h : sendStep env s socket stage = (s1, [], next)) :
    sendRun env socket (n + 1) s stage = sendRun env socket n s1 next := by
  rw [sendRun_succ, h]
  simp

theorem create_eq_save (env : Faults) (s : State) (chatId senderId : ObjectId)
    (content : JsString) :
    Message.create env s chatId senderId content =
      Message.save env { s with clock := s.clock + env.tick } chatId senderId content
        (s.clock + env.tick) :=
  rfl

theorem updateLastMessage_eq_apply (env : Faults) (s : State) (chatId : ObjectId)
    (message : Message) :
    Chat.updateLastMessage env s chatId message =
      Chat.applyLastMessage env { s with clock := s.clock + env.tick } chatId message
        (s.clock + env.tick) :=
  rfl

/-- The turns of a call run alone, one after the other, are the handler. -/
theorem sendRun_eq_sendMessage (env : Faults) (s : State) (socket : Socket)
    (data : Option SendMessageData) :
    sendRun env socket 4 s (.received data) = sendMessage env s socket data := by
  cases data with
  | none => rfl
  | some d =>
    obtain ⟨wire, content⟩ := d
    have hfin : ∀ emits : List Emit,
        sendStep env s socket (.received (some { chatId := wire, content := content })) =
          (s, emits, .finished) →
        sendMessage env s socket (some { chatId := wire, content := content }) = (s, emits) →
        sendRun env socket 4 s (.received (some { chatId := wire, content := content })) =
          sendMessage env s socket (some { chatId := wire, content := content }) := by
      intro emits h1 h2
      rw [sendRun_of_finished_step env socket 3 s s _ emits h1, h2]
    cases content with
    | string str =>
      by_cases he : (trim str).isEmpty = true
      · exact hfin [{ target := socket.id, event := .error .invalidMessageData }]
          (by simp [sendStep, he]) (by simp [sendMessage, he])
      · have hne : (trim str).isEmpty = false := by simpa using he
        have hc := content_nonempty_of_trim hne
        have hwire : wire.truthy = false ∨ wire.cast = none ∧ wire.truthy = true ∨
            ∃ chatId, wire.cast = some chatId ∧ wire.truthy = true := by
          cases wire with
          | oid id => exact Or.inr (Or.inr ⟨id, rfl, rfl⟩)
          | variant id text => exact Or.inr (Or.inr ⟨id, rfl, rfl⟩)
          | missing => exact Or.inl rfl
          | malformed => exact Or.inr (Or.inl ⟨rfl, rfl⟩)
        rcases hwire with ht | ⟨hnc, ht⟩ | ⟨chatId, hcast, ht⟩
        · exact hfin [{ target := socket.id, event := .error .invalidMessageData }]
            (by simp [sendStep, ht]) (by simp [sendMessage, ht])
        · have hm : wire = .malformed := by
            cases wire with
            | oid id => simp [WireId.cast] at hnc
            | variant id text => simp [WireId.cast] at hnc
            | missing => simp [WireId.truthy] at ht
            | malformed => rfl
          subst hm
          exact hfin [{ target := socket.id, event := .error .failedToSendMessage }]
            (by simp [sendStep, hne, hc, JsValue.truthy, WireId.truthy, WireId.cast])
            (by simp [sendMessage, hne, hc, JsValue.truthy, WireId.truthy])
        · by_cases hf : env.findOneFails = true
          · have hs : sendMessage env s socket
                (some { chatId := wire, content := .string str }) =
                (s, [{ target := socket.id, event := .error .failedToSendMessage }]) := by
              cases wire with
              | oid id =>
                simp [sendMessage, hne, hc, hf, JsValue.truthy, WireId.truthy]
              | variant id text =>
                simp [sendMessage, hne, hc, hf, JsValue.truthy, WireId.truthy]
              | missing => simp [WireId.cast] at hcast
              | malformed => simp [WireId.cast] at hcast
            exact hfin [{ target := socket.id, event := .error .failedToSendMessage }]
              (by simp [sendStep, hne, hc, hf, ht, hcast, JsValue.truthy]) hs
          · have hf2 : env.findOneFails = false := by simpa using hf
            cases hfound : Chat.findOne s.chats chatId socket.userId with
            | none =>
              have hs : sendMessage env s socket
                  (some { chatId := wire, content := .string str }) =
                  (s, [{ target := socket.id, event := .error .chatNotFound }]) := by
                cases wire with
                | oid id =>
                  simp only [WireId.cast, Option.some.injEq] at hcast
                  subst hcast
                  simp [sendMessage, hne, hc, hf2, hfound, JsValue.truthy, WireId.truthy]
                | variant id text =>
                  simp only [WireId.cast, Option.some.injEq] at hcast
                  subst hcast
                  simp [sendMessage, hne, hc, hf2, hfound, JsValue.truthy, WireId.truthy]
                | missing => simp [WireId.cast] at hcast
                | malformed => simp [WireId.cast] at hcast
              exact hfin [{ target := socket.id, event := .error .chatNotFound }]
                (by simp [sendStep, hne, hc, hf2, hfound, ht, hcast, JsValue.truthy]) hs
            | some chat =>
              rw [sendRun_of_step env socket 3 s { s with clock := s.clock + env.tick } _
                (.creating chat chatId wire (trim str) (s.clock + env.tick))
                (by simp [sendStep, hne, hc, hf2, hfound, ht, hcast, JsValue.truthy]),
                sendMessage_castable env s socket wire chatId str chat hcast hne hf2 hfound,
                create_eq_save]
              cases hcr : Message.save env { s with clock := s.clock + env.tick } chatId
                  socket.userId (trim str) (s.clock + env.tick) with
              | mk s1 res =>
                cases res with
                | none =>
                  exact sendRun_of_finished_step env socket 2 _ s1 _ _
                    (by simp [sendStep, hcr])
                | some message =>
                  rw [sendRun_of_step env socket 2 _ { s1 with clock := s1.clock + env.tick } _
                    (.updating chat chatId wire message (s1.clock + env.tick))
                    (by simp [sendStep, hcr])]
                  simp only []
                  rw [updateLastMessage_eq_apply]
                  cases hup : Chat.applyLastMessage env
                      { s1 with clock := s1.clock + env.tick } chatId message
                      (s1.clock + env.tick) with
                  | mk s2 ok =>
                    cases ok with
                    | false =>
                      exact sendRun_of_finished_step env socket 1 _ s2 _ _
                        (by simp [sendStep, hup])
                    | true =>
                      rw [sendRun_of_step env socket 1 _ s2 _
                        (.populating chat wire message) (by simp [sendStep, hup])]
                      simp only []
                      by_cases hpop : env.populateFails = true
                      · rw [if_pos hpop]
                        exact sendRun_of_finished_step env socket 0 s2 s2 _ _
                          (by simp [sendStep, hpop])
                      · rw [if_neg hpop]
                        exact sendRun_of_finished_step env socket 0 s2 s2 _ _
                          (by simp only [sendStep, hpop, Bool.false_eq_true, if_false])
    | undefined =>
      exact hfin [{ target := socket.id, event := .error .invalidMessageData }]
        (by simp [sendStep, JsValue.truthy]) (by simp [sendMessage, JsValue.truthy])
    | null =>
      exact hfin [{ target := socket.id, event := .error .invalidMessageData }]
        (by simp [sendStep, JsValue.truthy]) (by simp [sendMessage, JsValue.truthy])
    | bool b =>
      cases b with
      | false =>
        exact hfin [{ target := socket.id, event := .error .invalidMessageData }]
          (by simp [sendStep, JsValue.truthy]) (by simp [sendMessage, JsValue.truthy])
      | true =>
        by_cases ht : wire.truthy = true
        · exact hfin [{ target := socket.id, event := .error .failedToSendMessage }]
            (by simp [sendStep, JsValue.truthy, ht])
            (by simp [sendMessage, JsValue.truthy, ht])
        · exact hfin [{ target := socket.id, event := .error .invalidMessageData }]
            (by simp [sendStep, JsValue.truthy, ht])
            (by simp [sendMessage, JsValue.truthy, ht])
    | number n =>
      by_cases hn : n = 0
      · subst hn
        exact hfin [{ target := socket.id, event := .error .invalidMessageData }]
          (by simp [sendStep, JsValue.truthy]) (by simp [sendMessage, JsValue.truthy])
      · by_cases ht : wire.truthy = true
        · exact hfin [{ target := socket.id, event := .error .failedToSendMessage }]
            (by simp [sendStep, JsValue.truthy, ht, hn])
            (by simp [sendMessage, JsValue.truthy, ht, hn])
        · exact hfin [{ target := socket.id, event := .error .invalidMessageData }]
            (by simp [sendStep, JsValue.truthy, ht, hn])
            (by simp [sendMessage, JsValue.truthy, ht, hn])


/-- Two calls of which the second takes its first turn after the last turn of the
first are two runs of the handler, one after the other. -/
theorem interleave_sequential (s : State) (a b : Call) :
    interleave s a b [true, true, true, true, false, false, false, false] =
      ((sendRun b.env b.socket 4 (sendRun a.env a.socket 4 s a.stage).1 b.stage).1,
        (sendRun a.env a.socket 4 s a.stage).2 ++
          (sendRun b.env b.socket 4 (sendRun a.env a.socket 4 s a.stage).1 b.stage).2) := by
  simp only [interleave, sendRun, List.append_nil, List.append_assoc]

theorem receivedBy_append (sid : SocketId) (a b : List Emit) :
    receivedBy sid (a ++ b) = receivedBy sid a ++ receivedBy sid b := by
  simp [receivedBy, List.filterMap_append]

theorem mem_receivedBy (sid : SocketId) (emits : List Emit) (m : ReceivedMessage) :
    m ∈ receivedBy sid emits ↔ ({ target := sid, event := .receive_message m } : Emit) ∈ emits := by
  unfold receivedBy
  rw [List.mem_filterMap]
  constructor
  · rintro ⟨e, he, h⟩
    obtain ⟨target, event⟩ := e
    by_cases ht : (target == sid) = true
    · simp only [ht, if_true] at h
      cases event with
      | receive_message m2 =>
        simp only [Option.some.injEq] at h
        subst h
        have : target = sid := by simpa using ht
        subst this
        exact he
      | error _ => cases h
      | chat_updated _ _ => cases h
      | messages_seen _ _ => cases h
      | chat_updated_raw _ _ => cases h
      | messages_seen_raw _ _ => cases h
      | user_online _ _ => cases h
      | user_offline _ _ => cases h
      | user_typing _ _ _ => cases h
    · simp only [ht, Bool.false_eq_true, if_false] at h
      cases h
  · intro h
    exact ⟨_, h, by simp⟩

/-- What a successful `send_message` delivers as `receive_message`: the new message,
to the members of the room. -/
theorem sendMessage_receivedBy (env : Faults) (s : State) (socket : Socket)
    (chatId : ObjectId) (content : JsString) (chat : Chat)
    (hfound : Chat.findOne s.chats chatId socket.userId = some chat)
    (h1 : 1 ≤ (trim content).length) (h2 : (trim content).length ≤ 5000)
    (hfind : env.findOneFails = false) (hcreate : env.createFails = false)
    (hupdate : env.updateFails = false) (hpopulate : env.populateFails = false)
    (sid : SocketId) (m : ReceivedMessage) :
    m ∈ receivedBy sid (sendMessage env s socket
        (some { chatId := .oid chatId, content := .string content })).2 ↔
      sid ∈ roomMembers s chatId ∧
        m = receivedOf s.users (newMessage env s chatId socket.userId (trim content)) := by
  rw [mem_receivedBy,
    sendMessage_all_ok env s socket chatId content chat hfound h1 h2 hfind hcreate hupdate
      hpopulate]
  simp only [List.mem_append, List.mem_map]
  constructor
  · rintro ((⟨sid2, hsid, he⟩ | hupd) | herr)
    · simp only [Emit.mk.injEq, ServerEvent.receive_message.injEq] at he
      obtain ⟨rfl, rfl⟩ := he
      exact ⟨hsid, rfl⟩
    · have := chatUpdatedLoop_events _ _ _ _ _ _ hupd
      cases this
    · split at herr
      · rw [List.mem_singleton] at herr
        cases herr
      · cases herr
  · rintro ⟨hsid, rfl⟩
    exact Or.inl (Or.inl ⟨sid, hsid, rfl⟩)

/-- C23 (counterexample): Alice's and Bob's send_message calls on their chat overlap.
Alice's call stores message 11 and then waits for its update of the snapshot; meanwhile
Bob's call stores message 12 and runs to its end.  Bob's session, a member of the room,
is sent message 12 first and message 11, created earlier, after it. -/
theorem overlapping_sends_out_of_order :
    ((interleave bobJoined aliceSends bobSends
        [true, true, false, false, false, false, true, true]).1.messages.map
      fun m => (m._id, m.senderId, m.createdAt)) = [(11, 1, 4), (12, 2, 6)] ∧
    (receivedBy 200 (interleave bobJoined aliceSends bobSends
        [true, true, false, false, false, false, true, true]).2).map
      (fun m => (m._id, m.createdAt)) = [(12, 6), (11, 4)] := by
  decide

/-- C23 (amended): two successful send_message calls on the same chat of which the second
starts after the first has ended run as two handler runs in a row; the first message is
stored before the second and is not created later, and every session is sent, as
receive_message, what the first run emits before what the second emits: the first message
for the members of the room in the first, the second message for them in the second. -/
theorem sequential_sends_in_creation_order (env1 env2 : Faults) (s : State)
    (socket1 socket2 : Socket) (chatId : ObjectId) (content1 content2 : JsString)
    (chat1 chat2 : Chat)
    (hfound1 : Chat.findOne s.chats chatId socket1.userId = some chat1)
    (hfound2 : Chat.findOne
      (stateAfterSend env1 s chatId socket1.userId (trim content1)).chats chatId
      socket2.userId = some chat2)
    (h11 : 1 ≤ (trim content1).length) (h12 : (trim content1).length ≤ 5000)
    (h21 : 1 ≤ (trim content2).length) (h22 : (trim content2).length ≤ 5000)
    (hcalm1 : env1.findOneFails = false ∧ env1.createFails = false ∧
      env1.updateFails = false ∧ env1.populateFails = false)
    (hcalm2 : env2.findOneFails = false ∧ env2.createFails = false ∧
      env2.updateFails = false ∧ env2.populateFails = false) :
    interleave s
        { env := env1, socket := socket1,
          stage := .received (some { chatId := .oid chatId, content := .string content1 }) }
        { env := env2, socket := socket2,
          stage := .received (some { chatId := .oid chatId, content := .string content2 }) }
        [true, true, true, true, false, false, false, false] =
      (stateAfterSend env2 (stateAfterSend env1 s chatId socket1.userId (trim content1))
          chatId socket2.userId (trim content2),
        (sendMessage env1 s socket1
            (some { chatId := .oid chatId, content := .string content1 })).2 ++
          (sendMessage env2 (stateAfterSend env1 s chatId socket1.userId (trim content1))
            socket2 (some { chatId := .oid chatId, content := .string content2 })).2) ∧
    (stateAfterSend env2 (stateAfterSend env1 s chatId socket1.userId (trim content1))
        chatId socket2.userId (trim content2)).messages =
      s.messages ++
        [newMessage env1 s chatId socket1.userId (trim content1),
         newMessage env2 (stateAfterSend env1 s chatId socket1.userId (trim content1))
           chatId socket2.userId (trim content2)] ∧
    (newMessage env1 s chatId socket1.userId (trim content1)).createdAt ≤
      (newMessage env2 (stateAfterSend env1 s chatId socket1.userId (trim content1))
        chatId socket2.userId (trim content2)).createdAt ∧
    ∀ sid,
      receivedBy sid
          ((sendMessage env1 s socket1
              (some { chatId := .oid chatId, content := .string content1 })).2 ++
            (sendMessage env2 (stateAfterSend env1 s chatId socket1.userId (trim content1))
              socket2 (some { chatId := .oid chatId, content := .string content2 })).2) =
        receivedBy sid (sendMessage env1 s socket1
            (some { chatId := .oid chatId, content := .string content1 })).2 ++
          receivedBy sid
            (sendMessage env2 (stateAfterSend env1 s chatId socket1.userId (trim content1))
              socket2 (some { chatId := .oid chatId, content := .string content2 })).2 ∧
      (∀ m, m ∈ receivedBy sid (sendMessage env1 s socket1
            (some { chatId := .oid chatId, content := .string content1 })).2 ↔
          sid ∈ roomMembers s chatId ∧
            m = receivedOf s.users (newMessage env1 s chatId socket1.userId (trim content1))) ∧
      (∀ m, m ∈ receivedBy sid
            (sendMessage env2 (stateAfterSend env1 s chatId socket1.userId (trim content1))
              socket2 (some { chatId := .oid chatId, content := .string content2 })).2 ↔
          sid ∈ roomMembers s chatId ∧
            m = receivedOf s.users
              (newMessage env2 (stateAfterSend env1 s chatId socket1.userId (trim content1))
                chatId socket2.userId (trim content2))) := by
  obtain ⟨hf1, hc1, hu1, hp1⟩ := hcalm1
  obtain ⟨hf2, hc2, hu2, hp2⟩ := hcalm2
  have hs1 := sendMessage_state_after_update env1 s socket1 chatId content1 chat1 hfound1 h11
    h12 hf1 hc1 hu1
  have hs2 := sendMessage_state_after_update env2
    (stateAfterSend env1 s chatId socket1.userId (trim content1)) socket2 chatId content2 chat2
    hfound2 h21 h22 hf2 hc2 hu2
  refine ⟨?_, ?_, ?_, ?_⟩
  · rw [interleave_sequential]
    simp only [sendRun_eq_sendMessage]
    rw [hs1, hs2]
  · simp [stateAfterSend]
  · show s.clock + env1.tick ≤ s.clock + env1.tick + env1.tick + env2.tick
    exact Nat.le_trans (Nat.le_add_right _ _) (Nat.le_add_right _ _)
  · intro sid
    refine ⟨receivedBy_append _ _ _, ?_, ?_⟩
    · intro m
      exact sendMessage_receivedBy env1 s socket1 chatId content1 chat1 hfound1 h11 h12 hf1
        hc1 hu1 hp1 sid m
    · intro m
      exact sendMessage_receivedBy env2
        (stateAfterSend env1 s chatId socket1.userId (trim content1)) socket2 chatId content2
        chat2 hfound2 h21 h22 hf2 hc2 hu2 hp2 sid m

/-- C23 (witness): Alice's call ends before Bob's starts; Bob's session is sent message 11
and then message 12. -/
theorem sequential_sends_in_creation_order_witness :
    (receivedBy 200 (interleave bobJoined aliceSends bobSends
        [true, true, true, true, false, false, false, false]).2).map
      (fun m => (m._id, m.createdAt)) = [(11, 4), (12, 6)] ∧
    (newMessage calm bobJoined 10 1 (trim hi)).createdAt ≤
      (newMessage calm (stateAfterSend calm bobJoined 10 1 (trim hi)) 10 2
        (trim [121, 111])).createdAt :=
  have h := sequential_sends_in_creation_order calm calm bobJoined socketA socketB 10 hi
    [121, 111]
    { chatAB with lastMessage := none }
    { chatAB with
      lastMessage := some { content := hi, senderId := 1, createdAt := 4 }, updatedAt := 5 }
    (by decide) (by decide) (by decide) (by decide) (by decide) (by decide)
    ⟨rfl, rfl, rfl, rfl⟩ ⟨rfl, rfl, rfl, rfl⟩
  ⟨by decide, h.2.2.1⟩

/-! ## A chat identifier in another spelling -/

/-- C5: Bob's session is in the room of the chat of Alice and Bob, joined under the chat's
identifier as the server writes it.  Alice sends "hi" naming the chat by the same
identifier in upper case: it casts to the chat, so the send succeeds, the message is stored
in the chat and a listing by Bob returns it; but receive_message goes to the room named by
the text as sent, which nobody is in, and Bob's session is sent no receive_message (only
chat_updated, carrying the upper-case text, reaches the two registered sessions).  Sent
with the identifier as the server writes it, the same message is delivered to Bob's
session. -/
theorem sendMessage_other_spelling_not_delivered :
    WireId.ofText chatUpper = .variant 10 chatUpper ∧
    WireId.ofText (toHexString 10) = .oid 10 ∧
    roomMembers bobJoined 10 = [200] ∧
    ((sendMessage calm bobJoined socketA
        (some { chatId := WireId.ofText chatUpper, content := .string hi })).1.messages.map
      fun m => (m._id, m.chatId, m.senderId, m.content)) = [(11, 10, 1, hi)] ∧
    listedIds (getMessages calm (sendMessage calm bobJoined socketA
        (some { chatId := WireId.ofText chatUpper, content := .string hi })).1 2 10 0 none).2 =
      [11] ∧
    receivedBy 200 (sendMessage calm bobJoined socketA
        (some { chatId := WireId.ofText chatUpper, content := .string hi })).2 = [] ∧
    (sendMessage calm bobJoined socketA
        (some { chatId := WireId.ofText chatUpper, content := .string hi })).2 =
      [{ target := 100,
         event := .chat_updated_raw chatUpper { content := hi, senderId := 1, createdAt := 4 } },
       { target := 200,
         event := .chat_updated_raw chatUpper
          { content := hi, senderId := 1, createdAt := 4 } }] ∧
    (receivedBy 200 (sendMessage calm bobJoined socketA
        (some { chatId := WireId.ofText (toHexString 10), content := .string hi })).2).map
      (fun m => m._id) = [11] := by
  decide

/-- C9: Alice's session is in the room of the chat of Alice and Bob, where her "hi" is
unseen.  Bob, a participant, joins naming the chat by its identifier in upper case: the
identifier casts to the chat, so the message becomes seen; but the session is put in the
room named by the text as sent, not in the chat's room, and messages_seen goes to the other
members of that room, of which there are none: Alice's session is sent nothing.  Joining
with the identifier as the server writes it puts Bob's session in the chat's room and
sends messages_seen to Alice's session. -/
theorem join_other_spelling_not_notified :
    WireId.ofText chatUpper = .variant 10 chatUpper ∧
    roomMembers aliceWaiting 10 = [100] ∧
    (aliceWaiting.messages.map fun m => (m._id, m.senderId, m.seen)) = [(11, 1, false)] ∧
    ((joinAs calm aliceWaiting socketB 10 chatUpper).1.messages.map
      fun m => (m._id, m.senderId, m.seen)) = [(11, 1, true)] ∧
    (joinAs calm aliceWaiting socketB 10 chatUpper).2 = [] ∧
    roomMembers (joinAs calm aliceWaiting socketB 10 chatUpper).1 10 = [100] ∧
    roomMembersNamed (joinAs calm aliceWaiting socketB 10 chatUpper).1 chatUpper = [200] ∧
    roomMembers (join calm aliceWaiting socketB 10).1 10 = [100, 200] ∧
    (join calm aliceWaiting socketB 10).2 =
      [{ target := 100, event := .messages_seen 10 2 }] := by
  decide

end ChatMassage
